import Mathlib

/-
Verification of the clocked sequential subsystem of a Nand2Tetris-style
hardware simulator (gate library, edge-triggered storage, hierarchical RAM,
program counter, clock).

The definitions below are a shallow embedding of the Python sources:
  chips/chip.py                    (int_to_bool_list, bool_list_to_int, input_handling)
  chips/P1_elementary_logic_gates.py  (Nand, Not, Or, And, Xor, Mux, Dmux)
  chips/P1_16bit_logic_gates.py    (MuxN)
  chips/P1_multi_way_logic_gates.py (Mux4Way16, Mux8Way16, DMux4Way, DMux8Way)
  chips/P2_Adding.py               (HalfAdder, FullAdder, AddN, Inc16)
  chips/P3_sequential_chips.py     (DFF, Bit, RegisterN, RAM8..RAM16K, PC)
  chips/clock.py                   (Clock)

Modelling conventions:
  - Python bool lists are List Bool, integers are Nat.
  - Object state is a structure; each mutating method becomes a function
    from the old state (plus arguments) to the new state.
  - Python raises ValueError from input_handling when a supplied list has
    the wrong length; this error path is modelled by the *_checked wrappers
    below, which return the (expected, actual) lengths carried by the
    ValueError message paired with the post-call state.  The unchecked
    functions are the method bodies after validation; on the well-shaped
    inputs produced inside the composite chips both agree with the source.
  - A compute method on a list of the wrong arity is unreachable in the
    source (input_handling raises first); the Lean translation returns []
    on that dead branch.
  - Indexing a validated list (inputs[19] and the like) is translated with
    getD, which agrees with Python indexing on every in-range access.
-/

/-- From chip.py int_to_bool_list: convert integer to list of boolean bits,
least significant bit first. -/
def int_to_bool_list (value : Nat) (bits : Nat) : List Bool :=
  (List.range bits).map (fun i => (value >>> i) &&& 1 == 1)

/-- From chip.py bool_list_to_int: sum of 1 <<< i over the indices i whose bit
is set (enumerate gives the index first). -/
def bool_list_to_int (bits : List Bool) : Nat :=
  bits.enum.foldl (fun acc p => if p.2 then acc + (1 <<< p.1) else acc) 0

/-- From chip.py Chip.input_handling: the length validation step.  A length
mismatch raises ValueError carrying the expected and the actual length;
the pair (expected, actual) models that error. -/
def input_handling (inputs : List Bool) (num_inputs : Nat) :
    Except (Nat × Nat) (List Bool) :=
  if inputs.length ≠ num_inputs then .error (num_inputs, inputs.length)
  else .ok inputs

/-- P1_elementary_logic_gates.py Nand.compute. -/
def Nand.compute : List Bool → List Bool
  | [a, b] => [!(a && b)]
  | _ => []

/-- P1_elementary_logic_gates.py Not.compute: nand of the doubled input. -/
def Not.compute (input : List Bool) : List Bool :=
  Nand.compute (input ++ input)

/-- P1_elementary_logic_gates.py Or.compute via De Morgan. -/
def Or.compute : List Bool → List Bool
  | [a, b] =>
    let not_a := (Not.compute [a]).getD 0 false
    let not_b := (Not.compute [b]).getD 0 false
    [(Nand.compute [not_a, not_b]).getD 0 false]
  | _ => []

/-- P1_elementary_logic_gates.py And.compute: nand then not. -/
def And.compute : List Bool → List Bool
  | [a, b] =>
    let a_nand_b := (Nand.compute [a, b]).getD 0 false
    [(Not.compute [a_nand_b]).getD 0 false]
  | _ => []

/-- P1_elementary_logic_gates.py Xor.compute: a(~b) + (~a)b. -/
def Xor.compute : List Bool → List Bool
  | [a, b] =>
    let not_a := (Not.compute [a]).getD 0 false
    let not_b := (Not.compute [b]).getD 0 false
    let only_a := (And.compute [a, not_b]).getD 0 false
    let only_b := (And.compute [not_a, b]).getD 0 false
    [(Or.compute [only_a, only_b]).getD 0 false]
  | _ => []

/-- P1_elementary_logic_gates.py Mux.compute: (~sel)a + (sel)b. -/
def Mux.compute : List Bool → List Bool
  | [sel, a, b] =>
    let not_sel := (Not.compute [sel]).getD 0 false
    let sel_a := (And.compute [not_sel, a]).getD 0 false
    let sel_b := (And.compute [sel, b]).getD 0 false
    [(Or.compute [sel_a, sel_b]).getD 0 false]
  | _ => []

/-- P1_elementary_logic_gates.py Dmux.compute. -/
def Dmux.compute : List Bool → List Bool
  | [sel, input] =>
    let not_sel := (Not.compute [sel]).getD 0 false
    let sel_out_1 := (And.compute [not_sel, input]).getD 0 false
    let sel_out_2 := (And.compute [sel, input]).getD 0 false
    [sel_out_1, sel_out_2]
  | _ => []

/-- P1_16bit_logic_gates.py MuxN.compute: sel = inputs[0],
x = inputs[1 : num_bits+1], y = inputs[num_bits+1 :], bitwise Mux. -/
def MuxN.compute (num_bits : Nat) (inputs : List Bool) : List Bool :=
  let sel := inputs.getD 0 false
  let x := (inputs.drop 1).take num_bits
  let y := inputs.drop (num_bits + 1)
  (List.range num_bits).map
    (fun bit => (Mux.compute [sel, x.getD bit false, y.getD bit false]).getD 0 false)

/-- P1_multi_way_logic_gates.py Mux4Way16.compute. -/
def Mux4Way16.compute (inputs : List Bool) : List Bool :=
  let s0 := inputs.getD 0 false
  let s1 := inputs.getD 1 false
  let inputs_1 := (inputs.drop 2).take 16
  let inputs_2 := (inputs.drop 18).take 16
  let inputs_3 := (inputs.drop 34).take 16
  let inputs_4 := (inputs.drop 50).take 16
  let mux_0 := MuxN.compute 16 ([s0] ++ inputs_1 ++ inputs_2)
  let mux_1 := MuxN.compute 16 ([s0] ++ inputs_3 ++ inputs_4)
  MuxN.compute 16 ([s1] ++ mux_0 ++ mux_1)

/-- P1_multi_way_logic_gates.py Mux8Way16.compute. -/
def Mux8Way16.compute (inputs : List Bool) : List Bool :=
  let s0 := inputs.getD 0 false
  let s1 := inputs.getD 1 false
  let s2 := inputs.getD 2 false
  let inputs_1 := (inputs.drop 3).take 16
  let inputs_2 := (inputs.drop 19).take 16
  let inputs_3 := (inputs.drop 35).take 16
  let inputs_4 := (inputs.drop 51).take 16
  let inputs_5 := (inputs.drop 67).take 16
  let inputs_6 := (inputs.drop 83).take 16
  let inputs_7 := (inputs.drop 99).take 16
  let inputs_8 := (inputs.drop 115).take 16
  let mux_0 := Mux4Way16.compute ([s0, s1] ++ inputs_1 ++ inputs_2 ++ inputs_3 ++ inputs_4)
  let mux_1 := Mux4Way16.compute ([s0, s1] ++ inputs_5 ++ inputs_6 ++ inputs_7 ++ inputs_8)
  MuxN.compute 16 ([s2] ++ mux_0 ++ mux_1)

/-- P1_multi_way_logic_gates.py DMux4Way.compute. -/
def DMux4Way.compute : List Bool → List Bool
  | [s0, s1, input] =>
    let m := Dmux.compute [s1, input]
    let o01 := Dmux.compute [s0, m.getD 0 false]
    let o23 := Dmux.compute [s0, m.getD 1 false]
    [o01.getD 0 false, o01.getD 1 false, o23.getD 0 false, o23.getD 1 false]
  | _ => []

/-- P1_multi_way_logic_gates.py DMux8Way.compute. -/
def DMux8Way.compute : List Bool → List Bool
  | [s0, s1, s2, input] =>
    let d := Dmux.compute [s2, input]
    DMux4Way.compute [s0, s1, d.getD 0 false] ++ DMux4Way.compute [s0, s1, d.getD 1 false]
  | _ => []

/-- P2_Adding.py HalfAdder.compute. -/
def HalfAdder.compute : List Bool → List Bool
  | [a, b] =>
    let carry_out := (And.compute [a, b]).getD 0 false
    let sum := (Xor.compute [a, b]).getD 0 false
    [sum, carry_out]
  | _ => []

/-- P2_Adding.py FullAdder.compute: two half adders and an or. -/
def FullAdder.compute : List Bool → List Bool
  | [a, b, c_in] =>
    let h1 := HalfAdder.compute [a, b]
    let a_xor_b := h1.getD 0 false
    let a_and_b := h1.getD 1 false
    let h2 := HalfAdder.compute [a_xor_b, c_in]
    let sum := h2.getD 0 false
    let c_in_and_a_xor_b := h2.getD 1 false
    [sum, (Or.compute [c_in_and_a_xor_b, a_and_b]).getD 0 false]
  | _ => []

/-- P2_Adding.py AddN.compute: ripple carry loop over range(num_bits),
appending each sum bit and threading the carry, final carry discarded. -/
def AddN.compute (num_bits : Nat) (inputs : List Bool) : List Bool :=
  let a := inputs.take num_bits
  let b := inputs.drop num_bits
  ((List.range num_bits).foldl
    (fun (acc : List Bool × Bool) n =>
      let fa := FullAdder.compute [a.getD n false, b.getD n false, acc.2]
      (acc.1 ++ [fa.getD 0 false], fa.getD 1 false))
    ([], false)).1

/-- P2_Adding.py Inc16.compute: add the constant one (LSB-first 16-bit). -/
def Inc16.compute (inputs : List Bool) : List Bool :=
  AddN.compute 16 (inputs ++ [true, false, false, false, false, false, false, false,
    false, false, false, false, false, false, false, false])

/-- P3_sequential_chips.py DFF state: pending input D, stored Q, and the
previously observed clock level. -/
structure DFF where
  D : Bool
  Q : Bool
  prev_clk : Bool

/-- DFF.__init__: D = Q = prev_clk = False. -/
def DFF.init : DFF := ⟨false, false, false⟩

/-- DFF.set_input: record D when given (bool() on a Bool is the identity). -/
def DFF.set_input (s : DFF) (D : Option Bool) : DFF :=
  match D with
  | some v => { s with D := v }
  | none => s

/-- DFF.get_output: [Q, not Q]. -/
def DFF.get_output (s : DFF) : List Bool := [s.Q, !s.Q]

/-- DFF.on_clock: latch D into Q on a rising edge (prev_clk low, clk high);
prev_clk is updated unconditionally. -/
def DFF.on_clock (s : DFF) (clk : Bool) : DFF :=
  { s with Q := if !s.prev_clk && clk then s.D else s.Q, prev_clk := clk }

/-- P3_sequential_chips.py Bit state: internal DFF plus recorded input and
load (the Mux member is stateless). -/
structure Bit where
  dff : DFF
  in_val_D : Bool
  load : Bool

/-- Bit.__init__. -/
def Bit.init : Bit := ⟨DFF.init, false, false⟩

/-- Bit.set_input: optionally record [in, load], then route the mux output
(load selects the new input, otherwise the current Q) into the DFF. -/
def Bit.set_input (s : Bit) (inputs : Option (List Bool)) : Bit :=
  let s1 := match inputs with
    | some ins => { s with in_val_D := ins.getD 0 false, load := ins.getD 1 false }
    | none => s
  let current_Q := (DFF.get_output s1.dff).getD 0 false
  let new_in := (Mux.compute [s1.load, current_Q, s1.in_val_D]).getD 0 false
  { s1 with in_val_D := new_in, dff := s1.dff.set_input (some new_in) }

/-- Bit.get_output: the primary DFF output only. -/
def Bit.get_output (s : Bit) : List Bool :=
  [(DFF.get_output s.dff).getD 0 false]

/-- Bit.on_clock: recompute the combinational front end, then forward the
clock to the internal DFF. -/
def Bit.on_clock (s : Bit) (clk : Bool) : Bit :=
  let s1 := s.set_input none
  { s1 with dff := s1.dff.on_clock clk }

/-- P3_sequential_chips.py RegisterN state. -/
structure RegisterN where
  bits : List Bit
  in_vals : List Bool
  load : Bool

/-- RegisterN.__init__(num_bits). -/
def RegisterN.init (num_bits : Nat) : RegisterN :=
  ⟨List.replicate num_bits Bit.init, List.replicate num_bits false, false⟩

/-- RegisterN.set_input: optionally record inputs[:-1] and inputs[-1], then
forward [in_vals[i], load] to every bit (the source loops i over
range(num_bits); with the invariant lengths this is the zipWith below). -/
def RegisterN.set_input (s : RegisterN) (inputs : Option (List Bool)) : RegisterN :=
  let s1 := match inputs with
    | some ins => { s with in_vals := ins.dropLast, load := ins.getLastD false }
    | none => s
  { s1 with bits := List.zipWith (fun b v => b.set_input (some [v, s1.load])) s1.bits s1.in_vals }

/-- RegisterN.get_output: bit outputs in order. -/
def RegisterN.get_output (s : RegisterN) : List Bool :=
  s.bits.map (fun b => (Bit.get_output b).getD 0 false)

/-- RegisterN.on_clock: recompute inputs, then forward the clock to every bit. -/
def RegisterN.on_clock (s : RegisterN) (clk : Bool) : RegisterN :=
  let s1 := s.set_input none
  { s1 with bits := s1.bits.map (fun b => b.on_clock clk) }

/-- RegisterN.set_input with the input_handling validation of the source
(num_inputs = num_bits + 1): the ValueError is returned as
some (expected, actual) alongside the unchanged state. -/
def RegisterN.set_input_checked (num_bits : Nat) (s : RegisterN) (inputs : List Bool) :
    Option (Nat × Nat) × RegisterN :=
  match input_handling inputs (num_bits + 1) with
  | .error e => (some e, s)
  | .ok ins => (none, s.set_input (some ins))

/-- P3_sequential_chips.py RAM8 state: eight 16-bit registers plus the
recorded word, 3-bit address and load. -/
structure RAM8 where
  registers : List RegisterN
  in_val : List Bool
  address : List Bool
  load : Bool

/-- RAM8.__init__. -/
def RAM8.init : RAM8 :=
  ⟨List.replicate 8 (RegisterN.init 16), List.replicate 16 false,
    List.replicate 3 false, false⟩

/-- RAM8.get_output: read every register and select with Mux8Way16. -/
def RAM8.get_output (s : RAM8) (address : List Bool) : List Bool :=
  Mux8Way16.compute (address ++ (s.registers.map RegisterN.get_output).flatten)

/-- RAM8.set_input: optionally record inputs[0:16], inputs[16:19], inputs[19];
then decode the load through DMux8Way and forward in_val plus the one-hot
load line to every register. -/
def RAM8.set_input (s : RAM8) (inputs : Option (List Bool)) : RAM8 :=
  let s1 := match inputs with
    | some ins =>
      { s with in_val := ins.take 16, address := (ins.drop 16).take 3,
               load := ins.getD 19 false }
    | none => s
  let dmux_outputs := DMux8Way.compute (s1.address ++ [s1.load])
  { s1 with registers :=
      (List.zipWith (fun r d => r.set_input (some (s1.in_val ++ [d])))
        s1.registers dmux_outputs) }

/-- RAM8.on_clock: recompute the decode from the recorded inputs, then
forward the clock to every register. -/
def RAM8.on_clock (s : RAM8) (clk : Bool) : RAM8 :=
  let s1 := s.set_input none
  { s1 with registers := s1.registers.map (fun r => r.on_clock clk) }

/-- RAM8.__getitem__ (after its address validation): a combinational read. -/
def RAM8.getItem (s : RAM8) (address : List Bool) : List Bool :=
  s.get_output address

/-- RAM8.__setitem__ (after its validations): record address and value,
then rerun set_input with the previously recorded load. -/
def RAM8.setItem (s : RAM8) (address value : List Bool) : RAM8 :=
  ({ s with address := address, in_val := value }).set_input none

/-- RAM8.set_input with the input_handling validation (20 inputs). -/
def RAM8.set_input_checked (s : RAM8) (inputs : List Bool) :
    Option (Nat × Nat) × RAM8 :=
  match input_handling inputs 20 with
  | .error e => (some e, s)
  | .ok ins => (none, s.set_input (some ins))

/-- RAM8.__setitem__ with both validations of the source, in source order:
the address is validated and assigned before the value is validated, so a
value failure leaves the already-updated address behind. -/
def RAM8.setItem_checked (s : RAM8) (address value : List Bool) :
    Option (Nat × Nat) × RAM8 :=
  match input_handling address 3 with
  | .error e => (some e, s)
  | .ok a =>
    let s1 := { s with address := a }
    match input_handling value 16 with
    | .error e => (some e, s1)
    | .ok v => (none, ({ s1 with in_val := v }).set_input none)

/-- One full clock cycle as delivered by Clock.tick to a subscriber:
a rising edge notification followed by a falling edge notification. -/
def RAM8.tick (s : RAM8) : RAM8 := (s.on_clock true).on_clock false

/-- P3_sequential_chips.py RAM64 state. -/
structure RAM64 where
  ram8blocks : List RAM8
  in_val : List Bool
  address : List Bool
  load : Bool

/-- RAM64.__init__. -/
def RAM64.init : RAM64 :=
  ⟨List.replicate 8 RAM8.init, List.replicate 16 false, List.replicate 6 false, false⟩

/-- RAM64.get_output: high bits address[3:6] select among the eight RAM8
blocks, each read at address[0:3]. -/
def RAM64.get_output (s : RAM64) (address : List Bool) : List Bool :=
  let high_addr := (address.drop 3).take 3
  let low_addr := address.take 3
  Mux8Way16.compute (high_addr ++ (s.ram8blocks.map (fun blk => blk.get_output low_addr)).flatten)

/-- RAM64.set_input: optionally record inputs[0:16], inputs[16:22], inputs[22];
decode the high address bits into one-hot loads and forward. -/
def RAM64.set_input (s : RAM64) (inputs : Option (List Bool)) : RAM64 :=
  let s1 := match inputs with
    | some ins =>
      { s with in_val := ins.take 16, address := (ins.drop 16).take 6,
               load := ins.getD 22 false }
    | none => s
  let high_addr := (s1.address.drop 3).take 3
  let low_addr := s1.address.take 3
  let dmux_outputs := DMux8Way.compute (high_addr ++ [s1.load])
  { s1 with ram8blocks :=
      (List.zipWith (fun blk d => blk.set_input (some (s1.in_val ++ low_addr ++ [d])))
        s1.ram8blocks dmux_outputs) }

/-- RAM64.on_clock. -/
def RAM64.on_clock (s : RAM64) (clk : Bool) : RAM64 :=
  let s1 := s.set_input none
  { s1 with ram8blocks := s1.ram8blocks.map (fun blk => blk.on_clock clk) }

/-- RAM64.__getitem__ (after validation). -/
def RAM64.getItem (s : RAM64) (address : List Bool) : List Bool :=
  s.get_output address

/-- RAM64.__setitem__ (after validation). -/
def RAM64.setItem (s : RAM64) (address value : List Bool) : RAM64 :=
  ({ s with address := address, in_val := value }).set_input none

/-- One full clock cycle delivered to a RAM64. -/
def RAM64.tick (s : RAM64) : RAM64 := (s.on_clock true).on_clock false

/-- P3_sequential_chips.py RAM512 state. -/
structure RAM512 where
  ram64blocks : List RAM64
  in_val : List Bool
  address : List Bool
  load : Bool

/-- RAM512.__init__. -/
def RAM512.init : RAM512 :=
  ⟨List.replicate 8 RAM64.init, List.replicate 16 false, List.replicate 9 false, false⟩

/-- RAM512.get_output: high bits address[6:9], low bits address[0:6]. -/
def RAM512.get_output (s : RAM512) (address : List Bool) : List Bool :=
  let high_addr := (address.drop 6).take 3
  let low_addr := address.take 6
  Mux8Way16.compute (high_addr ++ (s.ram64blocks.map (fun blk => blk.get_output low_addr)).flatten)

/-- RAM512.set_input: inputs[0:16], inputs[16:25], inputs[25]. -/
def RAM512.set_input (s : RAM512) (inputs : Option (List Bool)) : RAM512 :=
  let s1 := match inputs with
    | some ins =>
      { s with in_val := ins.take 16, address := (ins.drop 16).take 9,
               load := ins.getD 25 false }
    | none => s
  let high_addr := (s1.address.drop 6).take 3
  let low_addr := s1.address.take 6
  let dmux_outputs := DMux8Way.compute (high_addr ++ [s1.load])
  { s1 with ram64blocks :=
      (List.zipWith (fun blk d => blk.set_input (some (s1.in_val ++ low_addr ++ [d])))
        s1.ram64blocks dmux_outputs) }

/-- RAM512.on_clock. -/
def RAM512.on_clock (s : RAM512) (clk : Bool) : RAM512 :=
  let s1 := s.set_input none
  { s1 with ram64blocks := s1.ram64blocks.map (fun blk => blk.on_clock clk) }

/-- RAM512.__getitem__ (after validation). -/
def RAM512.getItem (s : RAM512) (address : List Bool) : List Bool :=
  s.get_output address

/-- RAM512.__setitem__ (after validation). -/
def RAM512.setItem (s : RAM512) (address value : List Bool) : RAM512 :=
  ({ s with address := address, in_val := value }).set_input none

/-- One full clock cycle delivered to a RAM512. -/
def RAM512.tick (s : RAM512) : RAM512 := (s.on_clock true).on_clock false

/-- P3_sequential_chips.py RAM4K state. -/
structure RAM4K where
  ram512blocks : List RAM512
  in_val : List Bool
  address : List Bool
  load : Bool

/-- RAM4K.__init__. -/
def RAM4K.init : RAM4K :=
  ⟨List.replicate 8 RAM512.init, List.replicate 16 false, List.replicate 12 false, false⟩

/-- RAM4K.get_output: high bits address[9:12], low bits address[0:9]. -/
def RAM4K.get_output (s : RAM4K) (address : List Bool) : List Bool :=
  let high_addr := (address.drop 9).take 3
  let low_addr := address.take 9
  Mux8Way16.compute (high_addr ++ (s.ram512blocks.map (fun blk => blk.get_output low_addr)).flatten)

/-- RAM4K.set_input: inputs[0:16], inputs[16:28], inputs[28]. -/
def RAM4K.set_input (s : RAM4K) (inputs : Option (List Bool)) : RAM4K :=
  let s1 := match inputs with
    | some ins =>
      { s with in_val := ins.take 16, address := (ins.drop 16).take 12,
               load := ins.getD 28 false }
    | none => s
  let high_addr := (s1.address.drop 9).take 3
  let low_addr := s1.address.take 9
  let dmux_outputs := DMux8Way.compute (high_addr ++ [s1.load])
  { s1 with ram512blocks :=
      (List.zipWith (fun blk d => blk.set_input (some (s1.in_val ++ low_addr ++ [d])))
        s1.ram512blocks dmux_outputs) }

/-- RAM4K.on_clock. -/
def RAM4K.on_clock (s : RAM4K) (clk : Bool) : RAM4K :=
  let s1 := s.set_input none
  { s1 with ram512blocks := s1.ram512blocks.map (fun blk => blk.on_clock clk) }

/-- RAM4K.__getitem__ (after validation). -/
def RAM4K.getItem (s : RAM4K) (address : List Bool) : List Bool :=
  s.get_output address

/-- RAM4K.__setitem__ (after validation). -/
def RAM4K.setItem (s : RAM4K) (address value : List Bool) : RAM4K :=
  ({ s with address := address, in_val := value }).set_input none

/-- One full clock cycle delivered to a RAM4K. -/
def RAM4K.tick (s : RAM4K) : RAM4K := (s.on_clock true).on_clock false

/-- P3_sequential_chips.py RAM16K state: four RAM4K blocks, 14-bit address. -/
structure RAM16K where
  ram4kblocks : List RAM4K
  in_val : List Bool
  address : List Bool
  load : Bool

/-- RAM16K.__init__. -/
def RAM16K.init : RAM16K :=
  ⟨List.replicate 4 RAM4K.init, List.replicate 16 false, List.replicate 14 false, false⟩

/-- RAM16K.get_output: high bits address[12:14], low bits address[0:12],
selection with Mux4Way16. -/
def RAM16K.get_output (s : RAM16K) (address : List Bool) : List Bool :=
  let high_addr := (address.drop 12).take 2
  let low_addr := address.take 12
  Mux4Way16.compute (high_addr ++ (s.ram4kblocks.map (fun blk => blk.get_output low_addr)).flatten)

/-- RAM16K.set_input: inputs[0:16], inputs[16:30], inputs[30], decode with
DMux4Way. -/
def RAM16K.set_input (s : RAM16K) (inputs : Option (List Bool)) : RAM16K :=
  let s1 := match inputs with
    | some ins =>
      { s with in_val := ins.take 16, address := (ins.drop 16).take 14,
               load := ins.getD 30 false }
    | none => s
  let high_addr := (s1.address.drop 12).take 2
  let low_addr := s1.address.take 12
  let dmux_outputs := DMux4Way.compute (high_addr ++ [s1.load])
  { s1 with ram4kblocks :=
      (List.zipWith (fun blk d => blk.set_input (some (s1.in_val ++ low_addr ++ [d])))
        s1.ram4kblocks dmux_outputs) }

/-- RAM16K.on_clock. -/
def RAM16K.on_clock (s : RAM16K) (clk : Bool) : RAM16K :=
  let s1 := s.set_input none
  { s1 with ram4kblocks := s1.ram4kblocks.map (fun blk => blk.on_clock clk) }

/-- RAM16K.__getitem__ (after validation). -/
def RAM16K.getItem (s : RAM16K) (address : List Bool) : List Bool :=
  s.get_output address

/-- RAM16K.__setitem__ (after validation). -/
def RAM16K.setItem (s : RAM16K) (address value : List Bool) : RAM16K :=
  ({ s with address := address, in_val := value }).set_input none

/-- One full clock cycle delivered to a RAM16K. -/
def RAM16K.tick (s : RAM16K) : RAM16K := (s.on_clock true).on_clock false

/-- P3_sequential_chips.py PC state: one 16-bit register plus the recorded
input word and the three control bits. -/
structure PC where
  reg16 : RegisterN
  in_val : List Bool
  load : Bool
  inc : Bool
  reset : Bool

/-- PC.__init__. -/
def PC.init : PC :=
  ⟨RegisterN.init 16, List.replicate 16 false, false, false, false⟩

/-- PC.get_output: the register value. -/
def PC.get_output (s : PC) : List Bool := s.reg16.get_output

/-- The combinational next-value logic computed inside PC.set_input (the
reg_input local of the source), factored out so proofs can name it. -/
def PC.reg_input (s : PC) : List Bool :=
  let output := s.get_output
  let out_inc := Inc16.compute output
  let inc_mux_out := MuxN.compute 16 ([s.inc] ++ output ++ out_inc)
  let load_mux_out := MuxN.compute 16 ([s.load] ++ inc_mux_out ++ s.in_val)
  MuxN.compute 16 ([s.reset] ++ load_mux_out ++ List.replicate 16 false)

/-- PC.set_input: optionally record inputs[0:16] and the load/inc/reset bits;
then compute the next register input through the inc, load and reset muxes
(reset wins, then load, then inc, then hold) and present it to the register
with load forced to True. -/
def PC.set_input (s : PC) (inputs : Option (List Bool)) : PC :=
  let s1 := match inputs with
    | some ins =>
      { s with in_val := ins.take 16, load := ins.getD 16 false,
               inc := ins.getD 17 false, reset := ins.getD 18 false }
    | none => s
  let output := s1.get_output
  let out_inc := Inc16.compute output
  let inc_mux_out := MuxN.compute 16 ([s1.inc] ++ output ++ out_inc)
  let load_mux_out := MuxN.compute 16 ([s1.load] ++ inc_mux_out ++ s1.in_val)
  let reg_input := MuxN.compute 16 ([s1.reset] ++ load_mux_out ++ List.replicate 16 false)
  { s1 with reg16 := s1.reg16.set_input (some (reg_input ++ [true])) }

/-- PC.on_clock: recompute the next value from the current stored value,
then forward the clock to the register. -/
def PC.on_clock (s : PC) (clk : Bool) : PC :=
  let s1 := s.set_input none
  { s1 with reg16 := s1.reg16.on_clock clk }

/-- One full clock cycle delivered to a PC. -/
def PC.tick (s : PC) : PC := (s.on_clock true).on_clock false

/-- clock.py Clock state, generic over the subscriber state type; the
dynamic dispatch of on_clock is a step function passed to tick. -/
structure Clock (σ : Type) where
  time : Nat
  clk_lvl : Bool
  subscribers : List σ

/-- Clock.__init__. -/
def Clock.init (σ : Type) : Clock σ := ⟨0, false, []⟩

/-- Clock.subscribe: append every chip, in order. -/
def Clock.subscribe {σ : Type} (c : Clock σ) (chips : List σ) : Clock σ :=
  { c with subscribers := chips.foldl (fun acc chip => acc ++ [chip]) c.subscribers }

/-- The notification loop of Clock.tick: every subscriber, in list order,
receives on_clock at the given level (in-place mutation of independent
objects is rebuilt positionally). -/
def Clock.notifyAll {σ : Type} (step : σ → Bool → σ) (lvl : Bool) : List σ → List σ
  | [] => []
  | chip :: rest => step chip lvl :: Clock.notifyAll step lvl rest

/-- Clock.tick: raise the level and notify all, lower the level and notify
all, then increment time. -/
def Clock.tick {σ : Type} (c : Clock σ) (step : σ → Bool → σ) : Clock σ :=
  let c1 := { c with clk_lvl := true }
  let c2 := { c1 with subscribers := Clock.notifyAll step c1.clk_lvl c1.subscribers }
  let c3 := { c2 with clk_lvl := false }
  let c4 := { c3 with subscribers := Clock.notifyAll step c3.clk_lvl c3.subscribers }
  { c4 with time := c4.time + 1 }

/-- Well-formedness of a Bit between clock cycles: the internal DFF has last
seen a low clock level (every Clock.tick ends on the falling edge). -/
def Bit.Wf (s : Bit) : Prop := s.dff.prev_clk = false

/-- Well-formedness of a RegisterN with num_bits bits. -/
def RegisterN.Wf (num_bits : Nat) (s : RegisterN) : Prop :=
  s.bits.length = num_bits ∧ s.in_vals.length = num_bits ∧ ∀ b ∈ s.bits, b.Wf

/-- Well-formedness of a RAM8. -/
def RAM8.Wf (s : RAM8) : Prop :=
  s.registers.length = 8 ∧ s.in_val.length = 16 ∧ s.address.length = 3 ∧
    ∀ r ∈ s.registers, RegisterN.Wf 16 r

/-- Well-formedness of a RAM64. -/
def RAM64.Wf (s : RAM64) : Prop :=
  s.ram8blocks.length = 8 ∧ s.in_val.length = 16 ∧ s.address.length = 6 ∧
    ∀ blk ∈ s.ram8blocks, blk.Wf

/-- Well-formedness of a RAM512. -/
def RAM512.Wf (s : RAM512) : Prop :=
  s.ram64blocks.length = 8 ∧ s.in_val.length = 16 ∧ s.address.length = 9 ∧
    ∀ blk ∈ s.ram64blocks, blk.Wf

/-- Well-formedness of a RAM4K. -/
def RAM4K.Wf (s : RAM4K) : Prop :=
  s.ram512blocks.length = 8 ∧ s.in_val.length = 16 ∧ s.address.length = 12 ∧
    ∀ blk ∈ s.ram512blocks, blk.Wf

/-- Well-formedness of a RAM16K. -/
def RAM16K.Wf (s : RAM16K) : Prop :=
  s.ram4kblocks.length = 4 ∧ s.in_val.length = 16 ∧ s.address.length = 14 ∧
    ∀ blk ∈ s.ram4kblocks, blk.Wf

/-- Well-formedness of a PC. -/
def PC.Wf (s : PC) : Prop :=
  RegisterN.Wf 16 s.reg16 ∧ s.in_val.length = 16

/-- A well-shaped argument for PC.set_input (16 inputs plus load, inc,
reset). -/
def PC.WfInput : Option (List Bool) → Prop
  | some ins => ins.length = 19
  | none => True

/-- A well-shaped argument for RegisterN.set_input (the shapes accepted by
input_handling). -/
def RegisterN.WfInput (num_bits : Nat) : Option (List Bool) → Prop
  | some ins => ins.length = num_bits + 1
  | none => True

/-- A well-shaped argument for RAM8.set_input. -/
def RAM8.WfInput : Option (List Bool) → Prop
  | some ins => ins.length = 20
  | none => True

/-- A well-shaped argument for RAM64.set_input. -/
def RAM64.WfInput : Option (List Bool) → Prop
  | some ins => ins.length = 23
  | none => True

/-- A well-shaped argument for RAM512.set_input. -/
def RAM512.WfInput : Option (List Bool) → Prop
  | some ins => ins.length = 26
  | none => True

/-- A well-shaped argument for RAM4K.set_input. -/
def RAM4K.WfInput : Option (List Bool) → Prop
  | some ins => ins.length = 29
  | none => True

/-- A well-shaped argument for RAM16K.set_input. -/
def RAM16K.WfInput : Option (List Bool) → Prop
  | some ins => ins.length = 31
  | none => True

/-- Reference ripple-carry recursion used to reason about AddN.compute:
it consumes the two summand lists head-first and returns the sum bits and
the final carry. -/
def rippleCarry : List Bool → List Bool → Bool → List Bool × Bool
  | [], _, c => ([], c)
  | _ :: _, [], c => ([], c)
  | a :: as, b :: bs, c =>
    let s := xor a (xor b c)
    let c1 := (a && b) || (c && (xor a b))
    let r := rippleCarry as bs c1
    (s :: r.1, r.2)

/-- Reference recursion for the value of an LSB-first bit list, used to
reason about bool_list_to_int and the adder. -/
def toNatLSB : List Bool → Nat
  | [] => 0
  | b :: t => (if b then 1 else 0) + 2 * toNatLSB t

/-! Generic list facts used throughout the development. -/

theorem list_len_two {α : Type} (l : List α) (h : l.length = 2) :
    ∃ a b, l = [a, b] := by
  rcases l with _ | ⟨a, _ | ⟨b, _ | ⟨c, t⟩⟩⟩ <;> simp_all

theorem list_len_three {α : Type} (l : List α) (h : l.length = 3) :
    ∃ a b c, l = [a, b, c] := by
  rcases l with _ | ⟨a, _ | ⟨b, _ | ⟨c, _ | ⟨d, t⟩⟩⟩⟩ <;> simp_all

theorem list_len_four {α : Type} (l : List α) (h : l.length = 4) :
    ∃ a b c d, l = [a, b, c, d] := by
  rcases l with _ | ⟨a, _ | ⟨b, _ | ⟨c, _ | ⟨d, _ | ⟨e, t⟩⟩⟩⟩⟩ <;> simp_all

theorem list_len_eight {α : Type} (l : List α) (h : l.length = 8) :
    ∃ a b c d e f g h8, l = [a, b, c, d, e, f, g, h8] := by
  rcases l with _ | ⟨a, _ | ⟨b, _ | ⟨c, _ | ⟨d, _ | ⟨e, _ | ⟨f, _ | ⟨g, _ | ⟨h8, _ | ⟨i, t⟩⟩⟩⟩⟩⟩⟩⟩⟩ <;>
    simp_all

theorem range_map_getD {α : Type} (l : List α) (d : α) (n : Nat) (h : l.length = n) :
    (List.range n).map (fun i => l.getD i d) = l := by
  subst h
  apply List.ext_getElem
  · simp
  · intro i h1 h2
    simp [List.getD_eq_getElem l d h2, List.getElem?_eq_getElem h2]

theorem zipWith_self_absorb {α β : Type} (f : α → β → α)
    (h : ∀ a b, f (f a b) b = f a b) :
    ∀ (as : List α) (bs : List β),
      List.zipWith f (List.zipWith f as bs) bs = List.zipWith f as bs := by
  intro as
  induction as with
  | nil => intro bs; simp
  | cons a as ih =>
    intro bs
    cases bs with
    | nil => simp
    | cons b bs => simp [h, ih]

theorem zipWith_map_absorb {α β : Type} (f : α → β → α) (g : α → α)
    (h : ∀ a b, f (g (f a b)) b = g (f a b)) :
    ∀ (as : List α) (bs : List β),
      List.zipWith f (List.map g (List.zipWith f as bs)) bs =
        List.map g (List.zipWith f as bs) := by
  intro as
  induction as with
  | nil => intro bs; simp
  | cons a as ih =>
    intro bs
    cases bs with
    | nil => simp
    | cons b bs => simp [h, ih]

theorem forall_mem_zipWith {α β γ : Type} {p : γ → Prop} {q : α → Prop}
    (f : α → β → γ) (h : ∀ a b, q a → p (f a b)) :
    ∀ (as : List α) (bs : List β), (∀ a ∈ as, q a) →
      ∀ x ∈ List.zipWith f as bs, p x := by
  intro as
  induction as with
  | nil => intro bs _ x hx; simp at hx
  | cons a as ih =>
    intro bs ha x hx
    cases bs with
    | nil => simp at hx
    | cons b bs =>
      simp only [List.zipWith_cons_cons, List.mem_cons] at hx
      rcases hx with rfl | hx
      · exact h a b (ha a (by simp))
      · exact ih bs (fun a' ha' => ha a' (by simp [ha'])) x hx

theorem zipWith_congr_left {α β γ : Type} {f g : α → β → γ} {q : α → Prop}
    (h : ∀ a b, q a → f a b = g a b) :
    ∀ (as : List α) (bs : List β), (∀ a ∈ as, q a) →
      List.zipWith f as bs = List.zipWith g as bs := by
  intro as
  induction as with
  | nil => intro bs _; simp
  | cons a as ih =>
    intro bs ha
    cases bs with
    | nil => simp
    | cons b bs =>
      simp only [List.zipWith_cons_cons]
      rw [h a b (ha a (by simp)), ih bs (fun a' ha' => ha a' (by simp [ha']))]

theorem zipWith_const_right {α β : Type} (as : List α) (bs : List β)
    (h : as.length = bs.length) :
    List.zipWith (fun _ b => b) as bs = bs := by
  induction as generalizing bs with
  | nil => cases bs <;> simp_all
  | cons a as ih =>
    cases bs with
    | nil => simp_all
    | cons b bs => simp_all

theorem zipWith_const_left {α β : Type} (as : List α) (bs : List β)
    (h : as.length = bs.length) :
    List.zipWith (fun a _ => a) as bs = as := by
  induction as generalizing bs with
  | nil => simp
  | cons a as ih =>
    cases bs with
    | nil => simp_all
    | cons b bs => simp_all

/-! Characterizations of the combinational gates. -/

theorem Mux_compute_eq (sel a b : Bool) :
    Mux.compute [sel, a, b] = [if sel then b else a] := by
  cases sel <;> cases a <;> cases b <;> rfl

theorem MuxN_length (num_bits : Nat) (inputs : List Bool) :
    (MuxN.compute num_bits inputs).length = num_bits := by
  simp [MuxN.compute]

theorem MuxN_select (n : Nat) (s : Bool) (x y : List Bool)
    (hx : x.length = n) (hy : y.length = n) :
    MuxN.compute n ([s] ++ x ++ y) = if s then y else x := by
  unfold MuxN.compute
  have e0 : (([s] ++ x ++ y).drop 1).take n = x := by
    simp [List.take_left' hx]
  have e1 : ([s] ++ x ++ y).drop (n + 1) = y := by
    have : ([s] ++ x ++ y).drop (n + 1) = ((x ++ y).drop n) := by simp
    rw [this, List.drop_left' hx]
  simp only [List.append_assoc, List.cons_append, List.nil_append] at e0 e1 ⊢
  rw [e0, e1]
  simp only [List.getD_cons_zero, Mux_compute_eq]
  cases s
  · simp only [if_false, Bool.false_eq_true]
    exact range_map_getD x false n hx
  · simp only [if_true]
    exact range_map_getD y false n hy

/-! Facts about the integer conversions of chip.py. -/

theorem foldl_enumFrom_toNat (l : List Bool) : ∀ (n acc : Nat),
    List.foldl (fun acc p => if p.2 then acc + (1 <<< p.1) else acc) acc
        (List.enumFrom n l) = acc + 2 ^ n * toNatLSB l := by
  induction l with
  | nil => intro n acc; simp [toNatLSB]
  | cons b t ih =>
    intro n acc
    simp only [List.enumFrom_cons, List.foldl_cons]
    rw [ih (n + 1)]
    cases b <;> simp [toNatLSB, Nat.one_shiftLeft, pow_succ] <;> ring

theorem bool_list_to_int_eq_toNatLSB (l : List Bool) :
    bool_list_to_int l = toNatLSB l := by
  unfold bool_list_to_int
  rw [show l.enum = List.enumFrom 0 l from rfl, foldl_enumFrom_toNat]
  simp

theorem toNatLSB_lt (l : List Bool) : toNatLSB l < 2 ^ l.length := by
  induction l with
  | nil => simp [toNatLSB]
  | cons b t ih => cases b <;> simp [toNatLSB, pow_succ] <;> omega

theorem toNatLSB_append (x y : List Bool) :
    toNatLSB (x ++ y) = toNatLSB x + 2 ^ x.length * toNatLSB y := by
  induction x with
  | nil => simp [toNatLSB]
  | cons b t ih => cases b <;> simp [toNatLSB, ih, pow_succ] <;> ring

theorem toNatLSB_inj (x : List Bool) : ∀ y, x.length = y.length →
    toNatLSB x = toNatLSB y → x = y := by
  induction x with
  | nil => intro y hy _; cases y <;> simp_all
  | cons b t ih =>
    intro y hy he
    cases y with
    | nil => simp at hy
    | cons c u =>
      simp only [toNatLSB] at he
      have hb : b = c := by cases b <;> cases c <;> simp_all <;> omega
      subst hb
      have ht : toNatLSB t = toNatLSB u := by cases b <;> simp at he <;> omega
      simp only [List.length_cons, Nat.add_right_cancel_iff] at hy
      rw [ih u hy ht]

theorem int_to_bool_list_succ (v n : Nat) :
    int_to_bool_list v (n + 1) = ((v % 2) == 1) :: int_to_bool_list (v / 2) n := by
  unfold int_to_bool_list
  rw [List.range_succ_eq_map]
  simp only [List.map_cons, List.map_map]
  congr 1
  · simp [Nat.and_one_is_mod]
  · apply List.map_congr_left
    intro i _
    simp only [Function.comp]
    rw [show i.succ = 1 + i by omega, Nat.shiftRight_add, Nat.shiftRight_one]

theorem toNatLSB_int_to_bool_list (n : Nat) : ∀ v,
    toNatLSB (int_to_bool_list v n) = v % 2 ^ n := by
  induction n with
  | zero => intro v; simp [int_to_bool_list, toNatLSB, Nat.mod_one]
  | succ n ih =>
    intro v
    rw [int_to_bool_list_succ]
    simp only [toNatLSB, ih (v / 2)]
    have e3 : v / 2 / 2 ^ n = v / 2 ^ (n + 1) := by
      rw [Nat.div_div_eq_div_mul, pow_succ, mul_comm 2 (2 ^ n), mul_comm]
    have e2 : v / 2 = 2 ^ n * (v / 2 / 2 ^ n) + v / 2 % 2 ^ n :=
      (Nat.div_add_mod' (v / 2) (2 ^ n)).symm.trans (by ring)
    have e4 : v = 2 ^ (n + 1) * (v / 2 ^ (n + 1)) + v % 2 ^ (n + 1) :=
      (Nat.div_add_mod' v (2 ^ (n + 1))).symm.trans (by ring)
    have e5 : (2 : Nat) ^ (n + 1) = 2 * 2 ^ n := by ring
    have e6 : 2 ^ (n + 1) * (v / 2 ^ (n + 1)) = 2 * (2 ^ n * (v / 2 / 2 ^ n)) := by
      rw [← e3, e5]; ring
    have hv2 : v % 2 = 0 ∨ v % 2 = 1 := by omega
    rcases hv2 with h | h <;> simp [h] <;> omega

theorem int_to_bool_list_toNatLSB (w : List Bool) :
    int_to_bool_list (toNatLSB w) w.length = w := by
  induction w with
  | nil => rfl
  | cons b t ih =>
    simp only [List.length_cons, int_to_bool_list_succ, toNatLSB]
    have hhead : (((if b then 1 else 0) + 2 * toNatLSB t) % 2 == 1) = b := by
      cases b <;> simp <;> omega
    have htail : ((if b then 1 else 0) + 2 * toNatLSB t) / 2 = toNatLSB t := by
      cases b <;> simp <;> omega
    rw [hhead, htail, ih]

/-! Selection and decoding lemmas for the word multiplexers and the
demultiplexers. -/

theorem drop_len_append {α : Type} (x y : List α) (n k : Nat) (h : x.length = n) :
    (x ++ y).drop (n + k) = y.drop k := by
  rw [← h, List.drop_append]

theorem Mux4Way16_select (s0 s1 : Bool) (ws : List (List Bool)) (hl : ws.length = 4)
    (hw : ∀ w ∈ ws, w.length = 16) :
    Mux4Way16.compute ([s0, s1] ++ ws.flatten) = ws.getD (bool_list_to_int [s0, s1]) [] := by
  obtain ⟨w0, w1, w2, w3, rfl⟩ := list_len_four ws hl
  have h0 : w0.length = 16 := hw w0 (by simp)
  have h1 : w1.length = 16 := hw w1 (by simp)
  have h2 : w2.length = 16 := hw w2 (by simp)
  have h3 : w3.length = 16 := hw w3 (by simp)
  have hfl : [s0, s1] ++ [w0, w1, w2, w3].flatten =
      s0 :: s1 :: (w0 ++ (w1 ++ (w2 ++ w3))) := by simp
  rw [hfl]
  simp only [Mux4Way16.compute]
  have d2 : (s0 :: s1 :: (w0 ++ (w1 ++ (w2 ++ w3)))).drop 2 = w0 ++ (w1 ++ (w2 ++ w3)) := rfl
  have d18 : (s0 :: s1 :: (w0 ++ (w1 ++ (w2 ++ w3)))).drop 18 =
      (w0 ++ (w1 ++ (w2 ++ w3))).drop 16 := rfl
  have d34 : (s0 :: s1 :: (w0 ++ (w1 ++ (w2 ++ w3)))).drop 34 =
      (w0 ++ (w1 ++ (w2 ++ w3))).drop 32 := rfl
  have d50 : (s0 :: s1 :: (w0 ++ (w1 ++ (w2 ++ w3)))).drop 50 =
      (w0 ++ (w1 ++ (w2 ++ w3))).drop 48 := rfl
  have e16 : (w0 ++ (w1 ++ (w2 ++ w3))).drop 16 = w1 ++ (w2 ++ w3) := List.drop_left' h0
  have e32 : (w0 ++ (w1 ++ (w2 ++ w3))).drop 32 = w2 ++ w3 := by
    rw [show (32 : Nat) = 16 + 16 from rfl, drop_len_append _ _ 16 16 h0, List.drop_left' h1]
  have e48 : (w0 ++ (w1 ++ (w2 ++ w3))).drop 48 = w3 := by
    rw [show (48 : Nat) = 16 + 32 from rfl, drop_len_append _ _ 16 32 h0,
      show (32 : Nat) = 16 + 16 from rfl, drop_len_append _ _ 16 16 h1, List.drop_left' h2]
  rw [d2, d18, d34, d50, e16, e32, e48]
  have t0 : (w0 ++ (w1 ++ (w2 ++ w3))).take 16 = w0 := List.take_left' h0
  have t1 : (w1 ++ (w2 ++ w3)).take 16 = w1 := List.take_left' h1
  have t2 : (w2 ++ w3).take 16 = w2 := List.take_left' h2
  have t3 : w3.take 16 = w3 := by rw [← h3, List.take_length]
  rw [t0, t1, t2, t3]
  simp only [List.getD_cons_zero, List.getD_cons_succ]
  rw [MuxN_select 16 s0 w0 w1 h0 h1, MuxN_select 16 s0 w2 w3 h2 h3,
    MuxN_select 16 s1 _ _ (by cases s0 <;> simp [h0, h1]) (by cases s0 <;> simp [h2, h3])]
  cases s0 <;> cases s1 <;> rfl

theorem Mux8Way16_select (s0 s1 s2 : Bool) (ws : List (List Bool)) (hl : ws.length = 8)
    (hw : ∀ w ∈ ws, w.length = 16) :
    Mux8Way16.compute ([s0, s1, s2] ++ ws.flatten) =
      ws.getD (bool_list_to_int [s0, s1, s2]) [] := by
  obtain ⟨w0, w1, w2, w3, w4, w5, w6, w7, rfl⟩ := list_len_eight ws hl
  have h0 : w0.length = 16 := hw w0 (by simp)
  have h1 : w1.length = 16 := hw w1 (by simp)
  have h2 : w2.length = 16 := hw w2 (by simp)
  have h3 : w3.length = 16 := hw w3 (by simp)
  have h4 : w4.length = 16 := hw w4 (by simp)
  have h5 : w5.length = 16 := hw w5 (by simp)
  have h6 : w6.length = 16 := hw w6 (by simp)
  have h7 : w7.length = 16 := hw w7 (by simp)
  have hfl : [s0, s1, s2] ++ [w0, w1, w2, w3, w4, w5, w6, w7].flatten =
      s0 :: s1 :: s2 :: (w0 ++ (w1 ++ (w2 ++ (w3 ++ (w4 ++ (w5 ++ (w6 ++ w7))))))) := by simp
  rw [hfl]
  simp only [Mux8Way16.compute]
  set X := w0 ++ (w1 ++ (w2 ++ (w3 ++ (w4 ++ (w5 ++ (w6 ++ w7)))))) with hX
  have d3 : (s0 :: s1 :: s2 :: X).drop 3 = X := rfl
  have d19 : (s0 :: s1 :: s2 :: X).drop 19 = X.drop 16 := rfl
  have d35 : (s0 :: s1 :: s2 :: X).drop 35 = X.drop 32 := rfl
  have d51 : (s0 :: s1 :: s2 :: X).drop 51 = X.drop 48 := rfl
  have d67 : (s0 :: s1 :: s2 :: X).drop 67 = X.drop 64 := rfl
  have d83 : (s0 :: s1 :: s2 :: X).drop 83 = X.drop 80 := rfl
  have d99 : (s0 :: s1 :: s2 :: X).drop 99 = X.drop 96 := rfl
  have d115 : (s0 :: s1 :: s2 :: X).drop 115 = X.drop 112 := rfl
  have e16 : X.drop 16 = w1 ++ (w2 ++ (w3 ++ (w4 ++ (w5 ++ (w6 ++ w7))))) :=
    List.drop_left' h0
  have e32 : X.drop 32 = w2 ++ (w3 ++ (w4 ++ (w5 ++ (w6 ++ w7)))) := by
    rw [hX, show (32 : Nat) = 16 + 16 from rfl, drop_len_append _ _ 16 16 h0,
      List.drop_left' h1]
  have e48 : X.drop 48 = w3 ++ (w4 ++ (w5 ++ (w6 ++ w7))) := by
    rw [hX, show (48 : Nat) = 16 + 32 from rfl, drop_len_append _ _ 16 32 h0,
      show (32 : Nat) = 16 + 16 from rfl, drop_len_append _ _ 16 16 h1, List.drop_left' h2]
  have e64 : X.drop 64 = w4 ++ (w5 ++ (w6 ++ w7)) := by
    rw [hX, show (64 : Nat) = 16 + 48 from rfl, drop_len_append _ _ 16 48 h0,
      show (48 : Nat) = 16 + 32 from rfl, drop_len_append _ _ 16 32 h1,
      show (32 : Nat) = 16 + 16 from rfl, drop_len_append _ _ 16 16 h2, List.drop_left' h3]
  have e80 : X.drop 80 = w5 ++ (w6 ++ w7) := by
    rw [hX, show (80 : Nat) = 16 + 64 from rfl, drop_len_append _ _ 16 64 h0,
      show (64 : Nat) = 16 + 48 from rfl, drop_len_append _ _ 16 48 h1,
      show (48 : Nat) = 16 + 32 from rfl, drop_len_append _ _ 16 32 h2,
      show (32 : Nat) = 16 + 16 from rfl, drop_len_append _ _ 16 16 h3, List.drop_left' h4]
  have e96 : X.drop 96 = w6 ++ w7 := by
    rw [hX, show (96 : Nat) = 16 + 80 from rfl, drop_len_append _ _ 16 80 h0,
      show (80 : Nat) = 16 + 64 from rfl, drop_len_append _ _ 16 64 h1,
      show (64 : Nat) = 16 + 48 from rfl, drop_len_append _ _ 16 48 h2,
      show (48 : Nat) = 16 + 32 from rfl, drop_len_append _ _ 16 32 h3,
      show (32 : Nat) = 16 + 16 from rfl, drop_len_append _ _ 16 16 h4, List.drop_left' h5]
  have e112 : X.drop 112 = w7 := by
    rw [hX, show (112 : Nat) = 16 + 96 from rfl, drop_len_append _ _ 16 96 h0,
      show (96 : Nat) = 16 + 80 from rfl, drop_len_append _ _ 16 80 h1,
      show (80 : Nat) = 16 + 64 from rfl, drop_len_append _ _ 16 64 h2,
      show (64 : Nat) = 16 + 48 from rfl, drop_len_append _ _ 16 48 h3,
      show (48 : Nat) = 16 + 32 from rfl, drop_len_append _ _ 16 32 h4,
      show (32 : Nat) = 16 + 16 from rfl, drop_len_append _ _ 16 16 h5, List.drop_left' h6]
  rw [d3, d19, d35, d51, d67, d83, d99, d115, e16, e32, e48, e64, e80, e96, e112]
  have t0 : X.take 16 = w0 := List.take_left' h0
  have t1 : (w1 ++ (w2 ++ (w3 ++ (w4 ++ (w5 ++ (w6 ++ w7)))))).take 16 = w1 := List.take_left' h1
  have t2 : (w2 ++ (w3 ++ (w4 ++ (w5 ++ (w6 ++ w7))))).take 16 = w2 := List.take_left' h2
  have t3 : (w3 ++ (w4 ++ (w5 ++ (w6 ++ w7)))).take 16 = w3 := List.take_left' h3
  have t4 : (w4 ++ (w5 ++ (w6 ++ w7))).take 16 = w4 := List.take_left' h4
  have t5 : (w5 ++ (w6 ++ w7)).take 16 = w5 := List.take_left' h5
  have t6 : (w6 ++ w7).take 16 = w6 := List.take_left' h6
  have t7 : w7.take 16 = w7 := by rw [← h7, List.take_length]
  rw [t0, t1, t2, t3, t4, t5, t6, t7]
  simp only [List.getD_cons_zero, List.getD_cons_succ]
  have m0 : [s0, s1] ++ w0 ++ w1 ++ w2 ++ w3 = [s0, s1] ++ [w0, w1, w2, w3].flatten := by simp
  have m1 : [s0, s1] ++ w4 ++ w5 ++ w6 ++ w7 = [s0, s1] ++ [w4, w5, w6, w7].flatten := by simp
  rw [m0, m1, Mux4Way16_select s0 s1 [w0, w1, w2, w3] rfl (by simp [h0, h1, h2, h3]),
    Mux4Way16_select s0 s1 [w4, w5, w6, w7] rfl (by simp [h4, h5, h6, h7])]
  have hlo : ∀ u0 u1 u2 u3 : List Bool, u0.length = 16 → u1.length = 16 → u2.length = 16 →
      u3.length = 16 → ([u0, u1, u2, u3].getD (bool_list_to_int [s0, s1]) []).length = 16 := by
    intro u0 u1 u2 u3 hu0 hu1 hu2 hu3
    cases s0 <;> cases s1 <;> simp [bool_list_to_int, List.enum, hu0, hu1, hu2, hu3]
  rw [MuxN_select 16 s2 _ _ (hlo w0 w1 w2 w3 h0 h1 h2 h3) (hlo w4 w5 w6 w7 h4 h5 h6 h7)]
  cases s0 <;> cases s1 <;> cases s2 <;> rfl

theorem Dmux_compute_eq (sel input : Bool) :
    Dmux.compute [sel, input] = [!sel && input, sel && input] := by
  cases sel <;> cases input <;> rfl

theorem DMux4Way_oneHot (s0 s1 l : Bool) :
    DMux4Way.compute [s0, s1, l] =
      (List.range 4).map (fun i => decide (i = bool_list_to_int [s0, s1]) && l) := by
  cases s0 <;> cases s1 <;> cases l <;> rfl

theorem DMux8Way_oneHot (s0 s1 s2 l : Bool) :
    DMux8Way.compute [s0, s1, s2, l] =
      (List.range 8).map (fun i => decide (i = bool_list_to_int [s0, s1, s2]) && l) := by
  cases s0 <;> cases s1 <;> cases s2 <;> cases l <;> rfl

/-! Characterizations of DFF and Bit. -/

theorem DFF_on_clock_Q (s : DFF) (clk : Bool) :
    (s.on_clock clk).Q = if !s.prev_clk && clk then s.D else s.Q := rfl

theorem Bit_get_output_eq (b : Bit) : b.get_output = [b.dff.Q] := rfl

theorem Bit_set_some (b : Bit) (v l : Bool) :
    b.set_input (some [v, l]) =
      ⟨⟨(if l then v else b.dff.Q), b.dff.Q, b.dff.prev_clk⟩,
        (if l then v else b.dff.Q), l⟩ := by
  cases l <;>
    simp [Bit.set_input, DFF.set_input, DFF.get_output, Mux.compute, Nand.compute,
      Not.compute, And.compute, Or.compute]

theorem Bit_set_none (b : Bit) :
    b.set_input none =
      ⟨⟨(if b.load then b.in_val_D else b.dff.Q), b.dff.Q, b.dff.prev_clk⟩,
        (if b.load then b.in_val_D else b.dff.Q), b.load⟩ := by
  cases hl : b.load <;>
    simp [Bit.set_input, DFF.set_input, DFF.get_output, Mux.compute, Nand.compute,
      Not.compute, And.compute, Or.compute, hl]

theorem Bit_on_clock_eq (b : Bit) (clk : Bool) :
    b.on_clock clk =
      ⟨⟨(if b.load then b.in_val_D else b.dff.Q),
        (if !b.dff.prev_clk && clk then (if b.load then b.in_val_D else b.dff.Q) else b.dff.Q),
        clk⟩,
        (if b.load then b.in_val_D else b.dff.Q), b.load⟩ := by
  simp only [Bit.on_clock, Bit_set_none, DFF.on_clock]

theorem Bit_set_Q (b : Bit) (i : Option (List Bool)) :
    (b.set_input i).dff.Q = b.dff.Q := by
  cases i <;> simp [Bit.set_input, DFF.set_input]

theorem Bit_set_prev (b : Bit) (i : Option (List Bool)) :
    (b.set_input i).dff.prev_clk = b.dff.prev_clk := by
  cases i <;> simp [Bit.set_input, DFF.set_input]

theorem Bit_on_prev (b : Bit) (clk : Bool) :
    (b.on_clock clk).dff.prev_clk = clk := by
  rw [Bit_on_clock_eq]

theorem Bit_on_false_Q (b : Bit) : (b.on_clock false).dff.Q = b.dff.Q := by
  rw [Bit_on_clock_eq]; simp

theorem Bit_absorb_none (b : Bit) (v l : Bool) :
    (b.set_input (some [v, l])).set_input none = b.set_input (some [v, l]) := by
  cases l <;> simp [Bit_set_some, Bit_set_none]

theorem Bit_absorb_some (b : Bit) (v l : Bool) :
    (b.set_input (some [v, l])).set_input (some [v, l]) = b.set_input (some [v, l]) := by
  cases l <;> simp [Bit_set_some]

theorem Bit_on_absorb_some (b : Bit) (v l c : Bool) :
    ((b.set_input (some [v, l])).on_clock c).set_input (some [v, l]) =
      (b.set_input (some [v, l])).on_clock c := by
  cases l <;> cases c <;> simp [Bit_set_some, Bit_on_clock_eq]

theorem Bit_on_absorb_none (b : Bit) (v l c : Bool) :
    ((b.set_input (some [v, l])).on_clock c).set_input none =
      (b.set_input (some [v, l])).on_clock c := by
  cases l <;> cases c <;> simp [Bit_set_some, Bit_on_clock_eq, Bit_set_none]

theorem Bit_cycle (b : Bit) (v l : Bool) (h : b.dff.prev_clk = false) :
    ((b.set_input (some [v, l])).on_clock true).on_clock false =
      ⟨⟨(if l then v else b.dff.Q), (if l then v else b.dff.Q), false⟩,
        (if l then v else b.dff.Q), l⟩ := by
  cases l <;> simp [Bit_set_some, Bit_on_clock_eq, h]

theorem Bit_on_idem (b : Bit) (c : Bool) :
    (b.on_clock c).on_clock c = b.on_clock c := by
  cases c <;> cases hl : b.load <;> cases hp : b.dff.prev_clk <;>
    simp [Bit_on_clock_eq, hl, hp]

/-! RegisterN: structural characterizations and the commit behaviour of a
full clock cycle. -/

theorem map_zipWith_fuse {α β γ δ : Type} (g : γ → δ) (f : α → β → γ) :
    ∀ (as : List α) (bs : List β),
      (List.zipWith f as bs).map g = List.zipWith (fun a b => g (f a b)) as bs := by
  intro as
  induction as with
  | nil => intro bs; simp
  | cons a as ih => intro bs; cases bs <;> simp [ih]

theorem zipWith_left_proj {α β γ : Type} (g : α → γ) :
    ∀ (as : List α) (bs : List β), as.length = bs.length →
      List.zipWith (fun a _ => g a) as bs = as.map g := by
  intro as
  induction as with
  | nil => intro bs _; simp
  | cons a as ih =>
    intro bs h
    cases bs with
    | nil => simp at h
    | cons b bs => simp_all

theorem Reg_set_some (r : RegisterN) (w : List Bool) (l : Bool) :
    r.set_input (some (w ++ [l])) =
      ⟨List.zipWith (fun b v => b.set_input (some [v, l])) r.bits w, w, l⟩ := by
  simp [RegisterN.set_input, List.dropLast_concat, List.getLastD_concat]

theorem Reg_set_none (r : RegisterN) :
    r.set_input none =
      ⟨List.zipWith (fun b v => b.set_input (some [v, r.load])) r.bits r.in_vals,
        r.in_vals, r.load⟩ := by
  simp [RegisterN.set_input]

theorem Reg_on_of_struct (bits : List Bit) (vals : List Bool) (l clk : Bool) :
    (RegisterN.mk bits vals l).on_clock clk =
      ⟨(List.zipWith (fun b v => b.set_input (some [v, l])) bits vals).map
          (fun b => b.on_clock clk), vals, l⟩ := by
  simp [RegisterN.on_clock, RegisterN.set_input]

theorem Reg_get_output_eq (r : RegisterN) :
    r.get_output = r.bits.map (fun b => b.dff.Q) := by
  simp [RegisterN.get_output, Bit.get_output, DFF.get_output]

theorem Reg_absorb_some (r : RegisterN) (w : List Bool) (l : Bool) :
    (r.set_input (some (w ++ [l]))).set_input (some (w ++ [l])) =
      r.set_input (some (w ++ [l])) := by
  rw [Reg_set_some r w l, Reg_set_some]
  rw [zipWith_self_absorb _ (fun b v => Bit_absorb_some b v l) r.bits w]

theorem Reg_absorb_none (r : RegisterN) (w : List Bool) (l : Bool) :
    (r.set_input (some (w ++ [l]))).set_input none = r.set_input (some (w ++ [l])) := by
  rw [Reg_set_some r w l, Reg_set_none]
  rw [zipWith_self_absorb _ (fun b v => Bit_absorb_some b v l) r.bits w]

theorem Reg_on_absorb_some (r : RegisterN) (w : List Bool) (l c : Bool) :
    ((r.set_input (some (w ++ [l]))).on_clock c).set_input (some (w ++ [l])) =
      (r.set_input (some (w ++ [l]))).on_clock c := by
  rw [Reg_set_some r w l, Reg_on_of_struct,
    zipWith_self_absorb _ (fun b v => Bit_absorb_some b v l) r.bits w, Reg_set_some]
  rw [zipWith_map_absorb _ _ (fun b v => Bit_on_absorb_some b v l c) r.bits w]

theorem Reg_on_absorb_none (r : RegisterN) (w : List Bool) (l c : Bool) :
    ((r.set_input (some (w ++ [l]))).on_clock c).set_input none =
      (r.set_input (some (w ++ [l]))).on_clock c := by
  rw [Reg_set_some r w l, Reg_on_of_struct,
    zipWith_self_absorb _ (fun b v => Bit_absorb_some b v l) r.bits w, Reg_set_none]
  rw [zipWith_map_absorb _ _ (fun b v => Bit_on_absorb_some b v l c) r.bits w]

theorem Reg_cycle (r : RegisterN) (w : List Bool) (l : Bool) :
    ((r.set_input (some (w ++ [l]))).on_clock true).on_clock false =
      ⟨List.zipWith (fun b v => ((b.set_input (some [v, l])).on_clock true).on_clock false)
        r.bits w, w, l⟩ := by
  rw [Reg_set_some r w l, Reg_on_of_struct _ _ _ true,
    zipWith_self_absorb _ (fun b v => Bit_absorb_some b v l) r.bits w,
    Reg_on_of_struct _ _ _ false,
    zipWith_map_absorb _ _ (fun b v => Bit_on_absorb_some b v l true) r.bits w,
    List.map_map, map_zipWith_fuse]
  simp [Function.comp]

theorem Reg_cycle_out (r : RegisterN) (w : List Bool) (l : Bool) (n : Nat)
    (hr : RegisterN.Wf n r) (hw : w.length = n) :
    (((r.set_input (some (w ++ [l]))).on_clock true).on_clock false).get_output =
      if l then w else r.get_output := by
  obtain ⟨hb, hv, hWf⟩ := hr
  rw [Reg_cycle, Reg_get_output_eq]
  show (List.zipWith _ r.bits w).map _ = _
  rw [map_zipWith_fuse]
  have hcyc : List.zipWith
      (fun b v => ((((b.set_input (some [v, l])).on_clock true).on_clock false)).dff.Q) r.bits w =
      List.zipWith (fun b v => if l then v else b.dff.Q) r.bits w :=
    zipWith_congr_left (fun b v hbw => by rw [Bit_cycle b v l hbw]) r.bits w hWf
  rw [hcyc]
  cases l
  · simp only [Bool.false_eq_true, if_false]
    rw [zipWith_left_proj (fun b => b.dff.Q) r.bits w (by omega), Reg_get_output_eq]
  · simp only [if_true]
    exact zipWith_const_right r.bits w (by omega)

theorem Reg_cycle_Wf (r : RegisterN) (w : List Bool) (l : Bool) (n : Nat)
    (hr : RegisterN.Wf n r) (hw : w.length = n) :
    RegisterN.Wf n (((r.set_input (some (w ++ [l]))).on_clock true).on_clock false) := by
  obtain ⟨hb, hv, hWf⟩ := hr
  rw [Reg_cycle]
  refine ⟨by simp [List.length_zipWith, hb, hw], hw, ?_⟩
  exact forall_mem_zipWith (q := fun _ => True) _
    (fun b v _ => by simp [Bit.Wf, Bit_on_prev]) r.bits w (fun _ _ => trivial)

theorem Reg_set_char (n : Nat) (r : RegisterN) (i : Option (List Bool))
    (hr : RegisterN.Wf n r) (hi : RegisterN.WfInput n i) :
    (r.set_input i).get_output = r.get_output ∧ RegisterN.Wf n (r.set_input i) := by
  obtain ⟨hb, hv, hWf⟩ := hr
  have main : ∀ (w : List Bool) (l : Bool), w.length = n →
      (r.set_input (some (w ++ [l]))).get_output = r.get_output ∧
        RegisterN.Wf n (r.set_input (some (w ++ [l]))) := by
    intro w l hw
    rw [Reg_set_some]
    constructor
    · rw [Reg_get_output_eq]
      show (List.zipWith _ r.bits w).map _ = _
      rw [map_zipWith_fuse]
      have : List.zipWith (fun b v => ((b.set_input (some [v, l]))).dff.Q) r.bits w =
          List.zipWith (fun b _ => b.dff.Q) r.bits w :=
        zipWith_congr_left (q := fun _ => True)
          (fun b v _ => by rw [Bit_set_Q]) r.bits w (fun _ _ => trivial)
      rw [this, zipWith_left_proj (fun b => b.dff.Q) r.bits w (by omega), Reg_get_output_eq]
    · refine ⟨by simp [List.length_zipWith, hb, hw], hw, ?_⟩
      exact forall_mem_zipWith _
        (fun b v hbw => by simp only [Bit.Wf, Bit_set_prev]; exact hbw) r.bits w hWf
  cases i with
  | none =>
    rw [Reg_set_none]
    have h1 := main r.in_vals r.load hv
    rw [Reg_set_some] at h1
    exact h1
  | some ins =>
    have hne : ins ≠ [] := by
      intro h
      rw [h] at hi
      simp [RegisterN.WfInput] at hi
    have hdec : ins.dropLast ++ [ins.getLast hne] = ins := List.dropLast_append_getLast hne
    have hlen : ins.dropLast.length = n := by
      have := List.length_dropLast ins
      simp [RegisterN.WfInput] at hi
      omega
    have := main ins.dropLast (ins.getLast hne) hlen
    rw [hdec] at this
    exact this

theorem Reg_on_clock_eq (r : RegisterN) (clk : Bool) :
    r.on_clock clk =
      ⟨(List.zipWith (fun b v => b.set_input (some [v, r.load])) r.bits r.in_vals).map
          (fun b => b.on_clock clk), r.in_vals, r.load⟩ := by
  simp [RegisterN.on_clock, Reg_set_none]

theorem Reg_on_idem (r : RegisterN) (c : Bool) :
    (r.on_clock c).on_clock c = r.on_clock c := by
  rw [Reg_on_clock_eq r c, Reg_on_clock_eq]
  simp only
  rw [zipWith_map_absorb _ _ (fun b v => Bit_on_absorb_some b v r.load c) r.bits r.in_vals,
    List.map_map]
  congr 1
  apply List.map_congr_left
  intro b _
  simp [Function.comp, Bit_on_idem]

theorem Reg_prevs_on (r : RegisterN) (c : Bool) :
    ∀ b ∈ (r.on_clock c).bits, b.dff.prev_clk = c := by
  rw [Reg_on_clock_eq]
  intro b hb
  simp only [List.mem_map] at hb
  obtain ⟨b0, _, rfl⟩ := hb
  exact Bit_on_prev b0 c

theorem Bit_on_noedge (b : Bit) (c : Bool) (h : b.dff.prev_clk = c) :
    (b.on_clock c).dff.Q = b.dff.Q := by
  rw [Bit_on_clock_eq]
  cases c <;> simp [h]

theorem Reg_on_noedge_out (r : RegisterN) (c : Bool)
    (hlen : r.bits.length = r.in_vals.length)
    (hprev : ∀ b ∈ r.bits, b.dff.prev_clk = c) :
    (r.on_clock c).get_output = r.get_output := by
  rw [Reg_on_clock_eq, Reg_get_output_eq]
  simp only [List.map_map, map_zipWith_fuse]
  have hzip : List.zipWith
      (fun b v => ((b.set_input (some [v, r.load])).on_clock c).dff.Q) r.bits r.in_vals =
      List.zipWith (fun b _ => b.dff.Q) r.bits r.in_vals := by
    refine zipWith_congr_left (q := fun b => b.dff.prev_clk = c) ?_ r.bits r.in_vals hprev
    intro b v hq
    rw [Bit_on_noedge _ c (by rw [Bit_set_prev]; exact hq), Bit_set_Q]
  rw [hzip, zipWith_left_proj (fun b => b.dff.Q) r.bits r.in_vals hlen, Reg_get_output_eq]

theorem Reg_on_false_out (r : RegisterN)
    (hlen : r.bits.length = r.in_vals.length) :
    (r.on_clock false).get_output = r.get_output := by
  rw [Reg_on_clock_eq, Reg_get_output_eq]
  simp only [List.map_map, map_zipWith_fuse]
  have hzip : List.zipWith
      (fun b v => ((b.set_input (some [v, r.load])).on_clock false).dff.Q) r.bits r.in_vals =
      List.zipWith (fun b _ => b.dff.Q) r.bits r.in_vals := by
    refine zipWith_congr_left (q := fun _ => True) ?_ r.bits r.in_vals (fun _ _ => trivial)
    intro b v _
    rw [Bit_on_false_Q, Bit_set_Q]
  rw [hzip, zipWith_left_proj (fun b => b.dff.Q) r.bits r.in_vals hlen, Reg_get_output_eq]

theorem Bit_set_on_true_Q (b : Bit) (v l : Bool) (h : b.dff.prev_clk = false) :
    ((b.set_input (some [v, l])).on_clock true).dff.Q = if l then v else b.dff.Q := by
  rw [Bit_set_some, Bit_on_clock_eq]
  cases l <;> simp [h]

theorem Reg_set_on_true_out (r : RegisterN) (w : List Bool) (l : Bool) (n : Nat)
    (hr : RegisterN.Wf n r) (hw : w.length = n) :
    ((r.set_input (some (w ++ [l]))).on_clock true).get_output =
      if l then w else r.get_output := by
  obtain ⟨hb, hv, hWf⟩ := hr
  rw [Reg_set_some, Reg_on_of_struct,
    zipWith_self_absorb _ (fun b v => Bit_absorb_some b v l) r.bits w, Reg_get_output_eq]
  simp only [List.map_map, map_zipWith_fuse]
  have hzip : List.zipWith
      (fun b v => ((b.set_input (some [v, l])).on_clock true).dff.Q) r.bits w =
      List.zipWith (fun b v => if l then v else b.dff.Q) r.bits w := by
    refine zipWith_congr_left (q := Bit.Wf) ?_ r.bits w hWf
    intro b v hq
    exact Bit_set_on_true_Q b v l hq
  rw [hzip]
  cases l
  · simp only [Bool.false_eq_true, if_false]
    rw [zipWith_left_proj (fun b => b.dff.Q) r.bits w (by omega), Reg_get_output_eq]
  · simp only [if_true]
    exact zipWith_const_right r.bits w (by omega)

/-! Index access helpers. -/

theorem getD_map_getElem {α β : Type} (f : α → β) (l : List α) (i : Nat)
    (h : i < l.length) (d : β) (d' : α) :
    (l.map f).getD i d = f (l.getD i d') := by
  rw [List.getD_eq_getElem _ _ (by simpa using h), List.getD_eq_getElem _ _ h,
    List.getElem_map]

theorem getD_zipWith {α β γ : Type} (f : α → β → γ) (as : List α) (bs : List β)
    (i : Nat) (ha : i < as.length) (hb : i < bs.length) (d : γ) (da : α) (db : β) :
    (List.zipWith f as bs).getD i d = f (as.getD i da) (bs.getD i db) := by
  rw [List.getD_eq_getElem _ _ (by simp; omega), List.getD_eq_getElem _ _ ha,
    List.getD_eq_getElem _ _ hb, List.getElem_zipWith]

theorem getD_range_map {α : Type} (f : Nat → α) (n k : Nat) (h : k < n) (d : α) :
    ((List.range n).map f).getD k d = f k := by
  rw [getD_map_getElem f _ k (by simpa using h) d 0,
    List.getD_eq_getElem _ _ (by simpa using h), List.getElem_range]

theorem list_len_one {α : Type} (l : List α) (d : α) (h : l.length = 1) :
    l = [l.getD 0 d] := by
  rcases l with _ | ⟨a, _ | ⟨b, t⟩⟩ <;> simp_all

theorem getD_append_add {α : Type} (x y : List α) (n k : Nat) (h : x.length = n)
    (d : α) : (x ++ y).getD (n + k) d = y.getD k d := by
  have hle : x.length ≤ n + k := by omega
  simp [List.getD_eq_getElem?_getD, List.getElem?_append_right hle, h]

theorem concat3_decomp (ins : List Bool) (A : Nat) (h : ins.length = 16 + A + 1) :
    ins = ins.take 16 ++ ((ins.drop 16).take A ++ [ins.getD (16 + A) false]) := by
  have e1 : ins.take 16 ++ ins.drop 16 = ins := List.take_append_drop 16 ins
  have e2 : (ins.drop 16).take A ++ (ins.drop 16).drop A = ins.drop 16 :=
    List.take_append_drop A (ins.drop 16)
  have e3 : (ins.drop 16).drop A = ins.drop (16 + A) := List.drop_drop A 16 ins
  have e4 : (ins.drop (16 + A)).length = 1 := by
    rw [List.length_drop, h]
    omega
  have e5 : ins.drop (16 + A) = [(ins.drop (16 + A)).getD 0 false] :=
    list_len_one _ false e4
  have e6 : (ins.drop (16 + A)).getD 0 false = ins.getD (16 + A) false := by
    rw [List.getD_eq_getElem _ _ (by omega), List.getD_eq_getElem _ _ (by omega)]
    rw [List.getElem_drop]
    simp
  calc ins = ins.take 16 ++ ins.drop 16 := e1.symm
    _ = ins.take 16 ++ ((ins.drop 16).take A ++ (ins.drop 16).drop A) := by rw [e2]
    _ = ins.take 16 ++ ((ins.drop 16).take A ++ [ins.getD (16 + A) false]) := by
        rw [e3, e5, e6]

theorem blti_eq_toNatLSB (l : List Bool) : bool_list_to_int l = toNatLSB l :=
  bool_list_to_int_eq_toNatLSB l

theorem blti_lt (l : List Bool) : bool_list_to_int l < 2 ^ l.length := by
  rw [blti_eq_toNatLSB]; exact toNatLSB_lt l

theorem blti_append (x y : List Bool) :
    bool_list_to_int (x ++ y) =
      bool_list_to_int x + 2 ^ x.length * bool_list_to_int y := by
  simp only [blti_eq_toNatLSB]; exact toNatLSB_append x y

theorem blti_inj (x y : List Bool) (h : x.length = y.length)
    (he : bool_list_to_int x = bool_list_to_int y) : x = y := by
  simp only [blti_eq_toNatLSB] at he
  exact toNatLSB_inj x y h he

/-! RAM8: structural characterizations, absorption, and the commit and frame
behaviour of a full clock cycle. -/

theorem Mux4Way16_length (inputs : List Bool) : (Mux4Way16.compute inputs).length = 16 := by
  simp [Mux4Way16.compute, MuxN_length]

theorem Mux8Way16_length (inputs : List Bool) : (Mux8Way16.compute inputs).length = 16 := by
  simp [Mux8Way16.compute, MuxN_length]

theorem RAM8_get_output_length (s : RAM8) (y : List Bool) :
    (s.get_output y).length = 16 := by
  simp [RAM8.get_output, Mux8Way16_length]

theorem DMux8Way_length (x : List Bool) (l : Bool) (hx : x.length = 3) :
    (DMux8Way.compute (x ++ [l])).length = 8 := by
  obtain ⟨a0, a1, a2, rfl⟩ := list_len_three x hx
  rw [show [a0, a1, a2] ++ [l] = [a0, a1, a2, l] from rfl, DMux8Way_oneHot]
  simp

theorem DMux8Way_getD (x : List Bool) (l : Bool) (k : Nat) (hx : x.length = 3)
    (hk : k < 8) :
    (DMux8Way.compute (x ++ [l])).getD k false =
      (decide (k = bool_list_to_int x) && l) := by
  obtain ⟨a0, a1, a2, rfl⟩ := list_len_three x hx
  rw [show [a0, a1, a2] ++ [l] = [a0, a1, a2, l] from rfl, DMux8Way_oneHot]
  exact getD_range_map _ 8 k hk false

theorem getD_append_len {α : Type} (x y : List α) (n : Nat) (h : x.length = n)
    (d : α) : (x ++ y).getD n d = y.getD 0 d := by
  have := getD_append_add x y n 0 h d
  simpa using this

theorem RAM8_set_some (s : RAM8) (w x : List Bool) (l : Bool)
    (hw : w.length = 16) (hx : x.length = 3) :
    s.set_input (some (w ++ x ++ [l])) =
      ⟨List.zipWith (fun r d => r.set_input (some (w ++ [d]))) s.registers
        (DMux8Way.compute (x ++ [l])), w, x, l⟩ := by
  have ha : w ++ x ++ [l] = w ++ (x ++ [l]) := List.append_assoc w x [l]
  have e1 : (w ++ (x ++ [l])).take 16 = w := List.take_left' hw
  have e2 : ((w ++ (x ++ [l])).drop 16).take 3 = x := by
    rw [List.drop_left' hw, List.take_left' hx]
  have e3 : (w ++ (x ++ [l])).getD 19 false = l := by
    rw [show (19 : Nat) = 16 + 3 from rfl, getD_append_add _ _ 16 3 hw,
      getD_append_len _ _ 3 hx]
    rfl
  simp only [RAM8.set_input, ha, e1, e2, e3]

theorem RAM8_set_none_eq (s : RAM8) :
    s.set_input none =
      ⟨List.zipWith (fun r d => r.set_input (some (s.in_val ++ [d]))) s.registers
        (DMux8Way.compute (s.address ++ [s.load])), s.in_val, s.address, s.load⟩ := by
  simp [RAM8.set_input]

theorem RAM8_on_clock_eq (s : RAM8) (clk : Bool) :
    s.on_clock clk =
      ⟨(List.zipWith (fun r d => r.set_input (some (s.in_val ++ [d]))) s.registers
        (DMux8Way.compute (s.address ++ [s.load]))).map (fun r => r.on_clock clk),
        s.in_val, s.address, s.load⟩ := by
  simp [RAM8.on_clock, RAM8_set_none_eq]

theorem RAM8_absorb_some (s : RAM8) (w x : List Bool) (l : Bool)
    (hw : w.length = 16) (hx : x.length = 3) :
    (s.set_input (some (w ++ x ++ [l]))).set_input (some (w ++ x ++ [l])) =
      s.set_input (some (w ++ x ++ [l])) := by
  rw [RAM8_set_some s w x l hw hx, RAM8_set_some _ w x l hw hx]
  rw [zipWith_self_absorb _ (fun r d => Reg_absorb_some r w d) s.registers _]

theorem RAM8_on_absorb_some (s : RAM8) (w x : List Bool) (l c : Bool)
    (hw : w.length = 16) (hx : x.length = 3) :
    ((s.set_input (some (w ++ x ++ [l]))).on_clock c).set_input (some (w ++ x ++ [l])) =
      (s.set_input (some (w ++ x ++ [l]))).on_clock c := by
  rw [RAM8_set_some s w x l hw hx, RAM8_on_clock_eq]
  simp only
  rw [zipWith_self_absorb _ (fun r d => Reg_absorb_some r w d) s.registers _]
  rw [RAM8_set_some _ w x l hw hx]
  simp only
  rw [zipWith_map_absorb _ _ (fun r d => Reg_on_absorb_some r w d c) s.registers _]

theorem RAM8_tick_struct (s : RAM8) :
    s.tick =
      ⟨List.zipWith
        (fun r d => ((r.set_input (some (s.in_val ++ [d]))).on_clock true).on_clock false)
        s.registers (DMux8Way.compute (s.address ++ [s.load])),
        s.in_val, s.address, s.load⟩ := by
  show (s.on_clock true).on_clock false = _
  rw [RAM8_on_clock_eq s true, RAM8_on_clock_eq]
  simp only
  rw [zipWith_map_absorb _ _ (fun r d => Reg_on_absorb_some r s.in_val d true)
    s.registers _, List.map_map, map_zipWith_fuse]
  simp [Function.comp]

theorem RAM8_tick_fields (s : RAM8) :
    s.tick.in_val = s.in_val ∧ s.tick.address = s.address ∧ s.tick.load = s.load := by
  rw [RAM8_tick_struct]
  exact ⟨rfl, rfl, rfl⟩

theorem RAM8_tick_Wf (s : RAM8) (hWf : s.Wf) : s.tick.Wf := by
  obtain ⟨h8, h16, h3, hregs⟩ := hWf
  rw [RAM8_tick_struct]
  simp only [RAM8.Wf]
  refine ⟨?_, h16, h3, ?_⟩
  · simp [List.length_zipWith, h8, DMux8Way_length s.address s.load h3]
  · exact forall_mem_zipWith _ (fun r d hr => Reg_cycle_Wf r s.in_val d 16 hr h16)
      s.registers _ hregs

theorem RAM8_get_output_eq (s : RAM8) (hWf : s.Wf) (y : List Bool) (hy : y.length = 3) :
    s.get_output y = (s.registers.map RegisterN.get_output).getD (bool_list_to_int y) [] := by
  obtain ⟨h8, h16, h3, hregs⟩ := hWf
  obtain ⟨y0, y1, y2, rfl⟩ := list_len_three y hy
  simp only [RAM8.get_output]
  refine Mux8Way16_select y0 y1 y2 _ (by simp [h8]) ?_
  intro w hw
  simp only [List.mem_map] at hw
  obtain ⟨r, hr, rfl⟩ := hw
  have hb := (hregs r hr).1
  simp [Reg_get_output_eq, hb]

theorem RAM8_read_getD (s : RAM8) (hWf : s.Wf) (y : List Bool) (hy : y.length = 3) :
    s.get_output y = (s.registers.getD (bool_list_to_int y) (RegisterN.init 16)).get_output := by
  rw [RAM8_get_output_eq s hWf y hy]
  have hk : bool_list_to_int y < 8 := by
    have := blti_lt y
    rw [hy] at this
    simpa using this
  exact getD_map_getElem RegisterN.get_output s.registers _
    (by rw [hWf.1]; exact hk) [] (RegisterN.init 16)

theorem RAM8_tick_read (s : RAM8) (hWf : s.Wf) (y : List Bool) (hy : y.length = 3) :
    s.tick.get_output y =
      if s.load = true ∧ bool_list_to_int y = bool_list_to_int s.address
      then s.in_val else s.get_output y := by
  have hWf' : s.tick.Wf := RAM8_tick_Wf s hWf
  obtain ⟨h8, h16, h3, hregs⟩ := hWf
  have hk : bool_list_to_int y < 8 := by
    have := blti_lt y
    rw [hy] at this
    simpa using this
  rw [RAM8_read_getD s.tick hWf' y hy, RAM8_read_getD s ⟨h8, h16, h3, hregs⟩ y hy]
  have hdm : (DMux8Way.compute (s.address ++ [s.load])).length = 8 :=
    DMux8Way_length s.address s.load h3
  have hreg : s.tick.registers.getD (bool_list_to_int y) (RegisterN.init 16) =
      (((s.registers.getD (bool_list_to_int y) (RegisterN.init 16)).set_input
        (some (s.in_val ++ [(DMux8Way.compute (s.address ++ [s.load])).getD
          (bool_list_to_int y) false]))).on_clock true).on_clock false := by
    rw [RAM8_tick_struct]
    exact getD_zipWith _ s.registers _ _ (by omega) (by omega) _ _ _
  rw [hreg, DMux8Way_getD s.address s.load _ h3 hk]
  have hmem : s.registers.getD (bool_list_to_int y) (RegisterN.init 16) ∈ s.registers := by
    rw [List.getD_eq_getElem _ _ (by omega)]
    exact List.getElem_mem _
  rw [Reg_cycle_out _ _ _ 16 (hregs _ hmem) h16]
  cases hload : s.load <;>
    by_cases he : bool_list_to_int y = bool_list_to_int s.address <;>
      simp [hload, he]

theorem regouts_zip (regs : List RegisterN) (dm : List Bool) (w : List Bool)
    (hw : w.length = 16) (hregs : ∀ r ∈ regs, RegisterN.Wf 16 r)
    (hlen : regs.length = dm.length) :
    (List.zipWith (fun r d => r.set_input (some (w ++ [d]))) regs dm).map
        RegisterN.get_output = regs.map RegisterN.get_output := by
  rw [map_zipWith_fuse]
  have hzip : List.zipWith (fun r d => (r.set_input (some (w ++ [d]))).get_output) regs dm =
      List.zipWith (fun r _ => r.get_output) regs dm :=
    zipWith_congr_left
      (fun r d hr => (Reg_set_char 16 r _ hr (by simp [RegisterN.WfInput, hw])).1)
      regs dm hregs
  rw [hzip, zipWith_left_proj RegisterN.get_output regs dm hlen]

theorem regs_zip_Wf (regs : List RegisterN) (dm : List Bool) (w : List Bool)
    (hw : w.length = 16) (hregs : ∀ r ∈ regs, RegisterN.Wf 16 r) :
    ∀ r ∈ List.zipWith (fun r d => r.set_input (some (w ++ [d]))) regs dm,
      RegisterN.Wf 16 r :=
  forall_mem_zipWith _
    (fun r d hr => (Reg_set_char 16 r _ hr (by simp [RegisterN.WfInput, hw])).2)
    regs dm hregs

theorem RAM8_set_regouts (s : RAM8) (i : Option (List Bool)) (hWf : s.Wf)
    (hi : RAM8.WfInput i) :
    (s.set_input i).registers.map RegisterN.get_output =
      s.registers.map RegisterN.get_output := by
  obtain ⟨h8, h16, h3, hregs⟩ := hWf
  cases i with
  | none =>
    rw [RAM8_set_none_eq]
    exact regouts_zip s.registers _ s.in_val h16 hregs
      (by rw [h8, DMux8Way_length s.address s.load h3])
  | some ins =>
    have hlen : ins.length = 20 := hi
    have hdec := concat3_decomp ins 3 (by omega)
    have hw : (ins.take 16).length = 16 := by simp [hlen]
    have hx : ((ins.drop 16).take 3).length = 3 := by simp [hlen]
    rw [show ins.take 16 ++ ((ins.drop 16).take 3 ++ [ins.getD (16 + 3) false]) =
        ins.take 16 ++ (ins.drop 16).take 3 ++ [ins.getD (16 + 3) false] by simp] at hdec
    rw [show s.set_input (some ins) =
        s.set_input (some (ins.take 16 ++ (ins.drop 16).take 3 ++ [ins.getD (16 + 3) false]))
      from by rw [← hdec]]
    rw [RAM8_set_some s _ _ _ hw hx]
    exact regouts_zip s.registers _ (ins.take 16) hw hregs
      (by rw [h8, DMux8Way_length _ _ hx])

theorem RAM8_set_out (s : RAM8) (i : Option (List Bool)) (y : List Bool)
    (hWf : s.Wf) (hi : RAM8.WfInput i) :
    (s.set_input i).get_output y = s.get_output y := by
  simp only [RAM8.get_output]
  rw [RAM8_set_regouts s i hWf hi]

theorem RAM8_set_Wf (s : RAM8) (i : Option (List Bool)) (hWf : s.Wf)
    (hi : RAM8.WfInput i) : (s.set_input i).Wf := by
  obtain ⟨h8, h16, h3, hregs⟩ := hWf
  cases i with
  | none =>
    rw [RAM8_set_none_eq]
    simp only [RAM8.Wf]
    refine ⟨?_, h16, h3, ?_⟩
    · simp [List.length_zipWith, h8, DMux8Way_length s.address s.load h3]
    · exact regs_zip_Wf s.registers _ s.in_val h16 hregs
  | some ins =>
    have hlen : ins.length = 20 := hi
    have hdec := concat3_decomp ins 3 (by omega)
    have hw : (ins.take 16).length = 16 := by simp [hlen]
    have hx : ((ins.drop 16).take 3).length = 3 := by simp [hlen]
    rw [show ins.take 16 ++ ((ins.drop 16).take 3 ++ [ins.getD (16 + 3) false]) =
        ins.take 16 ++ (ins.drop 16).take 3 ++ [ins.getD (16 + 3) false] by simp] at hdec
    rw [show s.set_input (some ins) =
        s.set_input (some (ins.take 16 ++ (ins.drop 16).take 3 ++ [ins.getD (16 + 3) false]))
      from by rw [← hdec]]
    rw [RAM8_set_some s _ _ _ hw hx]
    simp only [RAM8.Wf]
    refine ⟨?_, hw, hx, ?_⟩
    · simp [List.length_zipWith, h8, DMux8Way_length _ _ hx]
    · exact regs_zip_Wf s.registers _ (ins.take 16) hw hregs

theorem RAM8_set_fields (s : RAM8) (w x : List Bool) (l : Bool)
    (hw : w.length = 16) (hx : x.length = 3) :
    (s.set_input (some (w ++ x ++ [l]))).in_val = w ∧
    (s.set_input (some (w ++ x ++ [l]))).address = x ∧
    (s.set_input (some (w ++ x ++ [l]))).load = l := by
  rw [RAM8_set_some s w x l hw hx]
  exact ⟨rfl, rfl, rfl⟩

/-- A RAM8 write (set_input of word, sub-address and load line) followed by a
full clock cycle: reads after the cycle see the new word exactly at the
written address when the load line was asserted. -/
theorem RAM8_write_read (blk : RAM8) (hWf : blk.Wf) (w lo : List Bool) (d : Bool)
    (hw : w.length = 16) (hlo : lo.length = 3) (y : List Bool) (hy : y.length = 3) :
    (((blk.set_input (some (w ++ lo ++ [d]))).on_clock true).on_clock false).get_output y =
      if d = true ∧ bool_list_to_int y = bool_list_to_int lo
      then w else blk.get_output y := by
  have h1 : (blk.set_input (some (w ++ lo ++ [d]))).Wf :=
    RAM8_set_Wf blk _ hWf (by simp [RAM8.WfInput, hw, hlo])
  have h2 := RAM8_tick_read (blk.set_input (some (w ++ lo ++ [d]))) h1 y hy
  have h3 : (blk.set_input (some (w ++ lo ++ [d]))).tick =
      ((blk.set_input (some (w ++ lo ++ [d]))).on_clock true).on_clock false := rfl
  rw [h3] at h2
  obtain ⟨f1, f2, f3⟩ := RAM8_set_fields blk w lo d hw hlo
  rw [f1, f2, f3, RAM8_set_out blk _ y hWf (by simp [RAM8.WfInput, hw, hlo])] at h2
  exact h2

/-- The state after a RAM8 write and a full clock cycle is well formed. -/
theorem RAM8_write_Wf (blk : RAM8) (hWf : blk.Wf) (w lo : List Bool) (d : Bool)
    (hw : w.length = 16) (hlo : lo.length = 3) :
    (((blk.set_input (some (w ++ lo ++ [d]))).on_clock true).on_clock false).Wf := by
  have h1 : (blk.set_input (some (w ++ lo ++ [d]))).Wf :=
    RAM8_set_Wf blk _ hWf (by simp [RAM8.WfInput, hw, hlo])
  exact RAM8_tick_Wf _ h1

/-! RAM64: the same lemma suite, lifted through the 8-way block structure. -/

theorem RAM64_get_output_length (s : RAM64) (y : List Bool) :
    (s.get_output y).length = 16 := by
  simp [RAM64.get_output, Mux8Way16_length]

theorem RAM64_set_some (s : RAM64) (w x : List Bool) (l : Bool)
    (hw : w.length = 16) (hx : x.length = 6) :
    s.set_input (some (w ++ x ++ [l])) =
      ⟨List.zipWith (fun blk d => blk.set_input (some (w ++ x.take 3 ++ [d])))
        s.ram8blocks (DMux8Way.compute ((x.drop 3).take 3 ++ [l])), w, x, l⟩ := by
  have ha : w ++ x ++ [l] = w ++ (x ++ [l]) := List.append_assoc w x [l]
  have e1 : (w ++ (x ++ [l])).take 16 = w := List.take_left' hw
  have e2 : ((w ++ (x ++ [l])).drop 16).take 6 = x := by
    rw [List.drop_left' hw, List.take_left' hx]
  have e3 : (w ++ (x ++ [l])).getD 22 false = l := by
    rw [show (22 : Nat) = 16 + 6 from rfl, getD_append_add _ _ 16 6 hw,
      getD_append_len _ _ 6 hx]
    rfl
  simp only [RAM64.set_input, ha, e1, e2, e3]

theorem RAM64_set_none_eq (s : RAM64) :
    s.set_input none =
      ⟨List.zipWith (fun blk d => blk.set_input (some (s.in_val ++ s.address.take 3 ++ [d])))
        s.ram8blocks (DMux8Way.compute ((s.address.drop 3).take 3 ++ [s.load])),
        s.in_val, s.address, s.load⟩ := by
  simp [RAM64.set_input]

theorem RAM64_on_clock_eq (s : RAM64) (clk : Bool) :
    s.on_clock clk =
      ⟨(List.zipWith (fun blk d => blk.set_input (some (s.in_val ++ s.address.take 3 ++ [d])))
        s.ram8blocks (DMux8Way.compute ((s.address.drop 3).take 3 ++ [s.load]))).map
          (fun blk => blk.on_clock clk),
        s.in_val, s.address, s.load⟩ := by
  simp [RAM64.on_clock, RAM64_set_none_eq]

theorem RAM64_absorb_some (s : RAM64) (w x : List Bool) (l : Bool)
    (hw : w.length = 16) (hx : x.length = 6) :
    (s.set_input (some (w ++ x ++ [l]))).set_input (some (w ++ x ++ [l])) =
      s.set_input (some (w ++ x ++ [l])) := by
  rw [RAM64_set_some s w x l hw hx, RAM64_set_some _ w x l hw hx]
  rw [zipWith_self_absorb _
    (fun blk d => RAM8_absorb_some blk w (x.take 3) d hw (by simp [hx])) s.ram8blocks _]

theorem RAM64_on_absorb_some (s : RAM64) (w x : List Bool) (l c : Bool)
    (hw : w.length = 16) (hx : x.length = 6) :
    ((s.set_input (some (w ++ x ++ [l]))).on_clock c).set_input (some (w ++ x ++ [l])) =
      (s.set_input (some (w ++ x ++ [l]))).on_clock c := by
  rw [RAM64_set_some s w x l hw hx, RAM64_on_clock_eq]
  simp only
  rw [zipWith_self_absorb _
    (fun blk d => RAM8_absorb_some blk w (x.take 3) d hw (by simp [hx])) s.ram8blocks _]
  rw [RAM64_set_some _ w x l hw hx]
  simp only
  rw [zipWith_map_absorb _ _
    (fun blk d => RAM8_on_absorb_some blk w (x.take 3) d c hw (by simp [hx])) s.ram8blocks _]

theorem RAM64_tick_struct (s : RAM64) (hWf : s.Wf) :
    s.tick =
      ⟨List.zipWith
        (fun blk d => ((blk.set_input (some (s.in_val ++ s.address.take 3 ++ [d]))).on_clock
          true).on_clock false)
        s.ram8blocks (DMux8Way.compute ((s.address.drop 3).take 3 ++ [s.load])),
        s.in_val, s.address, s.load⟩ := by
  obtain ⟨h8, h16, hA, hblocks⟩ := hWf
  show (s.on_clock true).on_clock false = _
  rw [RAM64_on_clock_eq s true, RAM64_on_clock_eq]
  simp only
  rw [zipWith_map_absorb _ _
    (fun blk d => RAM8_on_absorb_some blk s.in_val (s.address.take 3) d true h16
      (by simp [hA])) s.ram8blocks _, List.map_map, map_zipWith_fuse]
  simp [Function.comp]

theorem RAM64_tick_fields (s : RAM64) (hWf : s.Wf) :
    s.tick.in_val = s.in_val ∧ s.tick.address = s.address ∧ s.tick.load = s.load := by
  rw [RAM64_tick_struct s hWf]
  exact ⟨rfl, rfl, rfl⟩

theorem RAM64_tick_Wf (s : RAM64) (hWf : s.Wf) : s.tick.Wf := by
  have hstruct := RAM64_tick_struct s hWf
  obtain ⟨h8, h16, hA, hblocks⟩ := hWf
  rw [hstruct]
  simp only [RAM64.Wf]
  refine ⟨?_, h16, hA, ?_⟩
  · simp [List.length_zipWith, h8, DMux8Way_length _ s.load (by simp [hA] : ((s.address.drop 3).take 3).length = 3)]
  · exact forall_mem_zipWith _
      (fun blk d hblk => RAM8_write_Wf blk hblk s.in_val (s.address.take 3) d h16 (by simp [hA]))
      s.ram8blocks _ hblocks

theorem RAM64_get_output_eq (s : RAM64) (hWf : s.Wf) (y : List Bool) (hy : y.length = 6) :
    s.get_output y =
      (s.ram8blocks.map (fun blk => blk.get_output (y.take 3))).getD
        (bool_list_to_int ((y.drop 3).take 3)) [] := by
  obtain ⟨h8, h16, hA, hblocks⟩ := hWf
  have hyh : ((y.drop 3).take 3).length = 3 := by simp [hy]
  obtain ⟨b0, b1, b2, hb⟩ := list_len_three _ hyh
  simp only [RAM64.get_output]
  rw [hb]
  refine Mux8Way16_select b0 b1 b2 _ (by simp [h8]) ?_
  intro w hw
  simp only [List.mem_map] at hw
  obtain ⟨blk, _, rfl⟩ := hw
  exact RAM8_get_output_length blk _

theorem RAM64_read_getD (s : RAM64) (hWf : s.Wf) (y : List Bool) (hy : y.length = 6) :
    s.get_output y =
      (s.ram8blocks.getD (bool_list_to_int ((y.drop 3).take 3)) RAM8.init).get_output
        (y.take 3) := by
  rw [RAM64_get_output_eq s hWf y hy]
  have hyh : ((y.drop 3).take 3).length = 3 := by simp [hy]
  have hk : bool_list_to_int ((y.drop 3).take 3) < 8 := by
    have := blti_lt ((y.drop 3).take 3)
    rw [hyh] at this
    simpa using this
  exact getD_map_getElem _ s.ram8blocks _ (by rw [hWf.1]; exact hk) [] RAM8.init

theorem RAM64_tick_read (s : RAM64) (hWf : s.Wf) (y : List Bool) (hy : y.length = 6) :
    s.tick.get_output y =
      if s.load = true ∧ bool_list_to_int y = bool_list_to_int s.address
      then s.in_val else s.get_output y := by
  have hWf' := RAM64_tick_Wf s hWf
  have hstruct := RAM64_tick_struct s hWf
  obtain ⟨h8, h16, hA, hblocks⟩ := hWf
  have hyh : ((y.drop 3).take 3).length = 3 := by simp [hy]
  have hah : ((s.address.drop 3).take 3).length = 3 := by simp [hA]
  have hkyh : bool_list_to_int ((y.drop 3).take 3) < 8 := by
    have := blti_lt ((y.drop 3).take 3)
    rw [hyh] at this
    simpa using this
  have hdm : (DMux8Way.compute ((s.address.drop 3).take 3 ++ [s.load])).length = 8 :=
    DMux8Way_length _ _ hah
  rw [RAM64_read_getD s.tick hWf' y hy, RAM64_read_getD s ⟨h8, h16, hA, hblocks⟩ y hy]
  have hblk : s.tick.ram8blocks.getD (bool_list_to_int ((y.drop 3).take 3)) RAM8.init =
      (((s.ram8blocks.getD (bool_list_to_int ((y.drop 3).take 3)) RAM8.init).set_input
        (some (s.in_val ++ s.address.take 3 ++
          [(DMux8Way.compute ((s.address.drop 3).take 3 ++ [s.load])).getD
            (bool_list_to_int ((y.drop 3).take 3)) false]))).on_clock true).on_clock false := by
    rw [hstruct]
    exact getD_zipWith _ _ _ _ (by omega) (by omega) _ _ _
  rw [hblk, DMux8Way_getD _ s.load _ hah hkyh]
  have hmem : s.ram8blocks.getD (bool_list_to_int ((y.drop 3).take 3)) RAM8.init ∈
      s.ram8blocks := by
    rw [List.getD_eq_getElem _ _ (by omega)]
    exact List.getElem_mem _
  rw [RAM8_write_read _ (hblocks _ hmem) s.in_val (s.address.take 3) _ h16 (by simp [hA])
    (y.take 3) (by simp [hy])]
  have hysp : bool_list_to_int y =
      bool_list_to_int (y.take 3) + 8 * bool_list_to_int ((y.drop 3).take 3) := by
    conv_lhs => rw [← List.take_append_drop 3 y]
    rw [blti_append]
    have h1 : (y.drop 3).take 3 = y.drop 3 :=
      List.take_of_length_le (by simp [hy])
    rw [h1]
    simp [hy]
  have hasp : bool_list_to_int s.address =
      bool_list_to_int (s.address.take 3) +
        8 * bool_list_to_int ((s.address.drop 3).take 3) := by
    conv_lhs => rw [← List.take_append_drop 3 s.address]
    rw [blti_append]
    have h1 : (s.address.drop 3).take 3 = s.address.drop 3 :=
      List.take_of_length_le (by simp [hA])
    rw [h1]
    simp [hA]
  have hbyl : bool_list_to_int (y.take 3) < 8 := by
    have := blti_lt (y.take 3)
    simp only [List.length_take, hy] at this
    simpa using this
  have hbal : bool_list_to_int (s.address.take 3) < 8 := by
    have := blti_lt (s.address.take 3)
    simp only [List.length_take, hA] at this
    simpa using this
  have hiff : ((decide (bool_list_to_int ((y.drop 3).take 3) =
        bool_list_to_int ((s.address.drop 3).take 3)) && s.load) = true ∧
        bool_list_to_int (y.take 3) = bool_list_to_int (s.address.take 3)) ↔
      (s.load = true ∧ bool_list_to_int y = bool_list_to_int s.address) := by
    simp only [Bool.and_eq_true, decide_eq_true_eq]
    constructor
    · rintro ⟨⟨hh, hl⟩, hlo⟩
      exact ⟨hl, by rw [hysp, hasp, hh, hlo]⟩
    · rintro ⟨hl, he⟩
      rw [hysp, hasp] at he
      exact ⟨⟨by omega, hl⟩, by omega⟩
  rw [if_congr hiff rfl rfl]

theorem blkouts_zip (blocks : List RAM8) (dm : List Bool) (w lo : List Bool)
    (hw : w.length = 16) (hlo : lo.length = 3)
    (hblocks : ∀ blk ∈ blocks, blk.Wf) (hlen : blocks.length = dm.length)
    (u : List Bool) :
    (List.zipWith (fun blk d => blk.set_input (some (w ++ lo ++ [d]))) blocks dm).map
        (fun blk => blk.get_output u) = blocks.map (fun blk => blk.get_output u) := by
  rw [map_zipWith_fuse]
  have hzip : List.zipWith
      (fun blk d => (blk.set_input (some (w ++ lo ++ [d]))).get_output u) blocks dm =
      List.zipWith (fun blk _ => blk.get_output u) blocks dm :=
    zipWith_congr_left
      (fun blk d hblk => RAM8_set_out blk _ u hblk (by simp [RAM8.WfInput, hw, hlo]))
      blocks dm hblocks
  rw [hzip, zipWith_left_proj (fun blk => blk.get_output u) blocks dm hlen]

theorem RAM64_set_blkouts (s : RAM64) (i : Option (List Bool)) (hWf : s.Wf)
    (hi : RAM64.WfInput i) (u : List Bool) :
    (s.set_input i).ram8blocks.map (fun blk => blk.get_output u) =
      s.ram8blocks.map (fun blk => blk.get_output u) := by
  obtain ⟨h8, h16, hA, hblocks⟩ := hWf
  cases i with
  | none =>
    rw [RAM64_set_none_eq]
    exact blkouts_zip s.ram8blocks _ s.in_val (s.address.take 3) h16 (by simp [hA])
      hblocks (by rw [h8, DMux8Way_length _ _ (by simp [hA] : ((s.address.drop 3).take 3).length = 3)]) u
  | some ins =>
    have hlen : ins.length = 23 := hi
    have hdec := concat3_decomp ins 6 (by omega)
    have hw : (ins.take 16).length = 16 := by simp [hlen]
    have hx : ((ins.drop 16).take 6).length = 6 := by simp [hlen]
    rw [show ins.take 16 ++ ((ins.drop 16).take 6 ++ [ins.getD (16 + 6) false]) =
        ins.take 16 ++ (ins.drop 16).take 6 ++ [ins.getD (16 + 6) false] by simp] at hdec
    rw [show s.set_input (some ins) =
        s.set_input (some (ins.take 16 ++ (ins.drop 16).take 6 ++ [ins.getD (16 + 6) false]))
      from by rw [← hdec]]
    rw [RAM64_set_some s _ _ _ hw hx]
    exact blkouts_zip s.ram8blocks _ (ins.take 16) (((ins.drop 16).take 6).take 3) hw
      (by simp [hx]) hblocks
      (by rw [h8, DMux8Way_length _ _
        (by simp [hx] : ((((ins.drop 16).take 6).drop 3).take 3).length = 3)]) u

theorem RAM64_set_out (s : RAM64) (i : Option (List Bool)) (y : List Bool)
    (hWf : s.Wf) (hi : RAM64.WfInput i) :
    (s.set_input i).get_output y = s.get_output y := by
  simp only [RAM64.get_output]
  rw [RAM64_set_blkouts s i hWf hi]

theorem RAM64_set_Wf (s : RAM64) (i : Option (List Bool)) (hWf : s.Wf)
    (hi : RAM64.WfInput i) : (s.set_input i).Wf := by
  obtain ⟨h8, h16, hA, hblocks⟩ := hWf
  cases i with
  | none =>
    rw [RAM64_set_none_eq]
    simp only [RAM64.Wf]
    refine ⟨?_, h16, hA, ?_⟩
    · simp [List.length_zipWith, h8, DMux8Way_length _ s.load
        (by simp [hA] : ((s.address.drop 3).take 3).length = 3)]
    · exact forall_mem_zipWith _
        (fun blk d hblk => RAM8_set_Wf blk _ hblk
          (by simp [RAM8.WfInput, h16, hA]))
        s.ram8blocks _ hblocks
  | some ins =>
    have hlen : ins.length = 23 := hi
    have hdec := concat3_decomp ins 6 (by omega)
    have hw : (ins.take 16).length = 16 := by simp [hlen]
    have hx : ((ins.drop 16).take 6).length = 6 := by simp [hlen]
    rw [show ins.take 16 ++ ((ins.drop 16).take 6 ++ [ins.getD (16 + 6) false]) =
        ins.take 16 ++ (ins.drop 16).take 6 ++ [ins.getD (16 + 6) false] by simp] at hdec
    rw [show s.set_input (some ins) =
        s.set_input (some (ins.take 16 ++ (ins.drop 16).take 6 ++ [ins.getD (16 + 6) false]))
      from by rw [← hdec]]
    rw [RAM64_set_some s _ _ _ hw hx]
    simp only [RAM64.Wf]
    refine ⟨?_, hw, hx, ?_⟩
    · simp [List.length_zipWith, h8, DMux8Way_length _ _
        (by simp [hx] : ((((ins.drop 16).take 6).drop 3).take 3).length = 3)]
    · exact forall_mem_zipWith _
        (fun blk d hblk => RAM8_set_Wf blk _ hblk
          (by simp [RAM8.WfInput, hw, hx]))
        s.ram8blocks _ hblocks

theorem RAM64_set_fields (s : RAM64) (w x : List Bool) (l : Bool)
    (hw : w.length = 16) (hx : x.length = 6) :
    (s.set_input (some (w ++ x ++ [l]))).in_val = w ∧
    (s.set_input (some (w ++ x ++ [l]))).address = x ∧
    (s.set_input (some (w ++ x ++ [l]))).load = l := by
  rw [RAM64_set_some s w x l hw hx]
  exact ⟨rfl, rfl, rfl⟩

theorem RAM64_write_read (blk : RAM64) (hWf : blk.Wf) (w lo : List Bool) (d : Bool)
    (hw : w.length = 16) (hlo : lo.length = 6) (y : List Bool) (hy : y.length = 6) :
    (((blk.set_input (some (w ++ lo ++ [d]))).on_clock true).on_clock false).get_output y =
      if d = true ∧ bool_list_to_int y = bool_list_to_int lo
      then w else blk.get_output y := by
  have h1 : (blk.set_input (some (w ++ lo ++ [d]))).Wf :=
    RAM64_set_Wf blk _ hWf (by simp [RAM64.WfInput, hw, hlo])
  have h2 := RAM64_tick_read (blk.set_input (some (w ++ lo ++ [d]))) h1 y hy
  have h3 : (blk.set_input (some (w ++ lo ++ [d]))).tick =
      ((blk.set_input (some (w ++ lo ++ [d]))).on_clock true).on_clock false := rfl
  rw [h3] at h2
  obtain ⟨f1, f2, f3⟩ := RAM64_set_fields blk w lo d hw hlo
  rw [f1, f2, f3, RAM64_set_out blk _ y hWf (by simp [RAM64.WfInput, hw, hlo])] at h2
  exact h2

theorem RAM64_write_Wf (blk : RAM64) (hWf : blk.Wf) (w lo : List Bool) (d : Bool)
    (hw : w.length = 16) (hlo : lo.length = 6) :
    (((blk.set_input (some (w ++ lo ++ [d]))).on_clock true).on_clock false).Wf := by
  have h1 : (blk.set_input (some (w ++ lo ++ [d]))).Wf :=
    RAM64_set_Wf blk _ hWf (by simp [RAM64.WfInput, hw, hlo])
  exact RAM64_tick_Wf _ h1

/-! RAM512: the same lemma suite, one more level up. -/

theorem RAM512_get_output_length (s : RAM512) (y : List Bool) :
    (s.get_output y).length = 16 := by
  simp [RAM512.get_output, Mux8Way16_length]

theorem RAM512_set_some (s : RAM512) (w x : List Bool) (l : Bool)
    (hw : w.length = 16) (hx : x.length = 9) :
    s.set_input (some (w ++ x ++ [l])) =
      ⟨List.zipWith (fun blk d => blk.set_input (some (w ++ x.take 6 ++ [d])))
        s.ram64blocks (DMux8Way.compute ((x.drop 6).take 3 ++ [l])), w, x, l⟩ := by
  have ha : w ++ x ++ [l] = w ++ (x ++ [l]) := List.append_assoc w x [l]
  have e1 : (w ++ (x ++ [l])).take 16 = w := List.take_left' hw
  have e2 : ((w ++ (x ++ [l])).drop 16).take 9 = x := by
    rw [List.drop_left' hw, List.take_left' hx]
  have e3 : (w ++ (x ++ [l])).getD 25 false = l := by
    rw [show (25 : Nat) = 16 + 9 from rfl, getD_append_add _ _ 16 9 hw,
      getD_append_len _ _ 9 hx]
    rfl
  simp only [RAM512.set_input, ha, e1, e2, e3]

theorem RAM512_set_none_eq (s : RAM512) :
    s.set_input none =
      ⟨List.zipWith (fun blk d => blk.set_input (some (s.in_val ++ s.address.take 6 ++ [d])))
        s.ram64blocks (DMux8Way.compute ((s.address.drop 6).take 3 ++ [s.load])),
        s.in_val, s.address, s.load⟩ := by
  simp [RAM512.set_input]

theorem RAM512_on_clock_eq (s : RAM512) (clk : Bool) :
    s.on_clock clk =
      ⟨(List.zipWith (fun blk d => blk.set_input (some (s.in_val ++ s.address.take 6 ++ [d])))
        s.ram64blocks (DMux8Way.compute ((s.address.drop 6).take 3 ++ [s.load]))).map
          (fun blk => blk.on_clock clk),
        s.in_val, s.address, s.load⟩ := by
  simp [RAM512.on_clock, RAM512_set_none_eq]

theorem RAM512_absorb_some (s : RAM512) (w x : List Bool) (l : Bool)
    (hw : w.length = 16) (hx : x.length = 9) :
    (s.set_input (some (w ++ x ++ [l]))).set_input (some (w ++ x ++ [l])) =
      s.set_input (some (w ++ x ++ [l])) := by
  rw [RAM512_set_some s w x l hw hx, RAM512_set_some _ w x l hw hx]
  rw [zipWith_self_absorb _
    (fun blk d => RAM64_absorb_some blk w (x.take 6) d hw (by simp [hx])) s.ram64blocks _]

theorem RAM512_on_absorb_some (s : RAM512) (w x : List Bool) (l c : Bool)
    (hw : w.length = 16) (hx : x.length = 9) :
    ((s.set_input (some (w ++ x ++ [l]))).on_clock c).set_input (some (w ++ x ++ [l])) =
      (s.set_input (some (w ++ x ++ [l]))).on_clock c := by
  rw [RAM512_set_some s w x l hw hx, RAM512_on_clock_eq]
  simp only
  rw [zipWith_self_absorb _
    (fun blk d => RAM64_absorb_some blk w (x.take 6) d hw (by simp [hx])) s.ram64blocks _]
  rw [RAM512_set_some _ w x l hw hx]
  simp only
  rw [zipWith_map_absorb _ _
    (fun blk d => RAM64_on_absorb_some blk w (x.take 6) d c hw (by simp [hx])) s.ram64blocks _]

theorem RAM512_tick_struct (s : RAM512) (hWf : s.Wf) :
    s.tick =
      ⟨List.zipWith
        (fun blk d => ((blk.set_input (some (s.in_val ++ s.address.take 6 ++ [d]))).on_clock
          true).on_clock false)
        s.ram64blocks (DMux8Way.compute ((s.address.drop 6).take 3 ++ [s.load])),
        s.in_val, s.address, s.load⟩ := by
  obtain ⟨h8, h16, hA, hblocks⟩ := hWf
  show (s.on_clock true).on_clock false = _
  rw [RAM512_on_clock_eq s true, RAM512_on_clock_eq]
  simp only
  rw [zipWith_map_absorb _ _
    (fun blk d => RAM64_on_absorb_some blk s.in_val (s.address.take 6) d true h16
      (by simp [hA])) s.ram64blocks _, List.map_map, map_zipWith_fuse]
  simp [Function.comp]

theorem RAM512_tick_fields (s : RAM512) (hWf : s.Wf) :
    s.tick.in_val = s.in_val ∧ s.tick.address = s.address ∧ s.tick.load = s.load := by
  rw [RAM512_tick_struct s hWf]
  exact ⟨rfl, rfl, rfl⟩

theorem RAM512_tick_Wf (s : RAM512) (hWf : s.Wf) : s.tick.Wf := by
  have hstruct := RAM512_tick_struct s hWf
  obtain ⟨h8, h16, hA, hblocks⟩ := hWf
  rw [hstruct]
  simp only [RAM512.Wf]
  refine ⟨?_, h16, hA, ?_⟩
  · simp [List.length_zipWith, h8, DMux8Way_length _ s.load (by simp [hA] : ((s.address.drop 6).take 3).length = 3)]
  · exact forall_mem_zipWith _
      (fun blk d hblk => RAM64_write_Wf blk hblk s.in_val (s.address.take 6) d h16 (by simp [hA]))
      s.ram64blocks _ hblocks

theorem RAM512_get_output_eq (s : RAM512) (hWf : s.Wf) (y : List Bool) (hy : y.length = 9) :
    s.get_output y =
      (s.ram64blocks.map (fun blk => blk.get_output (y.take 6))).getD
        (bool_list_to_int ((y.drop 6).take 3)) [] := by
  obtain ⟨h8, h16, hA, hblocks⟩ := hWf
  have hyh : ((y.drop 6).take 3).length = 3 := by simp [hy]
  obtain ⟨b0, b1, b2, hb⟩ := list_len_three _ hyh
  simp only [RAM512.get_output]
  rw [hb]
  refine Mux8Way16_select b0 b1 b2 _ (by simp [h8]) ?_
  intro w hw
  simp only [List.mem_map] at hw
  obtain ⟨blk, _, rfl⟩ := hw
  exact RAM64_get_output_length blk _

theorem RAM512_read_getD (s : RAM512) (hWf : s.Wf) (y : List Bool) (hy : y.length = 9) :
    s.get_output y =
      (s.ram64blocks.getD (bool_list_to_int ((y.drop 6).take 3)) RAM64.init).get_output
        (y.take 6) := by
  rw [RAM512_get_output_eq s hWf y hy]
  have hyh : ((y.drop 6).take 3).length = 3 := by simp [hy]
  have hk : bool_list_to_int ((y.drop 6).take 3) < 8 := by
    have := blti_lt ((y.drop 6).take 3)
    rw [hyh] at this
    simpa using this
  exact getD_map_getElem _ s.ram64blocks _ (by rw [hWf.1]; exact hk) [] RAM64.init

theorem RAM512_tick_read (s : RAM512) (hWf : s.Wf) (y : List Bool) (hy : y.length = 9) :
    s.tick.get_output y =
      if s.load = true ∧ bool_list_to_int y = bool_list_to_int s.address
      then s.in_val else s.get_output y := by
  have hWf' := RAM512_tick_Wf s hWf
  have hstruct := RAM512_tick_struct s hWf
  obtain ⟨h8, h16, hA, hblocks⟩ := hWf
  have hyh : ((y.drop 6).take 3).length = 3 := by simp [hy]
  have hah : ((s.address.drop 6).take 3).length = 3 := by simp [hA]
  have hkyh : bool_list_to_int ((y.drop 6).take 3) < 8 := by
    have := blti_lt ((y.drop 6).take 3)
    rw [hyh] at this
    simpa using this
  have hdm : (DMux8Way.compute ((s.address.drop 6).take 3 ++ [s.load])).length = 8 :=
    DMux8Way_length _ _ hah
  rw [RAM512_read_getD s.tick hWf' y hy, RAM512_read_getD s ⟨h8, h16, hA, hblocks⟩ y hy]
  have hblk : s.tick.ram64blocks.getD (bool_list_to_int ((y.drop 6).take 3)) RAM64.init =
      (((s.ram64blocks.getD (bool_list_to_int ((y.drop 6).take 3)) RAM64.init).set_input
        (some (s.in_val ++ s.address.take 6 ++
          [(DMux8Way.compute ((s.address.drop 6).take 3 ++ [s.load])).getD
            (bool_list_to_int ((y.drop 6).take 3)) false]))).on_clock true).on_clock false := by
    rw [hstruct]
    exact getD_zipWith _ _ _ _ (by omega) (by omega) _ _ _
  rw [hblk, DMux8Way_getD _ s.load _ hah hkyh]
  have hmem : s.ram64blocks.getD (bool_list_to_int ((y.drop 6).take 3)) RAM64.init ∈
      s.ram64blocks := by
    rw [List.getD_eq_getElem _ _ (by omega)]
    exact List.getElem_mem _
  rw [RAM64_write_read _ (hblocks _ hmem) s.in_val (s.address.take 6) _ h16 (by simp [hA])
    (y.take 6) (by simp [hy])]
  have hysp : bool_list_to_int y =
      bool_list_to_int (y.take 6) + 64 * bool_list_to_int ((y.drop 6).take 3) := by
    conv_lhs => rw [← List.take_append_drop 6 y]
    rw [blti_append]
    have h1 : (y.drop 6).take 3 = y.drop 6 :=
      List.take_of_length_le (by simp [hy])
    rw [h1]
    simp [hy]
  have hasp : bool_list_to_int s.address =
      bool_list_to_int (s.address.take 6) +
        64 * bool_list_to_int ((s.address.drop 6).take 3) := by
    conv_lhs => rw [← List.take_append_drop 6 s.address]
    rw [blti_append]
    have h1 : (s.address.drop 6).take 3 = s.address.drop 6 :=
      List.take_of_length_le (by simp [hA])
    rw [h1]
    simp [hA]
  have hbyl : bool_list_to_int (y.take 6) < 64 := by
    have := blti_lt (y.take 6)
    simp only [List.length_take, hy] at this
    simpa using this
  have hbal : bool_list_to_int (s.address.take 6) < 64 := by
    have := blti_lt (s.address.take 6)
    simp only [List.length_take, hA] at this
    simpa using this
  have hiff : ((decide (bool_list_to_int ((y.drop 6).take 3) =
        bool_list_to_int ((s.address.drop 6).take 3)) && s.load) = true ∧
        bool_list_to_int (y.take 6) = bool_list_to_int (s.address.take 6)) ↔
      (s.load = true ∧ bool_list_to_int y = bool_list_to_int s.address) := by
    simp only [Bool.and_eq_true, decide_eq_true_eq]
    constructor
    · rintro ⟨⟨hh, hl⟩, hlo⟩
      exact ⟨hl, by rw [hysp, hasp, hh, hlo]⟩
    · rintro ⟨hl, he⟩
      rw [hysp, hasp] at he
      exact ⟨⟨by omega, hl⟩, by omega⟩
  rw [if_congr hiff rfl rfl]

theorem blkouts_zip_64 (blocks : List RAM64) (dm : List Bool) (w lo : List Bool)
    (hw : w.length = 16) (hlo : lo.length = 6)
    (hblocks : ∀ blk ∈ blocks, blk.Wf) (hlen : blocks.length = dm.length)
    (u : List Bool) :
    (List.zipWith (fun blk d => blk.set_input (some (w ++ lo ++ [d]))) blocks dm).map
        (fun blk => blk.get_output u) = blocks.map (fun blk => blk.get_output u) := by
  rw [map_zipWith_fuse]
  have hzip : List.zipWith
      (fun blk d => (blk.set_input (some (w ++ lo ++ [d]))).get_output u) blocks dm =
      List.zipWith (fun blk _ => blk.get_output u) blocks dm :=
    zipWith_congr_left
      (fun blk d hblk => RAM64_set_out blk _ u hblk (by simp [RAM64.WfInput, hw, hlo]))
      blocks dm hblocks
  rw [hzip, zipWith_left_proj (fun blk => blk.get_output u) blocks dm hlen]

theorem RAM512_set_blkouts (s : RAM512) (i : Option (List Bool)) (hWf : s.Wf)
    (hi : RAM512.WfInput i) (u : List Bool) :
    (s.set_input i).ram64blocks.map (fun blk => blk.get_output u) =
      s.ram64blocks.map (fun blk => blk.get_output u) := by
  obtain ⟨h8, h16, hA, hblocks⟩ := hWf
  cases i with
  | none =>
    rw [RAM512_set_none_eq]
    exact blkouts_zip_64 s.ram64blocks _ s.in_val (s.address.take 6) h16 (by simp [hA])
      hblocks (by rw [h8, DMux8Way_length _ _ (by simp [hA] : ((s.address.drop 6).take 3).length = 3)]) u
  | some ins =>
    have hlen : ins.length = 26 := hi
    have hdec := concat3_decomp ins 9 (by omega)
    have hw : (ins.take 16).length = 16 := by simp [hlen]
    have hx : ((ins.drop 16).take 9).length = 9 := by simp [hlen]
    rw [show ins.take 16 ++ ((ins.drop 16).take 9 ++ [ins.getD (16 + 9) false]) =
        ins.take 16 ++ (ins.drop 16).take 9 ++ [ins.getD (16 + 9) false] by simp] at hdec
    rw [show s.set_input (some ins) =
        s.set_input (some (ins.take 16 ++ (ins.drop 16).take 9 ++ [ins.getD (16 + 9) false]))
      from by rw [← hdec]]
    rw [RAM512_set_some s _ _ _ hw hx]
    exact blkouts_zip_64 s.ram64blocks _ (ins.take 16) (((ins.drop 16).take 9).take 6) hw
      (by simp [hx]) hblocks
      (by rw [h8, DMux8Way_length _ _
        (by simp [hx] : ((((ins.drop 16).take 9).drop 6).take 3).length = 3)]) u

theorem RAM512_set_out (s : RAM512) (i : Option (List Bool)) (y : List Bool)
    (hWf : s.Wf) (hi : RAM512.WfInput i) :
    (s.set_input i).get_output y = s.get_output y := by
  simp only [RAM512.get_output]
  rw [RAM512_set_blkouts s i hWf hi]

theorem RAM512_set_Wf (s : RAM512) (i : Option (List Bool)) (hWf : s.Wf)
    (hi : RAM512.WfInput i) : (s.set_input i).Wf := by
  obtain ⟨h8, h16, hA, hblocks⟩ := hWf
  cases i with
  | none =>
    rw [RAM512_set_none_eq]
    simp only [RAM512.Wf]
    refine ⟨?_, h16, hA, ?_⟩
    · simp [List.length_zipWith, h8, DMux8Way_length _ s.load
        (by simp [hA] : ((s.address.drop 6).take 3).length = 3)]
    · exact forall_mem_zipWith _
        (fun blk d hblk => RAM64_set_Wf blk _ hblk
          (by simp [RAM64.WfInput, h16, hA]))
        s.ram64blocks _ hblocks
  | some ins =>
    have hlen : ins.length = 26 := hi
    have hdec := concat3_decomp ins 9 (by omega)
    have hw : (ins.take 16).length = 16 := by simp [hlen]
    have hx : ((ins.drop 16).take 9).length = 9 := by simp [hlen]
    rw [show ins.take 16 ++ ((ins.drop 16).take 9 ++ [ins.getD (16 + 9) false]) =
        ins.take 16 ++ (ins.drop 16).take 9 ++ [ins.getD (16 + 9) false] by simp] at hdec
    rw [show s.set_input (some ins) =
        s.set_input (some (ins.take 16 ++ (ins.drop 16).take 9 ++ [ins.getD (16 + 9) false]))
      from by rw [← hdec]]
    rw [RAM512_set_some s _ _ _ hw hx]
    simp only [RAM512.Wf]
    refine ⟨?_, hw, hx, ?_⟩
    · simp [List.length_zipWith, h8, DMux8Way_length _ _
        (by simp [hx] : ((((ins.drop 16).take 9).drop 6).take 3).length = 3)]
    · exact forall_mem_zipWith _
        (fun blk d hblk => RAM64_set_Wf blk _ hblk
          (by simp [RAM64.WfInput, hw, hx]))
        s.ram64blocks _ hblocks

theorem RAM512_set_fields (s : RAM512) (w x : List Bool) (l : Bool)
    (hw : w.length = 16) (hx : x.length = 9) :
    (s.set_input (some (w ++ x ++ [l]))).in_val = w ∧
    (s.set_input (some (w ++ x ++ [l]))).address = x ∧
    (s.set_input (some (w ++ x ++ [l]))).load = l := by
  rw [RAM512_set_some s w x l hw hx]
  exact ⟨rfl, rfl, rfl⟩

theorem RAM512_write_read (blk : RAM512) (hWf : blk.Wf) (w lo : List Bool) (d : Bool)
    (hw : w.length = 16) (hlo : lo.length = 9) (y : List Bool) (hy : y.length = 9) :
    (((blk.set_input (some (w ++ lo ++ [d]))).on_clock true).on_clock false).get_output y =
      if d = true ∧ bool_list_to_int y = bool_list_to_int lo
      then w else blk.get_output y := by
  have h1 : (blk.set_input (some (w ++ lo ++ [d]))).Wf :=
    RAM512_set_Wf blk _ hWf (by simp [RAM512.WfInput, hw, hlo])
  have h2 := RAM512_tick_read (blk.set_input (some (w ++ lo ++ [d]))) h1 y hy
  have h3 : (blk.set_input (some (w ++ lo ++ [d]))).tick =
      ((blk.set_input (some (w ++ lo ++ [d]))).on_clock true).on_clock false := rfl
  rw [h3] at h2
  obtain ⟨f1, f2, f3⟩ := RAM512_set_fields blk w lo d hw hlo
  rw [f1, f2, f3, RAM512_set_out blk _ y hWf (by simp [RAM512.WfInput, hw, hlo])] at h2
  exact h2

theorem RAM512_write_Wf (blk : RAM512) (hWf : blk.Wf) (w lo : List Bool) (d : Bool)
    (hw : w.length = 16) (hlo : lo.length = 9) :
    (((blk.set_input (some (w ++ lo ++ [d]))).on_clock true).on_clock false).Wf := by
  have h1 : (blk.set_input (some (w ++ lo ++ [d]))).Wf :=
    RAM512_set_Wf blk _ hWf (by simp [RAM512.WfInput, hw, hlo])
  exact RAM512_tick_Wf _ h1

/-! RAM4K: the same lemma suite, one more level up. -/

theorem RAM4K_get_output_length (s : RAM4K) (y : List Bool) :
    (s.get_output y).length = 16 := by
  simp [RAM4K.get_output, Mux8Way16_length]

theorem RAM4K_set_some (s : RAM4K) (w x : List Bool) (l : Bool)
    (hw : w.length = 16) (hx : x.length = 12) :
    s.set_input (some (w ++ x ++ [l])) =
      ⟨List.zipWith (fun blk d => blk.set_input (some (w ++ x.take 9 ++ [d])))
        s.ram512blocks (DMux8Way.compute ((x.drop 9).take 3 ++ [l])), w, x, l⟩ := by
  have ha : w ++ x ++ [l] = w ++ (x ++ [l]) := List.append_assoc w x [l]
  have e1 : (w ++ (x ++ [l])).take 16 = w := List.take_left' hw
  have e2 : ((w ++ (x ++ [l])).drop 16).take 12 = x := by
    rw [List.drop_left' hw, List.take_left' hx]
  have e3 : (w ++ (x ++ [l])).getD 28 false = l := by
    rw [show (28 : Nat) = 16 + 12 from rfl, getD_append_add _ _ 16 12 hw,
      getD_append_len _ _ 12 hx]
    rfl
  simp only [RAM4K.set_input, ha, e1, e2, e3]

theorem RAM4K_set_none_eq (s : RAM4K) :
    s.set_input none =
      ⟨List.zipWith (fun blk d => blk.set_input (some (s.in_val ++ s.address.take 9 ++ [d])))
        s.ram512blocks (DMux8Way.compute ((s.address.drop 9).take 3 ++ [s.load])),
        s.in_val, s.address, s.load⟩ := by
  simp [RAM4K.set_input]

theorem RAM4K_on_clock_eq (s : RAM4K) (clk : Bool) :
    s.on_clock clk =
      ⟨(List.zipWith (fun blk d => blk.set_input (some (s.in_val ++ s.address.take 9 ++ [d])))
        s.ram512blocks (DMux8Way.compute ((s.address.drop 9).take 3 ++ [s.load]))).map
          (fun blk => blk.on_clock clk),
        s.in_val, s.address, s.load⟩ := by
  simp [RAM4K.on_clock, RAM4K_set_none_eq]

theorem RAM4K_absorb_some (s : RAM4K) (w x : List Bool) (l : Bool)
    (hw : w.length = 16) (hx : x.length = 12) :
    (s.set_input (some (w ++ x ++ [l]))).set_input (some (w ++ x ++ [l])) =
      s.set_input (some (w ++ x ++ [l])) := by
  rw [RAM4K_set_some s w x l hw hx, RAM4K_set_some _ w x l hw hx]
  rw [zipWith_self_absorb _
    (fun blk d => RAM512_absorb_some blk w (x.take 9) d hw (by simp [hx])) s.ram512blocks _]

theorem RAM4K_on_absorb_some (s : RAM4K) (w x : List Bool) (l c : Bool)
    (hw : w.length = 16) (hx : x.length = 12) :
    ((s.set_input (some (w ++ x ++ [l]))).on_clock c).set_input (some (w ++ x ++ [l])) =
      (s.set_input (some (w ++ x ++ [l]))).on_clock c := by
  rw [RAM4K_set_some s w x l hw hx, RAM4K_on_clock_eq]
  simp only
  rw [zipWith_self_absorb _
    (fun blk d => RAM512_absorb_some blk w (x.take 9) d hw (by simp [hx])) s.ram512blocks _]
  rw [RAM4K_set_some _ w x l hw hx]
  simp only
  rw [zipWith_map_absorb _ _
    (fun blk d => RAM512_on_absorb_some blk w (x.take 9) d c hw (by simp [hx])) s.ram512blocks _]

theorem RAM4K_tick_struct (s : RAM4K) (hWf : s.Wf) :
    s.tick =
      ⟨List.zipWith
        (fun blk d => ((blk.set_input (some (s.in_val ++ s.address.take 9 ++ [d]))).on_clock
          true).on_clock false)
        s.ram512blocks (DMux8Way.compute ((s.address.drop 9).take 3 ++ [s.load])),
        s.in_val, s.address, s.load⟩ := by
  obtain ⟨h8, h16, hA, hblocks⟩ := hWf
  show (s.on_clock true).on_clock false = _
  rw [RAM4K_on_clock_eq s true, RAM4K_on_clock_eq]
  simp only
  rw [zipWith_map_absorb _ _
    (fun blk d => RAM512_on_absorb_some blk s.in_val (s.address.take 9) d true h16
      (by simp [hA])) s.ram512blocks _, List.map_map, map_zipWith_fuse]
  simp [Function.comp]

theorem RAM4K_tick_fields (s : RAM4K) (hWf : s.Wf) :
    s.tick.in_val = s.in_val ∧ s.tick.address = s.address ∧ s.tick.load = s.load := by
  rw [RAM4K_tick_struct s hWf]
  exact ⟨rfl, rfl, rfl⟩

theorem RAM4K_tick_Wf (s : RAM4K) (hWf : s.Wf) : s.tick.Wf := by
  have hstruct := RAM4K_tick_struct s hWf
  obtain ⟨h8, h16, hA, hblocks⟩ := hWf
  rw [hstruct]
  simp only [RAM4K.Wf]
  refine ⟨?_, h16, hA, ?_⟩
  · simp [List.length_zipWith, h8, DMux8Way_length _ s.load (by simp [hA] : ((s.address.drop 9).take 3).length = 3)]
  · exact forall_mem_zipWith _
      (fun blk d hblk => RAM512_write_Wf blk hblk s.in_val (s.address.take 9) d h16 (by simp [hA]))
      s.ram512blocks _ hblocks

theorem RAM4K_get_output_eq (s : RAM4K) (hWf : s.Wf) (y : List Bool) (hy : y.length = 12) :
    s.get_output y =
      (s.ram512blocks.map (fun blk => blk.get_output (y.take 9))).getD
        (bool_list_to_int ((y.drop 9).take 3)) [] := by
  obtain ⟨h8, h16, hA, hblocks⟩ := hWf
  have hyh : ((y.drop 9).take 3).length = 3 := by simp [hy]
  obtain ⟨b0, b1, b2, hb⟩ := list_len_three _ hyh
  simp only [RAM4K.get_output]
  rw [hb]
  refine Mux8Way16_select b0 b1 b2 _ (by simp [h8]) ?_
  intro w hw
  simp only [List.mem_map] at hw
  obtain ⟨blk, _, rfl⟩ := hw
  exact RAM512_get_output_length blk _

theorem RAM4K_read_getD (s : RAM4K) (hWf : s.Wf) (y : List Bool) (hy : y.length = 12) :
    s.get_output y =
      (s.ram512blocks.getD (bool_list_to_int ((y.drop 9).take 3)) RAM512.init).get_output
        (y.take 9) := by
  rw [RAM4K_get_output_eq s hWf y hy]
  have hyh : ((y.drop 9).take 3).length = 3 := by simp [hy]
  have hk : bool_list_to_int ((y.drop 9).take 3) < 8 := by
    have := blti_lt ((y.drop 9).take 3)
    rw [hyh] at this
    simpa using this
  exact getD_map_getElem _ s.ram512blocks _ (by rw [hWf.1]; exact hk) [] RAM512.init

theorem RAM4K_tick_read (s : RAM4K) (hWf : s.Wf) (y : List Bool) (hy : y.length = 12) :
    s.tick.get_output y =
      if s.load = true ∧ bool_list_to_int y = bool_list_to_int s.address
      then s.in_val else s.get_output y := by
  have hWf' := RAM4K_tick_Wf s hWf
  have hstruct := RAM4K_tick_struct s hWf
  obtain ⟨h8, h16, hA, hblocks⟩ := hWf
  have hyh : ((y.drop 9).take 3).length = 3 := by simp [hy]
  have hah : ((s.address.drop 9).take 3).length = 3 := by simp [hA]
  have hkyh : bool_list_to_int ((y.drop 9).take 3) < 8 := by
    have := blti_lt ((y.drop 9).take 3)
    rw [hyh] at this
    simpa using this
  have hdm : (DMux8Way.compute ((s.address.drop 9).take 3 ++ [s.load])).length = 8 :=
    DMux8Way_length _ _ hah
  rw [RAM4K_read_getD s.tick hWf' y hy, RAM4K_read_getD s ⟨h8, h16, hA, hblocks⟩ y hy]
  have hblk : s.tick.ram512blocks.getD (bool_list_to_int ((y.drop 9).take 3)) RAM512.init =
      (((s.ram512blocks.getD (bool_list_to_int ((y.drop 9).take 3)) RAM512.init).set_input
        (some (s.in_val ++ s.address.take 9 ++
          [(DMux8Way.compute ((s.address.drop 9).take 3 ++ [s.load])).getD
            (bool_list_to_int ((y.drop 9).take 3)) false]))).on_clock true).on_clock false := by
    rw [hstruct]
    exact getD_zipWith _ _ _ _ (by omega) (by omega) _ _ _
  rw [hblk, DMux8Way_getD _ s.load _ hah hkyh]
  have hmem : s.ram512blocks.getD (bool_list_to_int ((y.drop 9).take 3)) RAM512.init ∈
      s.ram512blocks := by
    rw [List.getD_eq_getElem _ _ (by omega)]
    exact List.getElem_mem _
  rw [RAM512_write_read _ (hblocks _ hmem) s.in_val (s.address.take 9) _ h16 (by simp [hA])
    (y.take 9) (by simp [hy])]
  have hysp : bool_list_to_int y =
      bool_list_to_int (y.take 9) + 512 * bool_list_to_int ((y.drop 9).take 3) := by
    conv_lhs => rw [← List.take_append_drop 9 y]
    rw [blti_append]
    have h1 : (y.drop 9).take 3 = y.drop 9 :=
      List.take_of_length_le (by simp [hy])
    rw [h1]
    simp [hy]
  have hasp : bool_list_to_int s.address =
      bool_list_to_int (s.address.take 9) +
        512 * bool_list_to_int ((s.address.drop 9).take 3) := by
    conv_lhs => rw [← List.take_append_drop 9 s.address]
    rw [blti_append]
    have h1 : (s.address.drop 9).take 3 = s.address.drop 9 :=
      List.take_of_length_le (by simp [hA])
    rw [h1]
    simp [hA]
  have hbyl : bool_list_to_int (y.take 9) < 512 := by
    have := blti_lt (y.take 9)
    simp only [List.length_take, hy] at this
    simpa using this
  have hbal : bool_list_to_int (s.address.take 9) < 512 := by
    have := blti_lt (s.address.take 9)
    simp only [List.length_take, hA] at this
    simpa using this
  have hiff : ((decide (bool_list_to_int ((y.drop 9).take 3) =
        bool_list_to_int ((s.address.drop 9).take 3)) && s.load) = true ∧
        bool_list_to_int (y.take 9) = bool_list_to_int (s.address.take 9)) ↔
      (s.load = true ∧ bool_list_to_int y = bool_list_to_int s.address) := by
    simp only [Bool.and_eq_true, decide_eq_true_eq]
    constructor
    · rintro ⟨⟨hh, hl⟩, hlo⟩
      exact ⟨hl, by rw [hysp, hasp, hh, hlo]⟩
    · rintro ⟨hl, he⟩
      rw [hysp, hasp] at he
      exact ⟨⟨by omega, hl⟩, by omega⟩
  rw [if_congr hiff rfl rfl]

theorem blkouts_zip_512 (blocks : List RAM512) (dm : List Bool) (w lo : List Bool)
    (hw : w.length = 16) (hlo : lo.length = 9)
    (hblocks : ∀ blk ∈ blocks, blk.Wf) (hlen : blocks.length = dm.length)
    (u : List Bool) :
    (List.zipWith (fun blk d => blk.set_input (some (w ++ lo ++ [d]))) blocks dm).map
        (fun blk => blk.get_output u) = blocks.map (fun blk => blk.get_output u) := by
  rw [map_zipWith_fuse]
  have hzip : List.zipWith
      (fun blk d => (blk.set_input (some (w ++ lo ++ [d]))).get_output u) blocks dm =
      List.zipWith (fun blk _ => blk.get_output u) blocks dm :=
    zipWith_congr_left
      (fun blk d hblk => RAM512_set_out blk _ u hblk (by simp [RAM512.WfInput, hw, hlo]))
      blocks dm hblocks
  rw [hzip, zipWith_left_proj (fun blk => blk.get_output u) blocks dm hlen]

theorem RAM4K_set_blkouts (s : RAM4K) (i : Option (List Bool)) (hWf : s.Wf)
    (hi : RAM4K.WfInput i) (u : List Bool) :
    (s.set_input i).ram512blocks.map (fun blk => blk.get_output u) =
      s.ram512blocks.map (fun blk => blk.get_output u) := by
  obtain ⟨h8, h16, hA, hblocks⟩ := hWf
  cases i with
  | none =>
    rw [RAM4K_set_none_eq]
    exact blkouts_zip_512 s.ram512blocks _ s.in_val (s.address.take 9) h16 (by simp [hA])
      hblocks (by rw [h8, DMux8Way_length _ _ (by simp [hA] : ((s.address.drop 9).take 3).length = 3)]) u
  | some ins =>
    have hlen : ins.length = 29 := hi
    have hdec := concat3_decomp ins 12 (by omega)
    have hw : (ins.take 16).length = 16 := by simp [hlen]
    have hx : ((ins.drop 16).take 12).length = 12 := by simp [hlen]
    rw [show ins.take 16 ++ ((ins.drop 16).take 12 ++ [ins.getD (16 + 12) false]) =
        ins.take 16 ++ (ins.drop 16).take 12 ++ [ins.getD (16 + 12) false] by simp] at hdec
    rw [show s.set_input (some ins) =
        s.set_input (some (ins.take 16 ++ (ins.drop 16).take 12 ++ [ins.getD (16 + 12) false]))
      from by rw [← hdec]]
    rw [RAM4K_set_some s _ _ _ hw hx]
    exact blkouts_zip_512 s.ram512blocks _ (ins.take 16) (((ins.drop 16).take 12).take 9) hw
      (by simp [hx]) hblocks
      (by rw [h8, DMux8Way_length _ _
        (by simp [hx] : ((((ins.drop 16).take 12).drop 9).take 3).length = 3)]) u

theorem RAM4K_set_out (s : RAM4K) (i : Option (List Bool)) (y : List Bool)
    (hWf : s.Wf) (hi : RAM4K.WfInput i) :
    (s.set_input i).get_output y = s.get_output y := by
  simp only [RAM4K.get_output]
  rw [RAM4K_set_blkouts s i hWf hi]

theorem RAM4K_set_Wf (s : RAM4K) (i : Option (List Bool)) (hWf : s.Wf)
    (hi : RAM4K.WfInput i) : (s.set_input i).Wf := by
  obtain ⟨h8, h16, hA, hblocks⟩ := hWf
  cases i with
  | none =>
    rw [RAM4K_set_none_eq]
    simp only [RAM4K.Wf]
    refine ⟨?_, h16, hA, ?_⟩
    · simp [List.length_zipWith, h8, DMux8Way_length _ s.load
        (by simp [hA] : ((s.address.drop 9).take 3).length = 3)]
    · exact forall_mem_zipWith _
        (fun blk d hblk => RAM512_set_Wf blk _ hblk
          (by simp [RAM512.WfInput, h16, hA]))
        s.ram512blocks _ hblocks
  | some ins =>
    have hlen : ins.length = 29 := hi
    have hdec := concat3_decomp ins 12 (by omega)
    have hw : (ins.take 16).length = 16 := by simp [hlen]
    have hx : ((ins.drop 16).take 12).length = 12 := by simp [hlen]
    rw [show ins.take 16 ++ ((ins.drop 16).take 12 ++ [ins.getD (16 + 12) false]) =
        ins.take 16 ++ (ins.drop 16).take 12 ++ [ins.getD (16 + 12) false] by simp] at hdec
    rw [show s.set_input (some ins) =
        s.set_input (some (ins.take 16 ++ (ins.drop 16).take 12 ++ [ins.getD (16 + 12) false]))
      from by rw [← hdec]]
    rw [RAM4K_set_some s _ _ _ hw hx]
    simp only [RAM4K.Wf]
    refine ⟨?_, hw, hx, ?_⟩
    · simp [List.length_zipWith, h8, DMux8Way_length _ _
        (by simp [hx] : ((((ins.drop 16).take 12).drop 9).take 3).length = 3)]
    · exact forall_mem_zipWith _
        (fun blk d hblk => RAM512_set_Wf blk _ hblk
          (by simp [RAM512.WfInput, hw, hx]))
        s.ram512blocks _ hblocks

theorem RAM4K_set_fields (s : RAM4K) (w x : List Bool) (l : Bool)
    (hw : w.length = 16) (hx : x.length = 12) :
    (s.set_input (some (w ++ x ++ [l]))).in_val = w ∧
    (s.set_input (some (w ++ x ++ [l]))).address = x ∧
    (s.set_input (some (w ++ x ++ [l]))).load = l := by
  rw [RAM4K_set_some s w x l hw hx]
  exact ⟨rfl, rfl, rfl⟩

theorem RAM4K_write_read (blk : RAM4K) (hWf : blk.Wf) (w lo : List Bool) (d : Bool)
    (hw : w.length = 16) (hlo : lo.length = 12) (y : List Bool) (hy : y.length = 12) :
    (((blk.set_input (some (w ++ lo ++ [d]))).on_clock true).on_clock false).get_output y =
      if d = true ∧ bool_list_to_int y = bool_list_to_int lo
      then w else blk.get_output y := by
  have h1 : (blk.set_input (some (w ++ lo ++ [d]))).Wf :=
    RAM4K_set_Wf blk _ hWf (by simp [RAM4K.WfInput, hw, hlo])
  have h2 := RAM4K_tick_read (blk.set_input (some (w ++ lo ++ [d]))) h1 y hy
  have h3 : (blk.set_input (some (w ++ lo ++ [d]))).tick =
      ((blk.set_input (some (w ++ lo ++ [d]))).on_clock true).on_clock false := rfl
  rw [h3] at h2
  obtain ⟨f1, f2, f3⟩ := RAM4K_set_fields blk w lo d hw hlo
  rw [f1, f2, f3, RAM4K_set_out blk _ y hWf (by simp [RAM4K.WfInput, hw, hlo])] at h2
  exact h2

theorem RAM4K_write_Wf (blk : RAM4K) (hWf : blk.Wf) (w lo : List Bool) (d : Bool)
    (hw : w.length = 16) (hlo : lo.length = 12) :
    (((blk.set_input (some (w ++ lo ++ [d]))).on_clock true).on_clock false).Wf := by
  have h1 : (blk.set_input (some (w ++ lo ++ [d]))).Wf :=
    RAM4K_set_Wf blk _ hWf (by simp [RAM4K.WfInput, hw, hlo])
  exact RAM4K_tick_Wf _ h1

theorem DMux4Way_length (x : List Bool) (l : Bool) (hx : x.length = 2) :
    (DMux4Way.compute (x ++ [l])).length = 4 := by
  obtain ⟨a0, a1, rfl⟩ := list_len_two x hx
  rw [show [a0, a1] ++ [l] = [a0, a1, l] from rfl, DMux4Way_oneHot]
  simp

theorem DMux4Way_getD (x : List Bool) (l : Bool) (k : Nat) (hx : x.length = 2)
    (hk : k < 4) :
    (DMux4Way.compute (x ++ [l])).getD k false =
      (decide (k = bool_list_to_int x) && l) := by
  obtain ⟨a0, a1, rfl⟩ := list_len_two x hx
  rw [show [a0, a1] ++ [l] = [a0, a1, l] from rfl, DMux4Way_oneHot]
  exact getD_range_map _ 4 k hk false

/-! RAM16K: the top level, four RAM4K blocks selected by two high bits. -/

theorem RAM16K_get_output_length (s : RAM16K) (y : List Bool) :
    (s.get_output y).length = 16 := by
  simp [RAM16K.get_output, Mux4Way16_length]

theorem RAM16K_set_some (s : RAM16K) (w x : List Bool) (l : Bool)
    (hw : w.length = 16) (hx : x.length = 14) :
    s.set_input (some (w ++ x ++ [l])) =
      ⟨List.zipWith (fun blk d => blk.set_input (some (w ++ x.take 12 ++ [d])))
        s.ram4kblocks (DMux4Way.compute ((x.drop 12).take 2 ++ [l])), w, x, l⟩ := by
  have ha : w ++ x ++ [l] = w ++ (x ++ [l]) := List.append_assoc w x [l]
  have e1 : (w ++ (x ++ [l])).take 16 = w := List.take_left' hw
  have e2 : ((w ++ (x ++ [l])).drop 16).take 14 = x := by
    rw [List.drop_left' hw, List.take_left' hx]
  have e3 : (w ++ (x ++ [l])).getD 30 false = l := by
    rw [show (30 : Nat) = 16 + 14 from rfl, getD_append_add _ _ 16 14 hw,
      getD_append_len _ _ 14 hx]
    rfl
  simp only [RAM16K.set_input, ha, e1, e2, e3]

theorem RAM16K_set_none_eq (s : RAM16K) :
    s.set_input none =
      ⟨List.zipWith (fun blk d => blk.set_input (some (s.in_val ++ s.address.take 12 ++ [d])))
        s.ram4kblocks (DMux4Way.compute ((s.address.drop 12).take 2 ++ [s.load])),
        s.in_val, s.address, s.load⟩ := by
  simp [RAM16K.set_input]

theorem RAM16K_on_clock_eq (s : RAM16K) (clk : Bool) :
    s.on_clock clk =
      ⟨(List.zipWith (fun blk d => blk.set_input (some (s.in_val ++ s.address.take 12 ++ [d])))
        s.ram4kblocks (DMux4Way.compute ((s.address.drop 12).take 2 ++ [s.load]))).map
          (fun blk => blk.on_clock clk),
        s.in_val, s.address, s.load⟩ := by
  simp [RAM16K.on_clock, RAM16K_set_none_eq]

theorem RAM16K_absorb_some (s : RAM16K) (w x : List Bool) (l : Bool)
    (hw : w.length = 16) (hx : x.length = 14) :
    (s.set_input (some (w ++ x ++ [l]))).set_input (some (w ++ x ++ [l])) =
      s.set_input (some (w ++ x ++ [l])) := by
  rw [RAM16K_set_some s w x l hw hx, RAM16K_set_some _ w x l hw hx]
  rw [zipWith_self_absorb _
    (fun blk d => RAM4K_absorb_some blk w (x.take 12) d hw (by simp [hx])) s.ram4kblocks _]

theorem RAM16K_on_absorb_some (s : RAM16K) (w x : List Bool) (l c : Bool)
    (hw : w.length = 16) (hx : x.length = 14) :
    ((s.set_input (some (w ++ x ++ [l]))).on_clock c).set_input (some (w ++ x ++ [l])) =
      (s.set_input (some (w ++ x ++ [l]))).on_clock c := by
  rw [RAM16K_set_some s w x l hw hx, RAM16K_on_clock_eq]
  simp only
  rw [zipWith_self_absorb _
    (fun blk d => RAM4K_absorb_some blk w (x.take 12) d hw (by simp [hx])) s.ram4kblocks _]
  rw [RAM16K_set_some _ w x l hw hx]
  simp only
  rw [zipWith_map_absorb _ _
    (fun blk d => RAM4K_on_absorb_some blk w (x.take 12) d c hw (by simp [hx])) s.ram4kblocks _]

theorem RAM16K_tick_struct (s : RAM16K) (hWf : s.Wf) :
    s.tick =
      ⟨List.zipWith
        (fun blk d => ((blk.set_input (some (s.in_val ++ s.address.take 12 ++ [d]))).on_clock
          true).on_clock false)
        s.ram4kblocks (DMux4Way.compute ((s.address.drop 12).take 2 ++ [s.load])),
        s.in_val, s.address, s.load⟩ := by
  obtain ⟨h8, h16, hA, hblocks⟩ := hWf
  show (s.on_clock true).on_clock false = _
  rw [RAM16K_on_clock_eq s true, RAM16K_on_clock_eq]
  simp only
  rw [zipWith_map_absorb _ _
    (fun blk d => RAM4K_on_absorb_some blk s.in_val (s.address.take 12) d true h16
      (by simp [hA])) s.ram4kblocks _, List.map_map, map_zipWith_fuse]
  simp [Function.comp]

theorem RAM16K_tick_fields (s : RAM16K) (hWf : s.Wf) :
    s.tick.in_val = s.in_val ∧ s.tick.address = s.address ∧ s.tick.load = s.load := by
  rw [RAM16K_tick_struct s hWf]
  exact ⟨rfl, rfl, rfl⟩

theorem RAM16K_tick_Wf (s : RAM16K) (hWf : s.Wf) : s.tick.Wf := by
  have hstruct := RAM16K_tick_struct s hWf
  obtain ⟨h8, h16, hA, hblocks⟩ := hWf
  rw [hstruct]
  simp only [RAM16K.Wf]
  refine ⟨?_, h16, hA, ?_⟩
  · simp [List.length_zipWith, h8, DMux4Way_length _ s.load (by simp [hA] : ((s.address.drop 12).take 2).length = 2)]
  · exact forall_mem_zipWith _
      (fun blk d hblk => RAM4K_write_Wf blk hblk s.in_val (s.address.take 12) d h16 (by simp [hA]))
      s.ram4kblocks _ hblocks

theorem RAM16K_get_output_eq (s : RAM16K) (hWf : s.Wf) (y : List Bool) (hy : y.length = 14) :
    s.get_output y =
      (s.ram4kblocks.map (fun blk => blk.get_output (y.take 12))).getD
        (bool_list_to_int ((y.drop 12).take 2)) [] := by
  obtain ⟨h8, h16, hA, hblocks⟩ := hWf
  have hyh : ((y.drop 12).take 2).length = 2 := by simp [hy]
  obtain ⟨b0, b1, hb⟩ := list_len_two _ hyh
  simp only [RAM16K.get_output]
  rw [hb]
  refine Mux4Way16_select b0 b1 _ (by simp [h8]) ?_
  intro w hw
  simp only [List.mem_map] at hw
  obtain ⟨blk, _, rfl⟩ := hw
  exact RAM4K_get_output_length blk _

theorem RAM16K_read_getD (s : RAM16K) (hWf : s.Wf) (y : List Bool) (hy : y.length = 14) :
    s.get_output y =
      (s.ram4kblocks.getD (bool_list_to_int ((y.drop 12).take 2)) RAM4K.init).get_output
        (y.take 12) := by
  rw [RAM16K_get_output_eq s hWf y hy]
  have hyh : ((y.drop 12).take 2).length = 2 := by simp [hy]
  have hk : bool_list_to_int ((y.drop 12).take 2) < 4 := by
    have := blti_lt ((y.drop 12).take 2)
    rw [hyh] at this
    simpa using this
  exact getD_map_getElem _ s.ram4kblocks _ (by rw [hWf.1]; exact hk) [] RAM4K.init

theorem RAM16K_tick_read (s : RAM16K) (hWf : s.Wf) (y : List Bool) (hy : y.length = 14) :
    s.tick.get_output y =
      if s.load = true ∧ bool_list_to_int y = bool_list_to_int s.address
      then s.in_val else s.get_output y := by
  have hWf' := RAM16K_tick_Wf s hWf
  have hstruct := RAM16K_tick_struct s hWf
  obtain ⟨h8, h16, hA, hblocks⟩ := hWf
  have hyh : ((y.drop 12).take 2).length = 2 := by simp [hy]
  have hah : ((s.address.drop 12).take 2).length = 2 := by simp [hA]
  have hkyh : bool_list_to_int ((y.drop 12).take 2) < 4 := by
    have := blti_lt ((y.drop 12).take 2)
    rw [hyh] at this
    simpa using this
  have hdm : (DMux4Way.compute ((s.address.drop 12).take 2 ++ [s.load])).length = 4 :=
    DMux4Way_length _ _ hah
  rw [RAM16K_read_getD s.tick hWf' y hy, RAM16K_read_getD s ⟨h8, h16, hA, hblocks⟩ y hy]
  have hblk : s.tick.ram4kblocks.getD (bool_list_to_int ((y.drop 12).take 2)) RAM4K.init =
      (((s.ram4kblocks.getD (bool_list_to_int ((y.drop 12).take 2)) RAM4K.init).set_input
        (some (s.in_val ++ s.address.take 12 ++
          [(DMux4Way.compute ((s.address.drop 12).take 2 ++ [s.load])).getD
            (bool_list_to_int ((y.drop 12).take 2)) false]))).on_clock true).on_clock false := by
    rw [hstruct]
    exact getD_zipWith _ _ _ _ (by omega) (by omega) _ _ _
  rw [hblk, DMux4Way_getD _ s.load _ hah hkyh]
  have hmem : s.ram4kblocks.getD (bool_list_to_int ((y.drop 12).take 2)) RAM4K.init ∈
      s.ram4kblocks := by
    rw [List.getD_eq_getElem _ _ (by omega)]
    exact List.getElem_mem _
  rw [RAM4K_write_read _ (hblocks _ hmem) s.in_val (s.address.take 12) _ h16 (by simp [hA])
    (y.take 12) (by simp [hy])]
  have hysp : bool_list_to_int y =
      bool_list_to_int (y.take 12) + 4096 * bool_list_to_int ((y.drop 12).take 2) := by
    conv_lhs => rw [← List.take_append_drop 12 y]
    rw [blti_append]
    have h1 : (y.drop 12).take 2 = y.drop 12 :=
      List.take_of_length_le (by simp [hy])
    rw [h1]
    simp [hy]
  have hasp : bool_list_to_int s.address =
      bool_list_to_int (s.address.take 12) +
        4096 * bool_list_to_int ((s.address.drop 12).take 2) := by
    conv_lhs => rw [← List.take_append_drop 12 s.address]
    rw [blti_append]
    have h1 : (s.address.drop 12).take 2 = s.address.drop 12 :=
      List.take_of_length_le (by simp [hA])
    rw [h1]
    simp [hA]
  have hbyl : bool_list_to_int (y.take 12) < 4096 := by
    have := blti_lt (y.take 12)
    simp only [List.length_take, hy] at this
    simpa using this
  have hbal : bool_list_to_int (s.address.take 12) < 4096 := by
    have := blti_lt (s.address.take 12)
    simp only [List.length_take, hA] at this
    simpa using this
  have hiff : ((decide (bool_list_to_int ((y.drop 12).take 2) =
        bool_list_to_int ((s.address.drop 12).take 2)) && s.load) = true ∧
        bool_list_to_int (y.take 12) = bool_list_to_int (s.address.take 12)) ↔
      (s.load = true ∧ bool_list_to_int y = bool_list_to_int s.address) := by
    simp only [Bool.and_eq_true, decide_eq_true_eq]
    constructor
    · rintro ⟨⟨hh, hl⟩, hlo⟩
      exact ⟨hl, by rw [hysp, hasp, hh, hlo]⟩
    · rintro ⟨hl, he⟩
      rw [hysp, hasp] at he
      exact ⟨⟨by omega, hl⟩, by omega⟩
  rw [if_congr hiff rfl rfl]

theorem blkouts_zip_4k (blocks : List RAM4K) (dm : List Bool) (w lo : List Bool)
    (hw : w.length = 16) (hlo : lo.length = 12)
    (hblocks : ∀ blk ∈ blocks, blk.Wf) (hlen : blocks.length = dm.length)
    (u : List Bool) :
    (List.zipWith (fun blk d => blk.set_input (some (w ++ lo ++ [d]))) blocks dm).map
        (fun blk => blk.get_output u) = blocks.map (fun blk => blk.get_output u) := by
  rw [map_zipWith_fuse]
  have hzip : List.zipWith
      (fun blk d => (blk.set_input (some (w ++ lo ++ [d]))).get_output u) blocks dm =
      List.zipWith (fun blk _ => blk.get_output u) blocks dm :=
    zipWith_congr_left
      (fun blk d hblk => RAM4K_set_out blk _ u hblk (by simp [RAM4K.WfInput, hw, hlo]))
      blocks dm hblocks
  rw [hzip, zipWith_left_proj (fun blk => blk.get_output u) blocks dm hlen]

theorem RAM16K_set_blkouts (s : RAM16K) (i : Option (List Bool)) (hWf : s.Wf)
    (hi : RAM16K.WfInput i) (u : List Bool) :
    (s.set_input i).ram4kblocks.map (fun blk => blk.get_output u) =
      s.ram4kblocks.map (fun blk => blk.get_output u) := by
  obtain ⟨h8, h16, hA, hblocks⟩ := hWf
  cases i with
  | none =>
    rw [RAM16K_set_none_eq]
    exact blkouts_zip_4k s.ram4kblocks _ s.in_val (s.address.take 12) h16 (by simp [hA])
      hblocks (by rw [h8, DMux4Way_length _ _ (by simp [hA] : ((s.address.drop 12).take 2).length = 2)]) u
  | some ins =>
    have hlen : ins.length = 31 := hi
    have hdec := concat3_decomp ins 14 (by omega)
    have hw : (ins.take 16).length = 16 := by simp [hlen]
    have hx : ((ins.drop 16).take 14).length = 14 := by simp [hlen]
    rw [show ins.take 16 ++ ((ins.drop 16).take 14 ++ [ins.getD (16 + 14) false]) =
        ins.take 16 ++ (ins.drop 16).take 14 ++ [ins.getD (16 + 14) false] by simp] at hdec
    rw [show s.set_input (some ins) =
        s.set_input (some (ins.take 16 ++ (ins.drop 16).take 14 ++ [ins.getD (16 + 14) false]))
      from by rw [← hdec]]
    rw [RAM16K_set_some s _ _ _ hw hx]
    exact blkouts_zip_4k s.ram4kblocks _ (ins.take 16) (((ins.drop 16).take 14).take 12) hw
      (by simp [hx]) hblocks
      (by rw [h8, DMux4Way_length _ _
        (by simp [hx] : ((((ins.drop 16).take 14).drop 12).take 2).length = 2)]) u

theorem RAM16K_set_out (s : RAM16K) (i : Option (List Bool)) (y : List Bool)
    (hWf : s.Wf) (hi : RAM16K.WfInput i) :
    (s.set_input i).get_output y = s.get_output y := by
  simp only [RAM16K.get_output]
  rw [RAM16K_set_blkouts s i hWf hi]

theorem RAM16K_set_Wf (s : RAM16K) (i : Option (List Bool)) (hWf : s.Wf)
    (hi : RAM16K.WfInput i) : (s.set_input i).Wf := by
  obtain ⟨h8, h16, hA, hblocks⟩ := hWf
  cases i with
  | none =>
    rw [RAM16K_set_none_eq]
    simp only [RAM16K.Wf]
    refine ⟨?_, h16, hA, ?_⟩
    · simp [List.length_zipWith, h8, DMux4Way_length _ s.load
        (by simp [hA] : ((s.address.drop 12).take 2).length = 2)]
    · exact forall_mem_zipWith _
        (fun blk d hblk => RAM4K_set_Wf blk _ hblk
          (by simp [RAM4K.WfInput, h16, hA]))
        s.ram4kblocks _ hblocks
  | some ins =>
    have hlen : ins.length = 31 := hi
    have hdec := concat3_decomp ins 14 (by omega)
    have hw : (ins.take 16).length = 16 := by simp [hlen]
    have hx : ((ins.drop 16).take 14).length = 14 := by simp [hlen]
    rw [show ins.take 16 ++ ((ins.drop 16).take 14 ++ [ins.getD (16 + 14) false]) =
        ins.take 16 ++ (ins.drop 16).take 14 ++ [ins.getD (16 + 14) false] by simp] at hdec
    rw [show s.set_input (some ins) =
        s.set_input (some (ins.take 16 ++ (ins.drop 16).take 14 ++ [ins.getD (16 + 14) false]))
      from by rw [← hdec]]
    rw [RAM16K_set_some s _ _ _ hw hx]
    simp only [RAM16K.Wf]
    refine ⟨?_, hw, hx, ?_⟩
    · simp [List.length_zipWith, h8, DMux4Way_length _ _
        (by simp [hx] : ((((ins.drop 16).take 14).drop 12).take 2).length = 2)]
    · exact forall_mem_zipWith _
        (fun blk d hblk => RAM4K_set_Wf blk _ hblk
          (by simp [RAM4K.WfInput, hw, hx]))
        s.ram4kblocks _ hblocks

theorem RAM16K_set_fields (s : RAM16K) (w x : List Bool) (l : Bool)
    (hw : w.length = 16) (hx : x.length = 14) :
    (s.set_input (some (w ++ x ++ [l]))).in_val = w ∧
    (s.set_input (some (w ++ x ++ [l]))).address = x ∧
    (s.set_input (some (w ++ x ++ [l]))).load = l := by
  rw [RAM16K_set_some s w x l hw hx]
  exact ⟨rfl, rfl, rfl⟩

theorem RAM16K_write_read (blk : RAM16K) (hWf : blk.Wf) (w lo : List Bool) (d : Bool)
    (hw : w.length = 16) (hlo : lo.length = 14) (y : List Bool) (hy : y.length = 14) :
    (((blk.set_input (some (w ++ lo ++ [d]))).on_clock true).on_clock false).get_output y =
      if d = true ∧ bool_list_to_int y = bool_list_to_int lo
      then w else blk.get_output y := by
  have h1 : (blk.set_input (some (w ++ lo ++ [d]))).Wf :=
    RAM16K_set_Wf blk _ hWf (by simp [RAM16K.WfInput, hw, hlo])
  have h2 := RAM16K_tick_read (blk.set_input (some (w ++ lo ++ [d]))) h1 y hy
  have h3 : (blk.set_input (some (w ++ lo ++ [d]))).tick =
      ((blk.set_input (some (w ++ lo ++ [d]))).on_clock true).on_clock false := rfl
  rw [h3] at h2
  obtain ⟨f1, f2, f3⟩ := RAM16K_set_fields blk w lo d hw hlo
  rw [f1, f2, f3, RAM16K_set_out blk _ y hWf (by simp [RAM16K.WfInput, hw, hlo])] at h2
  exact h2

theorem RAM16K_write_Wf (blk : RAM16K) (hWf : blk.Wf) (w lo : List Bool) (d : Bool)
    (hw : w.length = 16) (hlo : lo.length = 14) :
    (((blk.set_input (some (w ++ lo ++ [d]))).on_clock true).on_clock false).Wf := by
  have h1 : (blk.set_input (some (w ++ lo ++ [d]))).Wf :=
    RAM16K_set_Wf blk _ hWf (by simp [RAM16K.WfInput, hw, hlo])
  exact RAM16K_tick_Wf _ h1


/-! The ripple-carry adder of P2_Adding.py. -/

theorem FullAdder_eq (a b c : Bool) :
    FullAdder.compute [a, b, c] =
      [xor a (xor b c), (a && b) || (c && xor a b)] := by
  cases a <;> cases b <;> cases c <;> rfl

theorem rippleCarry_length : ∀ (xs ys : List Bool) (c : Bool),
    xs.length = ys.length → (rippleCarry xs ys c).1.length = xs.length := by
  intro xs
  induction xs with
  | nil => intro ys c _; simp [rippleCarry]
  | cons a xs ih =>
    intro ys c h
    cases ys with
    | nil => simp at h
    | cons b ys =>
      simp only [rippleCarry, List.length_cons]
      rw [ih ys _ (by simpa using h)]

theorem rippleCarry_snoc : ∀ (xs ys : List Bool) (a b c : Bool),
    xs.length = ys.length →
    rippleCarry (xs ++ [a]) (ys ++ [b]) c =
      ((rippleCarry xs ys c).1 ++ [xor a (xor b (rippleCarry xs ys c).2)],
        (a && b) || ((rippleCarry xs ys c).2 && xor a b)) := by
  intro xs
  induction xs with
  | nil =>
    intro ys a b c h
    cases ys with
    | nil => simp [rippleCarry]
    | cons y ys => simp at h
  | cons x xs ih =>
    intro ys a b c h
    cases ys with
    | nil => simp at h
    | cons y ys =>
      simp only [List.cons_append, rippleCarry, List.append_eq]
      rw [ih ys a b _ (by simpa using h)]

theorem rippleCarry_toNat : ∀ (xs ys : List Bool) (c : Bool),
    xs.length = ys.length →
    toNatLSB (rippleCarry xs ys c).1 +
        2 ^ xs.length * (if (rippleCarry xs ys c).2 then 1 else 0) =
      toNatLSB xs + toNatLSB ys + (if c then 1 else 0) := by
  intro xs
  induction xs with
  | nil =>
    intro ys c h
    cases ys with
    | nil => cases c <;> simp [rippleCarry, toNatLSB]
    | cons y ys => simp at h
  | cons a xs ih =>
    intro ys c h
    cases ys with
    | nil => simp at h
    | cons b ys =>
      simp only [rippleCarry, toNatLSB, List.length_cons]
      have hih := ih ys ((a && b) || (c && xor a b)) (by simpa using h)
      have hfa : (if xor a (xor b c) then 1 else 0) +
          2 * (if ((a && b) || (c && xor a b)) then (1 : Nat) else 0) =
          (if a then 1 else 0) + (if b then 1 else 0) + (if c then 1 else 0) := by
        cases a <;> cases b <;> cases c <;> rfl
      have key : (2 : Nat) ^ (xs.length + 1) *
          (if (rippleCarry xs ys ((a && b) || (c && xor a b))).2 then 1 else 0) =
          2 * (2 ^ xs.length *
            (if (rippleCarry xs ys ((a && b) || (c && xor a b))).2 then 1 else 0)) := by
        ring
      rw [key]
      omega

theorem addN_fold (x y : List Bool) : ∀ (n : Nat), n ≤ x.length → n ≤ y.length →
    (List.range n).foldl
      (fun (acc : List Bool × Bool) n =>
        let fa := FullAdder.compute [x.getD n false, y.getD n false, acc.2]
        (acc.1 ++ [fa.getD 0 false], fa.getD 1 false))
      ([], false)
    = rippleCarry (x.take n) (y.take n) false := by
  intro n
  induction n with
  | zero => intro _ _; simp [rippleCarry]
  | succ n ih =>
    intro h1 h2
    rw [List.range_succ, List.foldl_append, ih (by omega) (by omega)]
    simp only [List.foldl_cons, List.foldl_nil]
    have hx : x.take (n + 1) = x.take n ++ [x.getD n false] := by
      rw [List.take_succ]
      congr 1
      rw [List.getElem?_eq_getElem (by omega)]
      rw [List.getD_eq_getElem x false (show n < x.length by omega)]
      rfl
    have hy : y.take (n + 1) = y.take n ++ [y.getD n false] := by
      rw [List.take_succ]
      congr 1
      rw [List.getElem?_eq_getElem (by omega)]
      rw [List.getD_eq_getElem y false (show n < y.length by omega)]
      rfl
    rw [hx, hy, rippleCarry_snoc _ _ _ _ _ (by simp [List.length_take]; omega)]
    rw [FullAdder_eq]
    rfl

theorem AddN_eq_ripple (n : Nat) (x y : List Bool) (hx : x.length = n)
    (hy : y.length = n) :
    AddN.compute n (x ++ y) = (rippleCarry x y false).1 := by
  unfold AddN.compute
  have e1 : (x ++ y).take n = x := List.take_left' hx
  have e2 : (x ++ y).drop n = y := List.drop_left' hx
  simp only [e1, e2]
  rw [addN_fold x y n (by omega) (by omega),
    List.take_of_length_le (by omega), List.take_of_length_le (by omega)]

theorem Inc16_eq_ripple (w : List Bool) (hw : w.length = 16) :
    Inc16.compute w = (rippleCarry w (true :: List.replicate 15 false) false).1 := by
  show AddN.compute 16 (w ++ _) = _
  exact AddN_eq_ripple 16 w _ hw (by simp)

theorem Inc16_length (w : List Bool) (hw : w.length = 16) :
    (Inc16.compute w).length = 16 := by
  rw [Inc16_eq_ripple w hw, rippleCarry_length _ _ false (by simp [hw]), hw]

theorem Inc16_toNat (w : List Bool) (hw : w.length = 16) :
    toNatLSB (Inc16.compute w) = (toNatLSB w + 1) % 2 ^ 16 := by
  rw [Inc16_eq_ripple w hw]
  have hlen : w.length = (true :: List.replicate 15 false).length := by simp [hw]
  have hnum := rippleCarry_toNat w (true :: List.replicate 15 false) false hlen
  have hone : toNatLSB (true :: List.replicate 15 false) = 1 := by decide
  have h2 : (2 : Nat) ^ 16 = 65536 := by norm_num
  have hzero : (if false = true then (1 : Nat) else 0) = 0 := rfl
  rw [hone, hw, h2, hzero] at hnum
  rw [h2]
  have hlt : toNatLSB (rippleCarry w (true :: List.replicate 15 false) false).1 < 65536 := by
    have h1 := toNatLSB_lt (rippleCarry w (true :: List.replicate 15 false) false).1
    rw [rippleCarry_length _ _ false hlen, hw, h2] at h1
    exact h1
  have hK : (if (rippleCarry w (true :: List.replicate 15 false) false).2 then (1 : Nat)
      else 0) ≤ 1 := by
    split <;> omega
  omega

/-! PC: characterizations of the priority next-value logic and of a full
clock cycle. -/

theorem Reg_set_some_out (r : RegisterN) (w : List Bool) (l : Bool)
    (hlen : r.bits.length = w.length) :
    (r.set_input (some (w ++ [l]))).get_output = r.get_output := by
  rw [Reg_set_some, Reg_get_output_eq, Reg_get_output_eq]
  simp only [map_zipWith_fuse]
  have hzip : List.zipWith (fun b v => (b.set_input (some [v, l])).dff.Q) r.bits w =
      List.zipWith (fun b _ => b.dff.Q) r.bits w :=
    zipWith_congr_left (q := fun _ => True) (fun b v _ => by rw [Bit_set_Q]) r.bits w
      (fun _ _ => trivial)
  rw [hzip, zipWith_left_proj (fun b => b.dff.Q) r.bits w hlen]

theorem Reg_set_on_false_out (r : RegisterN) (w : List Bool) (l : Bool)
    (hlen : r.bits.length = w.length) :
    ((r.set_input (some (w ++ [l]))).on_clock false).get_output = r.get_output := by
  rw [Reg_set_some, Reg_on_of_struct,
    zipWith_self_absorb _ (fun b v => Bit_absorb_some b v l) r.bits w,
    Reg_get_output_eq, Reg_get_output_eq]
  simp only [List.map_map, map_zipWith_fuse]
  have hzip : List.zipWith
      (fun b v => ((b.set_input (some [v, l])).on_clock false).dff.Q) r.bits w =
      List.zipWith (fun b _ => b.dff.Q) r.bits w :=
    zipWith_congr_left (q := fun _ => True)
      (fun b v _ => by rw [Bit_on_false_Q, Bit_set_Q]) r.bits w (fun _ _ => trivial)
  rw [hzip, zipWith_left_proj (fun b => b.dff.Q) r.bits w hlen]

theorem Reg_set_on_false_Wf (r : RegisterN) (w : List Bool) (l : Bool) (n : Nat)
    (hb : r.bits.length = n) (hw : w.length = n) :
    RegisterN.Wf n ((r.set_input (some (w ++ [l]))).on_clock false) := by
  rw [Reg_set_some, Reg_on_of_struct]
  simp only [RegisterN.Wf]
  refine ⟨by simp [List.length_zipWith, hb, hw], hw, ?_⟩
  intro b hbm
  simp only [List.mem_map] at hbm
  obtain ⟨b0, _, rfl⟩ := hbm
  simp [Bit.Wf, Bit_on_prev]

theorem Reg_prevs_set (r : RegisterN) (i : Option (List Bool)) (c : Bool)
    (hprev : ∀ b ∈ r.bits, b.dff.prev_clk = c) :
    ∀ b ∈ (r.set_input i).bits, b.dff.prev_clk = c := by
  cases i with
  | none =>
    rw [Reg_set_none]
    exact forall_mem_zipWith _ (fun b v hb => by rw [Bit_set_prev]; exact hb)
      r.bits r.in_vals hprev
  | some ins =>
    simp only [RegisterN.set_input]
    exact forall_mem_zipWith _ (fun b v hb => by rw [Bit_set_prev]; exact hb)
      r.bits _ hprev

theorem PC_set_none_eq (p : PC) :
    p.set_input none =
      { p with reg16 := p.reg16.set_input (some (p.reg_input ++ [true])) } := by
  simp [PC.set_input, PC.reg_input, PC.get_output]

theorem PC_on_clock_eq (p : PC) (clk : Bool) :
    p.on_clock clk =
      { p with reg16 := (p.reg16.set_input (some (p.reg_input ++ [true]))).on_clock clk } := by
  simp [PC.on_clock, PC_set_none_eq]

theorem PC_set_some_eq (p : PC) (v : List Bool) (li i r : Bool) (hv : v.length = 16) :
    p.set_input (some (v ++ [li, i, r])) =
      { p with in_val := v, load := li, inc := i, reset := r,
               reg16 := p.reg16.set_input
                 (some (PC.reg_input
                   { p with in_val := v, load := li, inc := i, reset := r } ++ [true])) } := by
  have e1 : (v ++ [li, i, r]).take 16 = v := List.take_left' hv
  have e2 : (v ++ [li, i, r])[16]?.getD false = li := by
    rw [← List.getD_eq_getElem?_getD, getD_append_len _ _ 16 hv]
    rfl
  have e3 : (v ++ [li, i, r])[17]?.getD false = i := by
    rw [← List.getD_eq_getElem?_getD, show (17 : Nat) = 16 + 1 from rfl,
      getD_append_add _ _ 16 1 hv]
    rfl
  have e4 : (v ++ [li, i, r])[18]?.getD false = r := by
    rw [← List.getD_eq_getElem?_getD, show (18 : Nat) = 16 + 2 from rfl,
      getD_append_add _ _ 16 2 hv]
    rfl
  simp [PC.set_input, PC.reg_input, PC.get_output, e1, e2, e3, e4]

theorem PC_out_length (p : PC) (hWf : p.Wf) : p.get_output.length = 16 := by
  obtain ⟨⟨hb, hv, _⟩, _⟩ := hWf
  simp [PC.get_output, Reg_get_output_eq, hb]

theorem PC_RI_length (p : PC) : p.reg_input.length = 16 := by
  simp [PC.reg_input, MuxN_length]

theorem PC_RI_val (p : PC) (hWf : p.Wf) :
    p.reg_input =
      if p.reset then List.replicate 16 false
      else if p.load then p.in_val
      else if p.inc then Inc16.compute p.get_output
      else p.get_output := by
  obtain ⟨hreg, hiv⟩ := hWf
  have hout : p.get_output.length = 16 := PC_out_length p ⟨hreg, hiv⟩
  simp only [PC.reg_input]
  rw [MuxN_select 16 p.inc _ _ hout (Inc16_length _ hout)]
  have hincmux : (if p.inc then Inc16.compute p.get_output else p.get_output).length = 16 := by
    cases hi2 : p.inc <;> simp [hout, Inc16_length _ hout]
  rw [MuxN_select 16 p.load _ _ hincmux hiv]
  have hloadmux : (if p.load then p.in_val
      else if p.inc then Inc16.compute p.get_output else p.get_output).length = 16 := by
    cases hl2 : p.load <;> simp [hincmux, hiv]
  rw [MuxN_select 16 p.reset _ _ hloadmux (by simp)]

theorem PC_R1_bits_length (p : PC) (hWf : p.Wf) (c : Bool) :
    ((p.reg16.set_input (some (p.reg_input ++ [true]))).on_clock c).bits.length = 16 := by
  obtain ⟨⟨hb, hv, _⟩, _⟩ := hWf
  rw [Reg_set_some, Reg_on_of_struct]
  simp [List.length_zipWith, hb, PC_RI_length]

theorem PC_tick_out (p : PC) (hWf : p.Wf) : p.tick.get_output = p.reg_input := by
  obtain ⟨hreg, hiv⟩ := hWf
  obtain ⟨hb, hv, hbits⟩ := hreg
  show ((p.on_clock true).on_clock false).get_output = _
  rw [PC_on_clock_eq p true, PC_on_clock_eq]
  simp only [PC.get_output]
  rw [Reg_set_on_false_out _ _ _
    (by rw [PC_R1_bits_length p ⟨⟨hb, hv, hbits⟩, hiv⟩ true, PC_RI_length])]
  rw [Reg_set_on_true_out p.reg16 _ true 16 ⟨hb, hv, hbits⟩ (PC_RI_length p)]
  simp

theorem PC_tick_Wf (p : PC) (hWf : p.Wf) : p.tick.Wf := by
  obtain ⟨hreg, hiv⟩ := hWf
  obtain ⟨hb, hv, hbits⟩ := hreg
  show ((p.on_clock true).on_clock false).Wf
  rw [PC_on_clock_eq p true, PC_on_clock_eq]
  constructor
  · exact Reg_set_on_false_Wf _ _ _ 16
      (PC_R1_bits_length p ⟨⟨hb, hv, hbits⟩, hiv⟩ true) (PC_RI_length _)
  · exact hiv

theorem PC_tick_fields (p : PC) :
    p.tick.in_val = p.in_val ∧ p.tick.load = p.load ∧ p.tick.inc = p.inc ∧
      p.tick.reset = p.reset := by
  show (((p.on_clock true).on_clock false).in_val = _) ∧ _
  rw [PC_on_clock_eq p true, PC_on_clock_eq]
  exact ⟨rfl, rfl, rfl, rfl⟩

theorem PC_set_out (p : PC) (i : Option (List Bool)) (hWf : p.Wf) :
    (p.set_input i).get_output = p.get_output := by
  obtain ⟨⟨hb, hv, hbits⟩, hiv⟩ := hWf
  cases i with
  | none =>
    rw [PC_set_none_eq]
    simp only [PC.get_output]
    exact Reg_set_some_out _ _ _ (by rw [hb, PC_RI_length])
  | some ins =>
    simp only [PC.set_input, PC.get_output]
    exact Reg_set_some_out _ _ _ (by rw [hb, MuxN_length])

theorem PC_set_Wf (p : PC) (i : Option (List Bool)) (hWf : p.Wf)
    (hi : PC.WfInput i) : (p.set_input i).Wf := by
  obtain ⟨⟨hb, hv, hbits⟩, hiv⟩ := hWf
  cases i with
  | none =>
    rw [PC_set_none_eq]
    refine ⟨(Reg_set_char 16 p.reg16 (some (p.reg_input ++ [true]))
      ⟨hb, hv, hbits⟩ ?_).2, hiv⟩
    simp [RegisterN.WfInput, PC_RI_length]
  | some ins =>
    have hlen : ins.length = 19 := hi
    have h3 : (ins.drop 16).length = 3 := by rw [List.length_drop, hlen]
    obtain ⟨a, b, c, habc⟩ := list_len_three (ins.drop 16) h3
    have hv16 : (ins.take 16).length = 16 := by simp [List.length_take, hlen]
    have hdec : ins = ins.take 16 ++ [a, b, c] := by
      conv_lhs => rw [← List.take_append_drop 16 ins]
      rw [habc]
    rw [hdec, PC_set_some_eq p (ins.take 16) a b c hv16]
    refine ⟨(Reg_set_char 16 p.reg16
      (some (PC.reg_input
        { p with in_val := ins.take 16, load := a, inc := b, reset := c } ++ [true]))
      ⟨hb, hv, hbits⟩ ?_).2, hv16⟩
    simp [RegisterN.WfInput, PC_RI_length]

theorem PC_on_out_idem (p : PC) (c : Bool) (hWf : p.Wf) :
    ((p.on_clock c).on_clock c).get_output = (p.on_clock c).get_output := by
  obtain ⟨⟨hb, hv, hbits⟩, hiv⟩ := hWf
  have hb1 := PC_R1_bits_length p ⟨⟨hb, hv, hbits⟩, hiv⟩ c
  have hprev1 : ∀ b ∈ ((p.reg16.set_input (some (p.reg_input ++ [true]))).on_clock c).bits,
      b.dff.prev_clk = c := Reg_prevs_on _ c
  rw [PC_on_clock_eq p c, PC_on_clock_eq]
  simp only [PC.get_output]
  generalize hR1 : (p.reg16.set_input (some (p.reg_input ++ [true]))).on_clock c = R1
    at hb1 hprev1 ⊢
  have hu : (PC.reg_input { p with reg16 := R1 }).length = 16 := PC_RI_length _
  have hprev2 : ∀ b ∈ (R1.set_input
      (some (PC.reg_input { p with reg16 := R1 } ++ [true]))).bits,
      b.dff.prev_clk = c := Reg_prevs_set R1 _ c hprev1
  rw [Reg_on_noedge_out _ c
    (by rw [Reg_set_some]; simp [List.length_zipWith, hb1, hu]) hprev2]
  exact Reg_set_some_out _ _ _ (by rw [hb1, hu])

theorem RAM8_set_any (s : RAM8) (z : List Bool) :
    s.set_input (some z) =
      ⟨List.zipWith (fun r d => r.set_input (some (z.take 16 ++ [d]))) s.registers
        (DMux8Way.compute ((z.drop 16).take 3 ++ [z.getD 19 false])),
        z.take 16, (z.drop 16).take 3, z.getD 19 false⟩ := by
  simp only [RAM8.set_input]

theorem RAM8_absorb_any (s : RAM8) (z : List Bool) :
    (s.set_input (some z)).set_input (some z) = s.set_input (some z) := by
  rw [RAM8_set_any s z, RAM8_set_any]
  simp only
  rw [zipWith_self_absorb _ (fun r d => Reg_absorb_some r (z.take 16) d) s.registers _]

theorem RAM8_on_absorb_any (s : RAM8) (z : List Bool) (c : Bool) :
    ((s.set_input (some z)).on_clock c).set_input (some z) =
      (s.set_input (some z)).on_clock c := by
  rw [RAM8_set_any s z, RAM8_on_clock_eq]
  simp only
  rw [zipWith_self_absorb _ (fun r d => Reg_absorb_some r (z.take 16) d) s.registers _]
  rw [RAM8_set_any]
  simp only
  rw [zipWith_map_absorb _ _ (fun r d => Reg_on_absorb_some r (z.take 16) d c) s.registers _]

theorem RAM8_on_idem (s : RAM8) (c : Bool) :
    (s.on_clock c).on_clock c = s.on_clock c := by
  rw [RAM8_on_clock_eq s c, RAM8_on_clock_eq]
  simp only
  rw [zipWith_map_absorb _ _ (fun r d => Reg_on_absorb_some r s.in_val d c) s.registers _,
    List.map_map]
  congr 1
  apply List.map_congr_left
  intro r _
  simp [Function.comp, Reg_on_idem]

theorem RAM64_set_any (s : RAM64) (z : List Bool) :
    s.set_input (some z) =
      ⟨List.zipWith
        (fun blk d =>
          blk.set_input (some (z.take 16 ++ ((z.drop 16).take 6).take 3 ++ [d])))
        s.ram8blocks
        (DMux8Way.compute ((((z.drop 16).take 6).drop 3).take 3 ++ [z.getD 22 false])),
        z.take 16, (z.drop 16).take 6, z.getD 22 false⟩ := by
  simp only [RAM64.set_input]

theorem RAM64_absorb_any (s : RAM64) (z : List Bool) :
    (s.set_input (some z)).set_input (some z) = s.set_input (some z) := by
  rw [RAM64_set_any s z, RAM64_set_any]
  simp only
  rw [zipWith_self_absorb _
    (fun blk d => RAM8_absorb_any blk
      (z.take 16 ++ ((z.drop 16).take 6).take 3 ++ [d])) s.ram8blocks _]

theorem RAM64_on_absorb_any (s : RAM64) (z : List Bool) (c : Bool) :
    ((s.set_input (some z)).on_clock c).set_input (some z) =
      (s.set_input (some z)).on_clock c := by
  rw [RAM64_set_any s z, RAM64_on_clock_eq]
  simp only
  rw [zipWith_self_absorb _
    (fun blk d => RAM8_absorb_any blk
      (z.take 16 ++ ((z.drop 16).take 6).take 3 ++ [d])) s.ram8blocks _]
  rw [RAM64_set_any]
  simp only
  rw [zipWith_map_absorb _ _
    (fun blk d => RAM8_on_absorb_any blk
      (z.take 16 ++ ((z.drop 16).take 6).take 3 ++ [d]) c) s.ram8blocks _]

theorem RAM64_on_idem (s : RAM64) (c : Bool) :
    (s.on_clock c).on_clock c = s.on_clock c := by
  rw [RAM64_on_clock_eq s c, RAM64_on_clock_eq]
  simp only
  rw [zipWith_map_absorb _ _
    (fun blk d => RAM8_on_absorb_any blk (s.in_val ++ s.address.take 3 ++ [d]) c)
    s.ram8blocks _, List.map_map]
  congr 1
  apply List.map_congr_left
  intro blk _
  simp [Function.comp, RAM8_on_idem]

theorem RAM512_set_any (s : RAM512) (z : List Bool) :
    s.set_input (some z) =
      ⟨List.zipWith
        (fun blk d =>
          blk.set_input (some (z.take 16 ++ ((z.drop 16).take 9).take 6 ++ [d])))
        s.ram64blocks
        (DMux8Way.compute ((((z.drop 16).take 9).drop 6).take 3 ++ [z.getD 25 false])),
        z.take 16, (z.drop 16).take 9, z.getD 25 false⟩ := by
  simp only [RAM512.set_input]

theorem RAM512_absorb_any (s : RAM512) (z : List Bool) :
    (s.set_input (some z)).set_input (some z) = s.set_input (some z) := by
  rw [RAM512_set_any s z, RAM512_set_any]
  simp only
  rw [zipWith_self_absorb _
    (fun blk d => RAM64_absorb_any blk
      (z.take 16 ++ ((z.drop 16).take 9).take 6 ++ [d])) s.ram64blocks _]

theorem RAM512_on_absorb_any (s : RAM512) (z : List Bool) (c : Bool) :
    ((s.set_input (some z)).on_clock c).set_input (some z) =
      (s.set_input (some z)).on_clock c := by
  rw [RAM512_set_any s z, RAM512_on_clock_eq]
  simp only
  rw [zipWith_self_absorb _
    (fun blk d => RAM64_absorb_any blk
      (z.take 16 ++ ((z.drop 16).take 9).take 6 ++ [d])) s.ram64blocks _]
  rw [RAM512_set_any]
  simp only
  rw [zipWith_map_absorb _ _
    (fun blk d => RAM64_on_absorb_any blk
      (z.take 16 ++ ((z.drop 16).take 9).take 6 ++ [d]) c) s.ram64blocks _]

theorem RAM512_on_idem (s : RAM512) (c : Bool) :
    (s.on_clock c).on_clock c = s.on_clock c := by
  rw [RAM512_on_clock_eq s c, RAM512_on_clock_eq]
  simp only
  rw [zipWith_map_absorb _ _
    (fun blk d => RAM64_on_absorb_any blk (s.in_val ++ s.address.take 6 ++ [d]) c)
    s.ram64blocks _, List.map_map]
  congr 1
  apply List.map_congr_left
  intro blk _
  simp [Function.comp, RAM64_on_idem]

theorem RAM4K_set_any (s : RAM4K) (z : List Bool) :
    s.set_input (some z) =
      ⟨List.zipWith
        (fun blk d =>
          blk.set_input (some (z.take 16 ++ ((z.drop 16).take 12).take 9 ++ [d])))
        s.ram512blocks
        (DMux8Way.compute ((((z.drop 16).take 12).drop 9).take 3 ++ [z.getD 28 false])),
        z.take 16, (z.drop 16).take 12, z.getD 28 false⟩ := by
  simp only [RAM4K.set_input]

theorem RAM4K_absorb_any (s : RAM4K) (z : List Bool) :
    (s.set_input (some z)).set_input (some z) = s.set_input (some z) := by
  rw [RAM4K_set_any s z, RAM4K_set_any]
  simp only
  rw [zipWith_self_absorb _
    (fun blk d => RAM512_absorb_any blk
      (z.take 16 ++ ((z.drop 16).take 12).take 9 ++ [d])) s.ram512blocks _]

theorem RAM4K_on_absorb_any (s : RAM4K) (z : List Bool) (c : Bool) :
    ((s.set_input (some z)).on_clock c).set_input (some z) =
      (s.set_input (some z)).on_clock c := by
  rw [RAM4K_set_any s z, RAM4K_on_clock_eq]
  simp only
  rw [zipWith_self_absorb _
    (fun blk d => RAM512_absorb_any blk
      (z.take 16 ++ ((z.drop 16).take 12).take 9 ++ [d])) s.ram512blocks _]
  rw [RAM4K_set_any]
  simp only
  rw [zipWith_map_absorb _ _
    (fun blk d => RAM512_on_absorb_any blk
      (z.take 16 ++ ((z.drop 16).take 12).take 9 ++ [d]) c) s.ram512blocks _]

theorem RAM4K_on_idem (s : RAM4K) (c : Bool) :
    (s.on_clock c).on_clock c = s.on_clock c := by
  rw [RAM4K_on_clock_eq s c, RAM4K_on_clock_eq]
  simp only
  rw [zipWith_map_absorb _ _
    (fun blk d => RAM512_on_absorb_any blk (s.in_val ++ s.address.take 9 ++ [d]) c)
    s.ram512blocks _, List.map_map]
  congr 1
  apply List.map_congr_left
  intro blk _
  simp [Function.comp, RAM512_on_idem]

theorem RAM16K_set_any (s : RAM16K) (z : List Bool) :
    s.set_input (some z) =
      ⟨List.zipWith
        (fun blk d =>
          blk.set_input (some (z.take 16 ++ ((z.drop 16).take 14).take 12 ++ [d])))
        s.ram4kblocks
        (DMux4Way.compute ((((z.drop 16).take 14).drop 12).take 2 ++ [z.getD 30 false])),
        z.take 16, (z.drop 16).take 14, z.getD 30 false⟩ := by
  simp only [RAM16K.set_input]

theorem RAM16K_absorb_any (s : RAM16K) (z : List Bool) :
    (s.set_input (some z)).set_input (some z) = s.set_input (some z) := by
  rw [RAM16K_set_any s z, RAM16K_set_any]
  simp only
  rw [zipWith_self_absorb _
    (fun blk d => RAM4K_absorb_any blk
      (z.take 16 ++ ((z.drop 16).take 14).take 12 ++ [d])) s.ram4kblocks _]

theorem RAM16K_on_absorb_any (s : RAM16K) (z : List Bool) (c : Bool) :
    ((s.set_input (some z)).on_clock c).set_input (some z) =
      (s.set_input (some z)).on_clock c := by
  rw [RAM16K_set_any s z, RAM16K_on_clock_eq]
  simp only
  rw [zipWith_self_absorb _
    (fun blk d => RAM4K_absorb_any blk
      (z.take 16 ++ ((z.drop 16).take 14).take 12 ++ [d])) s.ram4kblocks _]
  rw [RAM16K_set_any]
  simp only
  rw [zipWith_map_absorb _ _
    (fun blk d => RAM4K_on_absorb_any blk
      (z.take 16 ++ ((z.drop 16).take 14).take 12 ++ [d]) c) s.ram4kblocks _]

theorem RAM16K_on_idem (s : RAM16K) (c : Bool) :
    (s.on_clock c).on_clock c = s.on_clock c := by
  rw [RAM16K_on_clock_eq s c, RAM16K_on_clock_eq]
  simp only
  rw [zipWith_map_absorb _ _
    (fun blk d => RAM4K_on_absorb_any blk (s.in_val ++ s.address.take 12 ++ [d]) c)
    s.ram4kblocks _, List.map_map]
  congr 1
  apply List.map_congr_left
  intro blk _
  simp [Function.comp, RAM4K_on_idem]

theorem DFF_on_idem (d : DFF) (c : Bool) :
    (d.on_clock c).on_clock c = d.on_clock c := by
  cases c <;> simp [DFF.on_clock]

theorem foldl_append_singleton {σ : Type} : ∀ (chips acc : List σ),
    chips.foldl (fun a x => a ++ [x]) acc = acc ++ chips := by
  intro chips
  induction chips with
  | nil => intro acc; simp
  | cons x t ih => intro acc; simp [List.foldl_cons, ih]

theorem Clock_subscribe_eq {σ : Type} (c : Clock σ) (chips : List σ) :
    c.subscribe chips = { c with subscribers := c.subscribers ++ chips } := by
  simp [Clock.subscribe, foldl_append_singleton]

theorem Clock_notifyAll_map {σ : Type} (step : σ → Bool → σ) (lvl : Bool) (l : List σ) :
    Clock.notifyAll step lvl l = l.map (fun s => step s lvl) := by
  induction l with
  | nil => rfl
  | cons a t ih => simp [Clock.notifyAll, ih]

theorem Clock_tick_eq {σ : Type} (c : Clock σ) (step : σ → Bool → σ) :
    c.tick step =
      ⟨c.time + 1, false, c.subscribers.map (fun s => step (step s true) false)⟩ := by
  simp [Clock.tick, Clock_notifyAll_map, List.map_map, Function.comp]

theorem Reg_init_Wf (n : Nat) : RegisterN.Wf n (RegisterN.init n) := by
  refine ⟨by simp [RegisterN.init], by simp [RegisterN.init], ?_⟩
  intro b hb
  rw [List.eq_of_mem_replicate hb]
  rfl

theorem RAM8_init_Wf : RAM8.Wf RAM8.init := by
  refine ⟨by simp [RAM8.init], by simp [RAM8.init], by simp [RAM8.init], ?_⟩
  intro r hr
  rw [List.eq_of_mem_replicate hr]
  exact Reg_init_Wf 16

theorem PC_init_Wf : PC.Wf PC.init := ⟨Reg_init_Wf 16, by simp [PC.init]⟩

theorem DFF_foldl_set_out (l : List (Option Bool)) : ∀ s : DFF,
    (l.foldl DFF.set_input s).get_output = s.get_output ∧
      (l.foldl DFF.set_input s).Q = s.Q := by
  induction l with
  | nil => intro s; exact ⟨rfl, rfl⟩
  | cons i t ih =>
    intro s
    rw [List.foldl_cons]
    refine ⟨((ih _).1).trans ?_, ((ih _).2).trans ?_⟩ <;> cases i <;> rfl

theorem Bit_foldl_set_out (l : List (Option (List Bool))) : ∀ s : Bit,
    (l.foldl Bit.set_input s).get_output = s.get_output ∧
      (l.foldl Bit.set_input s).dff.Q = s.dff.Q := by
  induction l with
  | nil => intro s; exact ⟨rfl, rfl⟩
  | cons i t ih =>
    intro s
    rw [List.foldl_cons]
    refine ⟨((ih _).1).trans ?_, ((ih _).2).trans (Bit_set_Q s i)⟩
    simp [Bit.get_output, DFF.get_output, Bit_set_Q]

theorem Reg_foldl_set_out (n : Nat) (l : List (Option (List Bool))) : ∀ s : RegisterN,
    RegisterN.Wf n s → (∀ i ∈ l, RegisterN.WfInput n i) →
    (l.foldl RegisterN.set_input s).get_output = s.get_output := by
  induction l with
  | nil => intro s _ _; rfl
  | cons i t ih =>
    intro s hWf hl
    rw [List.foldl_cons]
    have h := Reg_set_char n s i hWf (hl i (by simp))
    rw [ih _ h.2 (fun j hj => hl j (by simp [hj])), h.1]

theorem PC_foldl_set_out (l : List (Option (List Bool))) : ∀ p : PC, p.Wf →
    (∀ i ∈ l, PC.WfInput i) →
    (l.foldl PC.set_input p).get_output = p.get_output := by
  induction l with
  | nil => intro p _ _; rfl
  | cons i t ih =>
    intro p hWf hl
    rw [List.foldl_cons]
    rw [ih _ (PC_set_Wf p i hWf (hl i (by simp))) (fun j hj => hl j (by simp [hj]))]
    exact PC_set_out p i hWf

theorem PC_incr_n (n : Nat) : ∀ p : PC, p.Wf → p.reset = false → p.load = false →
    p.inc = true →
    bool_list_to_int ((PC.tick)^[n] p |>.get_output) =
      (bool_list_to_int p.get_output + n) % 2 ^ 16 := by
  induction n with
  | zero =>
    intro p hWf _ _ _
    have hlt : bool_list_to_int p.get_output < 65536 := by
      have h0 := blti_lt p.get_output
      rw [PC_out_length p hWf] at h0
      have h2 : (2 : Nat) ^ 16 = 65536 := by norm_num
      rw [h2] at h0
      exact h0
    simp [Nat.mod_eq_of_lt hlt]
  | succ n ih =>
    intro p hWf hr hl hi2
    rw [Function.iterate_succ_apply]
    have htW : p.tick.Wf := PC_tick_Wf p hWf
    obtain ⟨hfi, hfl, hfc, hfr⟩ := PC_tick_fields p
    rw [ih p.tick htW (by rw [hfr, hr]) (by rw [hfl, hl]) (by rw [hfc, hi2])]
    rw [PC_tick_out p hWf, PC_RI_val p hWf, hr, hl, hi2]
    simp only [Bool.false_eq_true, if_false, if_true]
    rw [blti_eq_toNatLSB, Inc16_toNat p.get_output (PC_out_length p hWf),
      ← blti_eq_toNatLSB]
    have h2 : (2 : Nat) ^ 16 = 65536 := by norm_num
    rw [h2]
    omega

theorem RAM64_init_Wf : RAM64.Wf RAM64.init := by
  refine ⟨by simp [RAM64.init], by simp [RAM64.init], by simp [RAM64.init], ?_⟩
  intro blk hblk
  rw [List.eq_of_mem_replicate hblk]
  exact RAM8_init_Wf

theorem RAM512_init_Wf : RAM512.Wf RAM512.init := by
  refine ⟨by simp [RAM512.init], by simp [RAM512.init], by simp [RAM512.init], ?_⟩
  intro blk hblk
  rw [List.eq_of_mem_replicate hblk]
  exact RAM64_init_Wf

theorem RAM4K_init_Wf : RAM4K.Wf RAM4K.init := by
  refine ⟨by simp [RAM4K.init], by simp [RAM4K.init], by simp [RAM4K.init], ?_⟩
  intro blk hblk
  rw [List.eq_of_mem_replicate hblk]
  exact RAM512_init_Wf

theorem RAM16K_init_Wf : RAM16K.Wf RAM16K.init := by
  refine ⟨by simp [RAM16K.init], by simp [RAM16K.init], by simp [RAM16K.init], ?_⟩
  intro blk hblk
  rw [List.eq_of_mem_replicate hblk]
  exact RAM4K_init_Wf

theorem RAM8_setItem_fields (s : RAM8) (x w : List Bool) :
    (s.setItem x w).in_val = w ∧ (s.setItem x w).address = x ∧
      (s.setItem x w).load = s.load := by
  simp only [RAM8.setItem]
  rw [RAM8_set_none_eq]
  exact ⟨rfl, rfl, rfl⟩

theorem RAM8_setItem_Wf (s : RAM8) (x w : List Bool) (hWf : s.Wf) (hx : x.length = 3)
    (hw : w.length = 16) : (s.setItem x w).Wf := by
  obtain ⟨hn, h16, ha, hblks⟩ := hWf
  simp only [RAM8.setItem]
  exact RAM8_set_Wf _ none ⟨hn, hw, hx, hblks⟩ trivial

theorem RAM8_setItem_out (s : RAM8) (x w y : List Bool) (hWf : s.Wf) (hx : x.length = 3)
    (hw : w.length = 16) : (s.setItem x w).get_output y = s.get_output y := by
  obtain ⟨hn, h16, ha, hblks⟩ := hWf
  simp only [RAM8.setItem]
  exact RAM8_set_out _ none y ⟨hn, hw, hx, hblks⟩ trivial

theorem RAM8_tickN_hold (n : Nat) : ∀ (s : RAM8), s.Wf → s.load = false →
    ∀ (y : List Bool), y.length = 3 →
    ((RAM8.tick)^[n] s |>.get_output y) = s.get_output y := by
  induction n with
  | zero => intro s _ _ y _; rfl
  | succ n ih =>
    intro s hWf hl y hy
    rw [Function.iterate_succ_apply]
    rw [ih s.tick (RAM8_tick_Wf s hWf) (by rw [(RAM8_tick_fields s).2.2, hl]) y hy]
    rw [RAM8_tick_read s hWf y hy, hl]
    simp

theorem RAM8_foldl_set_out (l : List (Option (List Bool))) : ∀ s : RAM8, s.Wf →
    (∀ i ∈ l, RAM8.WfInput i) → ∀ y,
    (l.foldl RAM8.set_input s).get_output y = s.get_output y := by
  induction l with
  | nil => intro s _ _ y; rfl
  | cons i t ih =>
    intro s hWf hl y
    rw [List.foldl_cons]
    rw [ih _ (RAM8_set_Wf s i hWf (hl i (by simp))) (fun j hj => hl j (by simp [hj])) y]
    exact RAM8_set_out s i y hWf (hl i (by simp))

theorem RAM64_setItem_fields (s : RAM64) (x w : List Bool) :
    (s.setItem x w).in_val = w ∧ (s.setItem x w).address = x ∧
      (s.setItem x w).load = s.load := by
  simp only [RAM64.setItem]
  rw [RAM64_set_none_eq]
  exact ⟨rfl, rfl, rfl⟩

theorem RAM64_setItem_Wf (s : RAM64) (x w : List Bool) (hWf : s.Wf) (hx : x.length = 6)
    (hw : w.length = 16) : (s.setItem x w).Wf := by
  obtain ⟨hn, h16, ha, hblks⟩ := hWf
  simp only [RAM64.setItem]
  exact RAM64_set_Wf _ none ⟨hn, hw, hx, hblks⟩ trivial

theorem RAM64_setItem_out (s : RAM64) (x w y : List Bool) (hWf : s.Wf) (hx : x.length = 6)
    (hw : w.length = 16) : (s.setItem x w).get_output y = s.get_output y := by
  obtain ⟨hn, h16, ha, hblks⟩ := hWf
  simp only [RAM64.setItem]
  exact RAM64_set_out _ none y ⟨hn, hw, hx, hblks⟩ trivial

theorem RAM64_tickN_hold (n : Nat) : ∀ (s : RAM64), s.Wf → s.load = false →
    ∀ (y : List Bool), y.length = 6 →
    ((RAM64.tick)^[n] s |>.get_output y) = s.get_output y := by
  induction n with
  | zero => intro s _ _ y _; rfl
  | succ n ih =>
    intro s hWf hl y hy
    rw [Function.iterate_succ_apply]
    rw [ih s.tick (RAM64_tick_Wf s hWf) (by rw [(RAM64_tick_fields s hWf).2.2, hl]) y hy]
    rw [RAM64_tick_read s hWf y hy, hl]
    simp

theorem RAM64_foldl_set_out (l : List (Option (List Bool))) : ∀ s : RAM64, s.Wf →
    (∀ i ∈ l, RAM64.WfInput i) → ∀ y,
    (l.foldl RAM64.set_input s).get_output y = s.get_output y := by
  induction l with
  | nil => intro s _ _ y; rfl
  | cons i t ih =>
    intro s hWf hl y
    rw [List.foldl_cons]
    rw [ih _ (RAM64_set_Wf s i hWf (hl i (by simp))) (fun j hj => hl j (by simp [hj])) y]
    exact RAM64_set_out s i y hWf (hl i (by simp))

theorem RAM512_setItem_fields (s : RAM512) (x w : List Bool) :
    (s.setItem x w).in_val = w ∧ (s.setItem x w).address = x ∧
      (s.setItem x w).load = s.load := by
  simp only [RAM512.setItem]
  rw [RAM512_set_none_eq]
  exact ⟨rfl, rfl, rfl⟩

theorem RAM512_setItem_Wf (s : RAM512) (x w : List Bool) (hWf : s.Wf) (hx : x.length = 9)
    (hw : w.length = 16) : (s.setItem x w).Wf := by
  obtain ⟨hn, h16, ha, hblks⟩ := hWf
  simp only [RAM512.setItem]
  exact RAM512_set_Wf _ none ⟨hn, hw, hx, hblks⟩ trivial

theorem RAM512_setItem_out (s : RAM512) (x w y : List Bool) (hWf : s.Wf) (hx : x.length = 9)
    (hw : w.length = 16) : (s.setItem x w).get_output y = s.get_output y := by
  obtain ⟨hn, h16, ha, hblks⟩ := hWf
  simp only [RAM512.setItem]
  exact RAM512_set_out _ none y ⟨hn, hw, hx, hblks⟩ trivial

theorem RAM512_tickN_hold (n : Nat) : ∀ (s : RAM512), s.Wf → s.load = false →
    ∀ (y : List Bool), y.length = 9 →
    ((RAM512.tick)^[n] s |>.get_output y) = s.get_output y := by
  induction n with
  | zero => intro s _ _ y _; rfl
  | succ n ih =>
    intro s hWf hl y hy
    rw [Function.iterate_succ_apply]
    rw [ih s.tick (RAM512_tick_Wf s hWf) (by rw [(RAM512_tick_fields s hWf).2.2, hl]) y hy]
    rw [RAM512_tick_read s hWf y hy, hl]
    simp

theorem RAM512_foldl_set_out (l : List (Option (List Bool))) : ∀ s : RAM512, s.Wf →
    (∀ i ∈ l, RAM512.WfInput i) → ∀ y,
    (l.foldl RAM512.set_input s).get_output y = s.get_output y := by
  induction l with
  | nil => intro s _ _ y; rfl
  | cons i t ih =>
    intro s hWf hl y
    rw [List.foldl_cons]
    rw [ih _ (RAM512_set_Wf s i hWf (hl i (by simp))) (fun j hj => hl j (by simp [hj])) y]
    exact RAM512_set_out s i y hWf (hl i (by simp))

theorem RAM4K_setItem_fields (s : RAM4K) (x w : List Bool) :
    (s.setItem x w).in_val = w ∧ (s.setItem x w).address = x ∧
      (s.setItem x w).load = s.load := by
  simp only [RAM4K.setItem]
  rw [RAM4K_set_none_eq]
  exact ⟨rfl, rfl, rfl⟩

theorem RAM4K_setItem_Wf (s : RAM4K) (x w : List Bool) (hWf : s.Wf) (hx : x.length = 12)
    (hw : w.length = 16) : (s.setItem x w).Wf := by
  obtain ⟨hn, h16, ha, hblks⟩ := hWf
  simp only [RAM4K.setItem]
  exact RAM4K_set_Wf _ none ⟨hn, hw, hx, hblks⟩ trivial

theorem RAM4K_setItem_out (s : RAM4K) (x w y : List Bool) (hWf : s.Wf) (hx : x.length = 12)
    (hw : w.length = 16) : (s.setItem x w).get_output y = s.get_output y := by
  obtain ⟨hn, h16, ha, hblks⟩ := hWf
  simp only [RAM4K.setItem]
  exact RAM4K_set_out _ none y ⟨hn, hw, hx, hblks⟩ trivial

theorem RAM4K_tickN_hold (n : Nat) : ∀ (s : RAM4K), s.Wf → s.load = false →
    ∀ (y : List Bool), y.length = 12 →
    ((RAM4K.tick)^[n] s |>.get_output y) = s.get_output y := by
  induction n with
  | zero => intro s _ _ y _; rfl
  | succ n ih =>
    intro s hWf hl y hy
    rw [Function.iterate_succ_apply]
    rw [ih s.tick (RAM4K_tick_Wf s hWf) (by rw [(RAM4K_tick_fields s hWf).2.2, hl]) y hy]
    rw [RAM4K_tick_read s hWf y hy, hl]
    simp

theorem RAM4K_foldl_set_out (l : List (Option (List Bool))) : ∀ s : RAM4K, s.Wf →
    (∀ i ∈ l, RAM4K.WfInput i) → ∀ y,
    (l.foldl RAM4K.set_input s).get_output y = s.get_output y := by
  induction l with
  | nil => intro s _ _ y; rfl
  | cons i t ih =>
    intro s hWf hl y
    rw [List.foldl_cons]
    rw [ih _ (RAM4K_set_Wf s i hWf (hl i (by simp))) (fun j hj => hl j (by simp [hj])) y]
    exact RAM4K_set_out s i y hWf (hl i (by simp))

theorem RAM16K_setItem_fields (s : RAM16K) (x w : List Bool) :
    (s.setItem x w).in_val = w ∧ (s.setItem x w).address = x ∧
      (s.setItem x w).load = s.load := by
  simp only [RAM16K.setItem]
  rw [RAM16K_set_none_eq]
  exact ⟨rfl, rfl, rfl⟩

theorem RAM16K_setItem_Wf (s : RAM16K) (x w : List Bool) (hWf : s.Wf) (hx : x.length = 14)
    (hw : w.length = 16) : (s.setItem x w).Wf := by
  obtain ⟨hn, h16, ha, hblks⟩ := hWf
  simp only [RAM16K.setItem]
  exact RAM16K_set_Wf _ none ⟨hn, hw, hx, hblks⟩ trivial

theorem RAM16K_setItem_out (s : RAM16K) (x w y : List Bool) (hWf : s.Wf) (hx : x.length = 14)
    (hw : w.length = 16) : (s.setItem x w).get_output y = s.get_output y := by
  obtain ⟨hn, h16, ha, hblks⟩ := hWf
  simp only [RAM16K.setItem]
  exact RAM16K_set_out _ none y ⟨hn, hw, hx, hblks⟩ trivial

theorem RAM16K_tickN_hold (n : Nat) : ∀ (s : RAM16K), s.Wf → s.load = false →
    ∀ (y : List Bool), y.length = 14 →
    ((RAM16K.tick)^[n] s |>.get_output y) = s.get_output y := by
  induction n with
  | zero => intro s _ _ y _; rfl
  | succ n ih =>
    intro s hWf hl y hy
    rw [Function.iterate_succ_apply]
    rw [ih s.tick (RAM16K_tick_Wf s hWf) (by rw [(RAM16K_tick_fields s hWf).2.2, hl]) y hy]
    rw [RAM16K_tick_read s hWf y hy, hl]
    simp

theorem RAM16K_foldl_set_out (l : List (Option (List Bool))) : ∀ s : RAM16K, s.Wf →
    (∀ i ∈ l, RAM16K.WfInput i) → ∀ y,
    (l.foldl RAM16K.set_input s).get_output y = s.get_output y := by
  induction l with
  | nil => intro s _ _ y; rfl
  | cons i t ih =>
    intro s hWf hl y
    rw [List.foldl_cons]
    rw [ih _ (RAM16K_set_Wf s i hWf (hl i (by simp))) (fun j hj => hl j (by simp [hj])) y]
    exact RAM16K_set_out s i y hWf (hl i (by simp))

/-- C1: Memory hierarchy round-trip.  For every RAM level (RAM8, RAM64,
RAM512, RAM4K, RAM16K), every valid address x of that level's width and
every 16-bit word w, calling set_input with word w, address x and load=1,
then delivering one full clock cycle (on_clock true followed by
on_clock false), then calling get_output at x, returns exactly w. -/
theorem C1_memory_roundtrip :
    (∀ (s : RAM8) (w x : List Bool), s.Wf → w.length = 16 → x.length = 3 →
      (((s.set_input (some (w ++ x ++ [true]))).on_clock true).on_clock
        false).get_output x = w) ∧
    (∀ (s : RAM64) (w x : List Bool), s.Wf → w.length = 16 → x.length = 6 →
      (((s.set_input (some (w ++ x ++ [true]))).on_clock true).on_clock
        false).get_output x = w) ∧
    (∀ (s : RAM512) (w x : List Bool), s.Wf → w.length = 16 → x.length = 9 →
      (((s.set_input (some (w ++ x ++ [true]))).on_clock true).on_clock
        false).get_output x = w) ∧
    (∀ (s : RAM4K) (w x : List Bool), s.Wf → w.length = 16 → x.length = 12 →
      (((s.set_input (some (w ++ x ++ [true]))).on_clock true).on_clock
        false).get_output x = w) ∧
    (∀ (s : RAM16K) (w x : List Bool), s.Wf → w.length = 16 → x.length = 14 →
      (((s.set_input (some (w ++ x ++ [true]))).on_clock true).on_clock
        false).get_output x = w) := by
  refine ⟨?_, ?_, ?_, ?_, ?_⟩
  · intro s w x hWf hw hx
    rw [RAM8_write_read s hWf w x true hw hx x hx]
    simp
  · intro s w x hWf hw hx
    rw [RAM64_write_read s hWf w x true hw hx x hx]
    simp
  · intro s w x hWf hw hx
    rw [RAM512_write_read s hWf w x true hw hx x hx]
    simp
  · intro s w x hWf hw hx
    rw [RAM4K_write_read s hWf w x true hw hx x hx]
    simp
  · intro s w x hWf hw hx
    rw [RAM16K_write_read s hWf w x true hw hx x hx]
    simp

theorem C1_memory_roundtrip_witness :
    RAM8.Wf RAM8.init ∧ (List.replicate 16 true).length = 16 ∧
    ([true, false, true] : List Bool).length = 3 ∧
    (((RAM8.init.set_input (some (List.replicate 16 true ++ [true, false, true] ++
      [true]))).on_clock true).on_clock false).get_output [true, false, true] =
      List.replicate 16 true :=
  ⟨RAM8_init_Wf, by simp, by simp,
    C1_memory_roundtrip.1 RAM8.init (List.replicate 16 true) [true, false, true]
      RAM8_init_Wf (by simp) (by simp)⟩

/-- C2: Memory mutual exclusion and no-load hold.  For every RAM level,
after set_input with word w, address x and load bit l followed by one full
clock tick, every address y different from x returns its pre-write value
unchanged; and when l = 0 every address, including the targeted x, returns
its pre-write value. -/
theorem C2_mutual_exclusion_no_load_hold :
    (∀ (s : RAM8) (w x y : List Bool) (l : Bool), s.Wf → w.length = 16 →
      x.length = 3 → y.length = 3 → y ≠ x →
      (((s.set_input (some (w ++ x ++ [l]))).on_clock true).on_clock
        false).get_output y = s.get_output y) ∧
    (∀ (s : RAM8) (w x y : List Bool), s.Wf → w.length = 16 → x.length = 3 →
      y.length = 3 →
      (((s.set_input (some (w ++ x ++ [false]))).on_clock true).on_clock
        false).get_output y = s.get_output y) ∧
    (∀ (s : RAM64) (w x y : List Bool) (l : Bool), s.Wf → w.length = 16 →
      x.length = 6 → y.length = 6 → y ≠ x →
      (((s.set_input (some (w ++ x ++ [l]))).on_clock true).on_clock
        false).get_output y = s.get_output y) ∧
    (∀ (s : RAM64) (w x y : List Bool), s.Wf → w.length = 16 → x.length = 6 →
      y.length = 6 →
      (((s.set_input (some (w ++ x ++ [false]))).on_clock true).on_clock
        false).get_output y = s.get_output y) ∧
    (∀ (s : RAM512) (w x y : List Bool) (l : Bool), s.Wf → w.length = 16 →
      x.length = 9 → y.length = 9 → y ≠ x →
      (((s.set_input (some (w ++ x ++ [l]))).on_clock true).on_clock
        false).get_output y = s.get_output y) ∧
    (∀ (s : RAM512) (w x y : List Bool), s.Wf → w.length = 16 → x.length = 9 →
      y.length = 9 →
      (((s.set_input (some (w ++ x ++ [false]))).on_clock true).on_clock
        false).get_output y = s.get_output y) ∧
    (∀ (s : RAM4K) (w x y : List Bool) (l : Bool), s.Wf → w.length = 16 →
      x.length = 12 → y.length = 12 → y ≠ x →
      (((s.set_input (some (w ++ x ++ [l]))).on_clock true).on_clock
        false).get_output y = s.get_output y) ∧
    (∀ (s : RAM4K) (w x y : List Bool), s.Wf → w.length = 16 → x.length = 12 →
      y.length = 12 →
      (((s.set_input (some (w ++ x ++ [false]))).on_clock true).on_clock
        false).get_output y = s.get_output y) ∧
    (∀ (s : RAM16K) (w x y : List Bool) (l : Bool), s.Wf → w.length = 16 →
      x.length = 14 → y.length = 14 → y ≠ x →
      (((s.set_input (some (w ++ x ++ [l]))).on_clock true).on_clock
        false).get_output y = s.get_output y) ∧
    (∀ (s : RAM16K) (w x y : List Bool), s.Wf → w.length = 16 → x.length = 14 →
      y.length = 14 →
      (((s.set_input (some (w ++ x ++ [false]))).on_clock true).on_clock
        false).get_output y = s.get_output y) := by
  refine ⟨?_, ?_, ?_, ?_, ?_, ?_, ?_, ?_, ?_, ?_⟩
  · intro s w x y l hWf hw hx hy hne
    rw [RAM8_write_read s hWf w x l hw hx y hy]
    rw [if_neg]
    intro hc
    exact hne (blti_inj y x (hy.trans hx.symm) hc.2)
  · intro s w x y hWf hw hx hy
    rw [RAM8_write_read s hWf w x false hw hx y hy]
    simp
  · intro s w x y l hWf hw hx hy hne
    rw [RAM64_write_read s hWf w x l hw hx y hy]
    rw [if_neg]
    intro hc
    exact hne (blti_inj y x (hy.trans hx.symm) hc.2)
  · intro s w x y hWf hw hx hy
    rw [RAM64_write_read s hWf w x false hw hx y hy]
    simp
  · intro s w x y l hWf hw hx hy hne
    rw [RAM512_write_read s hWf w x l hw hx y hy]
    rw [if_neg]
    intro hc
    exact hne (blti_inj y x (hy.trans hx.symm) hc.2)
  · intro s w x y hWf hw hx hy
    rw [RAM512_write_read s hWf w x false hw hx y hy]
    simp
  · intro s w x y l hWf hw hx hy hne
    rw [RAM4K_write_read s hWf w x l hw hx y hy]
    rw [if_neg]
    intro hc
    exact hne (blti_inj y x (hy.trans hx.symm) hc.2)
  · intro s w x y hWf hw hx hy
    rw [RAM4K_write_read s hWf w x false hw hx y hy]
    simp
  · intro s w x y l hWf hw hx hy hne
    rw [RAM16K_write_read s hWf w x l hw hx y hy]
    rw [if_neg]
    intro hc
    exact hne (blti_inj y x (hy.trans hx.symm) hc.2)
  · intro s w x y hWf hw hx hy
    rw [RAM16K_write_read s hWf w x false hw hx y hy]
    simp

theorem C2_mutual_exclusion_no_load_hold_witness :
    RAM8.Wf RAM8.init ∧ ([false, true, false] : List Bool) ≠ [true, false, true] ∧
    (((RAM8.init.set_input (some (List.replicate 16 true ++ [true, false, true] ++
      [true]))).on_clock true).on_clock false).get_output [false, true, false] =
      RAM8.init.get_output [false, true, false] :=
  ⟨RAM8_init_Wf, by decide,
    C2_mutual_exclusion_no_load_hold.1 RAM8.init (List.replicate 16 true)
      [true, false, true] [false, true, false] true RAM8_init_Wf (by simp) (by simp)
      (by simp) (by decide)⟩

/-- C3: Edge-only commit.  For every storage component (DFF, Bit, RegisterN,
every RAM level, PC), calling set_input any number of times with any
well-formed inputs and no intervening clock edge leaves get_output
unchanged; for the primitive latches the stored bit itself is unchanged, so
stored state mutates only inside the clock-edge commit of on_clock. -/
theorem C3_edge_only_commit :
    (∀ (l : List (Option Bool)) (s : DFF),
      (l.foldl DFF.set_input s).get_output = s.get_output ∧
        (l.foldl DFF.set_input s).Q = s.Q) ∧
    (∀ (l : List (Option (List Bool))) (s : Bit),
      (l.foldl Bit.set_input s).get_output = s.get_output ∧
        (l.foldl Bit.set_input s).dff.Q = s.dff.Q) ∧
    (∀ (n : Nat) (l : List (Option (List Bool))) (s : RegisterN),
      RegisterN.Wf n s → (∀ i ∈ l, RegisterN.WfInput n i) →
      (l.foldl RegisterN.set_input s).get_output = s.get_output) ∧
    (∀ (l : List (Option (List Bool))) (s : RAM8), s.Wf →
      (∀ i ∈ l, RAM8.WfInput i) → ∀ y : List Bool,
      (l.foldl RAM8.set_input s).get_output y = s.get_output y) ∧
    (∀ (l : List (Option (List Bool))) (s : RAM64), s.Wf →
      (∀ i ∈ l, RAM64.WfInput i) → ∀ y : List Bool,
      (l.foldl RAM64.set_input s).get_output y = s.get_output y) ∧
    (∀ (l : List (Option (List Bool))) (s : RAM512), s.Wf →
      (∀ i ∈ l, RAM512.WfInput i) → ∀ y : List Bool,
      (l.foldl RAM512.set_input s).get_output y = s.get_output y) ∧
    (∀ (l : List (Option (List Bool))) (s : RAM4K), s.Wf →
      (∀ i ∈ l, RAM4K.WfInput i) → ∀ y : List Bool,
      (l.foldl RAM4K.set_input s).get_output y = s.get_output y) ∧
    (∀ (l : List (Option (List Bool))) (s : RAM16K), s.Wf →
      (∀ i ∈ l, RAM16K.WfInput i) → ∀ y : List Bool,
      (l.foldl RAM16K.set_input s).get_output y = s.get_output y) ∧
    (∀ (l : List (Option (List Bool))) (p : PC), p.Wf →
      (∀ i ∈ l, PC.WfInput i) →
      (l.foldl PC.set_input p).get_output = p.get_output) :=
  ⟨fun l s => DFF_foldl_set_out l s,
    fun l s => Bit_foldl_set_out l s,
    fun n l s hW hl => Reg_foldl_set_out n l s hW hl,
    fun l s hW hl y => RAM8_foldl_set_out l s hW hl y,
    fun l s hW hl y => RAM64_foldl_set_out l s hW hl y,
    fun l s hW hl y => RAM512_foldl_set_out l s hW hl y,
    fun l s hW hl y => RAM4K_foldl_set_out l s hW hl y,
    fun l s hW hl y => RAM16K_foldl_set_out l s hW hl y,
    fun l p hW hl => PC_foldl_set_out l p hW hl⟩

theorem C3_edge_only_commit_witness :
    RegisterN.Wf 16 (RegisterN.init 16) ∧
    (∀ i ∈ [some (List.replicate 17 true), some (List.replicate 17 false)],
      RegisterN.WfInput 16 i) ∧
    ([some (List.replicate 17 true), some (List.replicate 17 false)].foldl
      RegisterN.set_input (RegisterN.init 16)).get_output =
      (RegisterN.init 16).get_output :=
  ⟨Reg_init_Wf 16, by simp [RegisterN.WfInput],
    C3_edge_only_commit.2.2.1 16
      [some (List.replicate 17 true), some (List.replicate 17 false)]
      (RegisterN.init 16) (Reg_init_Wf 16) (by simp [RegisterN.WfInput])⟩

/-- C4: No double-latch.  For every sequential component, delivering the
same clock level twice in a row is the same as delivering it once (the
second on_clock call leaves the state unchanged; for PC the observable
register value is unchanged), and the DFF commits its pending input
precisely on a 0-to-1 transition of the observed level. -/
theorem C4_no_double_latch :
    (∀ (d : DFF) (c : Bool), (d.on_clock c).on_clock c = d.on_clock c) ∧
    (∀ (b : Bit) (c : Bool), (b.on_clock c).on_clock c = b.on_clock c) ∧
    (∀ (r : RegisterN) (c : Bool), (r.on_clock c).on_clock c = r.on_clock c) ∧
    (∀ (s : RAM8) (c : Bool), (s.on_clock c).on_clock c = s.on_clock c) ∧
    (∀ (s : RAM64) (c : Bool), (s.on_clock c).on_clock c = s.on_clock c) ∧
    (∀ (s : RAM512) (c : Bool), (s.on_clock c).on_clock c = s.on_clock c) ∧
    (∀ (s : RAM4K) (c : Bool), (s.on_clock c).on_clock c = s.on_clock c) ∧
    (∀ (s : RAM16K) (c : Bool), (s.on_clock c).on_clock c = s.on_clock c) ∧
    (∀ (p : PC) (c : Bool), p.Wf →
      ((p.on_clock c).on_clock c).get_output = (p.on_clock c).get_output) ∧
    (∀ (d : DFF) (c : Bool),
      (d.on_clock c).Q = if !d.prev_clk && c then d.D else d.Q) :=
  ⟨fun d c => DFF_on_idem d c, fun b c => Bit_on_idem b c,
    fun r c => Reg_on_idem r c, fun s c => RAM8_on_idem s c,
    fun s c => RAM64_on_idem s c, fun s c => RAM512_on_idem s c,
    fun s c => RAM4K_on_idem s c, fun s c => RAM16K_on_idem s c,
    fun p c hW => PC_on_out_idem p c hW, fun d c => DFF_on_clock_Q d c⟩

theorem C4_no_double_latch_witness :
    PC.Wf PC.init ∧
    ((PC.init.on_clock true).on_clock true).get_output =
      (PC.init.on_clock true).get_output :=
  ⟨PC_init_Wf, C4_no_double_latch.2.2.2.2.2.2.2.2.1 PC.init true PC_init_Wf⟩

/-- C5: PC strict priority reset over load over increment: for every
well-formed PC and every 16-bit input value, when reset=1 (regardless of
load and increment) the PC outputs all-zero after one full tick, and when
reset=0 and load=1 (regardless of increment) it outputs the supplied
16-bit value after one full tick. -/
theorem C5_pc_priority :
    (∀ (p : PC) (v : List Bool) (li i2 : Bool), p.Wf → v.length = 16 →
      (p.set_input (some (v ++ [li, i2, true]))).tick.get_output =
        List.replicate 16 false) ∧
    (∀ (p : PC) (v : List Bool) (i2 : Bool), p.Wf → v.length = 16 →
      (p.set_input (some (v ++ [true, i2, false]))).tick.get_output = v) := by
  constructor
  · intro p v li i2 hWf hv
    have h2W : (p.set_input (some (v ++ [li, i2, true]))).Wf :=
      PC_set_Wf p _ hWf (by simp [PC.WfInput, hv])
    rw [PC_tick_out _ h2W, PC_RI_val _ h2W, PC_set_some_eq p v li i2 true hv]
    simp
  · intro p v i2 hWf hv
    have h2W : (p.set_input (some (v ++ [true, i2, false]))).Wf :=
      PC_set_Wf p _ hWf (by simp [PC.WfInput, hv])
    rw [PC_tick_out _ h2W, PC_RI_val _ h2W, PC_set_some_eq p v true i2 false hv]
    simp

theorem C5_pc_priority_witness :
    PC.Wf PC.init ∧ (List.replicate 16 true).length = 16 ∧
    (PC.init.set_input (some (List.replicate 16 true ++
      [true, true, true]))).tick.get_output = List.replicate 16 false :=
  ⟨PC_init_Wf, by simp,
    C5_pc_priority.1 PC.init (List.replicate 16 true) true true PC_init_Wf (by simp)⟩

/-- C6: PC increment with wraparound: recording reset=0, load=0,
increment=1 once via set_input, n consecutive full clock ticks starting
from stored value V leave the PC at (V+n) mod 2^16, for every well-formed
start state and every n; each tick re-derives the next value from the
current stored value without a fresh set_input call. -/
theorem C6_pc_increment :
    ∀ (p : PC) (v : List Bool), p.Wf → v.length = 16 → ∀ n : Nat,
      bool_list_to_int
        ((PC.tick)^[n] (p.set_input (some (v ++ [false, true, false])))
          |>.get_output) =
      (bool_list_to_int p.get_output + n) % 2 ^ 16 := by
  intro p v hWf hv n
  have h2W : (p.set_input (some (v ++ [false, true, false]))).Wf :=
    PC_set_Wf p _ hWf (by simp [PC.WfInput, hv])
  have hr : (p.set_input (some (v ++ [false, true, false]))).reset = false := by
    rw [PC_set_some_eq p v false true false hv]
  have hl : (p.set_input (some (v ++ [false, true, false]))).load = false := by
    rw [PC_set_some_eq p v false true false hv]
  have hi2 : (p.set_input (some (v ++ [false, true, false]))).inc = true := by
    rw [PC_set_some_eq p v false true false hv]
  rw [PC_incr_n n _ h2W hr hl hi2, PC_set_out p _ hWf]

theorem C6_pc_increment_witness :
    PC.Wf PC.init ∧ (List.replicate 16 false).length = 16 ∧
    bool_list_to_int
      ((PC.tick)^[3] (PC.init.set_input (some (List.replicate 16 false ++
        [false, true, false]))) |>.get_output) =
    (bool_list_to_int PC.init.get_output + 3) % 2 ^ 16 :=
  ⟨PC_init_Wf, by simp,
    C6_pc_increment PC.init (List.replicate 16 false) PC_init_Wf (by simp) 3⟩

/-- C7: Clock tick delivery: one Clock.tick call replaces every subscriber,
in registration order, by the result of one rising-edge notification
(on_clock true) followed by one falling-edge notification (on_clock false),
increments the tick counter by exactly one and leaves the level low;
subscribe appends subscribers in order. -/
theorem C7_clock_tick_delivery :
    ∀ (σ : Type) (c : Clock σ) (step : σ → Bool → σ) (chips : List σ),
      (c.tick step).subscribers =
        c.subscribers.map (fun s => step (step s true) false) ∧
      (c.tick step).time = c.time + 1 ∧
      (c.tick step).clk_lvl = false ∧
      (c.subscribe chips).subscribers = c.subscribers ++ chips := by
  intro σ c step chips
  rw [Clock_tick_eq, Clock_subscribe_eq]
  exact ⟨rfl, rfl, rfl, rfl⟩

/-- C8 counterexample: the original atomicity claim is false for
RAM8.__setitem__: the address is validated and assigned before the value is
validated, so a call with a valid address and an invalid 15-bit value fails
with (expected, actual) = (16, 15) but leaves the component's recorded
address changed from its previous value: a partial write. -/
theorem C8_input_shape_atomicity_counterexample :
    (RAM8.setItem_checked RAM8.init [true, false, false]
      (List.replicate 15 true)).1 = some (16, 15) ∧
    (RAM8.setItem_checked RAM8.init [true, false, false]
      (List.replicate 15 true)).2.address = [true, false, false] ∧
    RAM8.init.address = [false, false, false] :=
  ⟨rfl, rfl, rfl⟩

/-- C8 (amended): every length-validated set_input call is atomic: a length
mismatch is reported with the expected and actual lengths and the state is
returned completely unchanged, and a valid length records the inputs;
but the indexed write RAM8.__setitem__ is not atomic: it validates and
assigns the address before validating the value, so a value-length failure
reports (16, actual) and leaves the new address recorded while the word,
the load flag and the registers are unchanged. -/
theorem C8_input_shape_atomicity_amended :
    (∀ (n : Nat) (s : RegisterN) (ins : List Bool), ins.length ≠ n + 1 →
      RegisterN.set_input_checked n s ins = (some (n + 1, ins.length), s)) ∧
    (∀ (s : RAM8) (ins : List Bool), ins.length ≠ 20 →
      RAM8.set_input_checked s ins = (some (20, ins.length), s)) ∧
    (∀ (n : Nat) (s : RegisterN) (ins : List Bool), ins.length = n + 1 →
      RegisterN.set_input_checked n s ins = (none, s.set_input (some ins))) ∧
    (∀ (s : RAM8) (a v : List Bool), a.length ≠ 3 →
      RAM8.setItem_checked s a v = (some (3, a.length), s)) ∧
    (∀ (s : RAM8) (a v : List Bool), a.length = 3 → v.length ≠ 16 →
      (RAM8.setItem_checked s a v).1 = some (16, v.length) ∧
      (RAM8.setItem_checked s a v).2.address = a ∧
      (RAM8.setItem_checked s a v).2.in_val = s.in_val ∧
      (RAM8.setItem_checked s a v).2.load = s.load ∧
      (RAM8.setItem_checked s a v).2.registers = s.registers) := by
  refine ⟨?_, ?_, ?_, ?_, ?_⟩
  · intro n s ins h
    simp [RegisterN.set_input_checked, input_handling, h]
  · intro s ins h
    simp [RAM8.set_input_checked, input_handling, h]
  · intro n s ins h
    simp [RegisterN.set_input_checked, input_handling, h]
  · intro s a v h
    simp [RAM8.setItem_checked, input_handling, h]
  · intro s a v h3 h16
    refine ⟨?_, ?_, ?_, ?_, ?_⟩ <;>
      simp [RAM8.setItem_checked, input_handling, h3, h16]

theorem C8_input_shape_atomicity_amended_witness :
    ([true] : List Bool).length ≠ 2 + 1 ∧
    RegisterN.set_input_checked 2 (RegisterN.init 2) [true] =
      (some (2 + 1, ([true] : List Bool).length), RegisterN.init 2) :=
  ⟨by decide, C8_input_shape_atomicity_amended.1 2 (RegisterN.init 2) [true] (by decide)⟩

/-- C9: Word/integer conversion round-trip: for every v < 2^16,
bool_list_to_int (int_to_bool_list v 16) = v; for every 16-bit boolean
list w, int_to_bool_list (bool_list_to_int w) 16 = w; and index 0 is the
least-significant bit. -/
theorem C9_conversion_roundtrip :
    (∀ v : Nat, v < 2 ^ 16 → bool_list_to_int (int_to_bool_list v 16) = v) ∧
    (∀ w : List Bool, w.length = 16 →
      int_to_bool_list (bool_list_to_int w) 16 = w) ∧
    (∀ (b : Bool) (t : List Bool),
      bool_list_to_int (b :: t) = (if b then 1 else 0) + 2 * bool_list_to_int t) := by
  refine ⟨?_, ?_, ?_⟩
  · intro v hv
    rw [blti_eq_toNatLSB, toNatLSB_int_to_bool_list, Nat.mod_eq_of_lt hv]
  · intro w hw
    rw [blti_eq_toNatLSB, ← hw, int_to_bool_list_toNatLSB]
  · intro b t
    simp only [blti_eq_toNatLSB]
    rfl

theorem C9_conversion_roundtrip_witness :
    43690 < 2 ^ 16 ∧ bool_list_to_int (int_to_bool_list 43690 16) = 43690 :=
  ⟨by norm_num, C9_conversion_roundtrip.1 43690 (by norm_num)⟩

/-- C10: For every RAM level the indexed write ram[address] = value records
only the word and the address and never modifies the recorded load flag
(initially 0); hence an indexed write performed while the last recorded
load is 0 never commits on any number of subsequent ticks, and one
performed after a set_input with load=1 commits the new word at the new
address on the next tick. -/
theorem C10_setitem_load_frame :
    (∀ (s : RAM8) (x w : List Bool),
      (s.setItem x w).in_val = w ∧ (s.setItem x w).address = x ∧
        (s.setItem x w).load = s.load) ∧
    (RAM8.init.load = false) ∧
    (∀ (s : RAM8) (x w : List Bool) (n : Nat) (y : List Bool), s.Wf →
      x.length = 3 → w.length = 16 → y.length = 3 → s.load = false →
      ((RAM8.tick)^[n] (s.setItem x w) |>.get_output y) = s.get_output y) ∧
    (∀ (s : RAM8) (w0 x0 w x : List Bool), s.Wf → w0.length = 16 →
      x0.length = 3 → w.length = 16 → x.length = 3 →
      ((s.set_input (some (w0 ++ x0 ++ [true]))).setItem x w).tick.get_output x =
        w) ∧
    (∀ (s : RAM64) (x w : List Bool),
      (s.setItem x w).in_val = w ∧ (s.setItem x w).address = x ∧
        (s.setItem x w).load = s.load) ∧
    (RAM64.init.load = false) ∧
    (∀ (s : RAM64) (x w : List Bool) (n : Nat) (y : List Bool), s.Wf →
      x.length = 6 → w.length = 16 → y.length = 6 → s.load = false →
      ((RAM64.tick)^[n] (s.setItem x w) |>.get_output y) = s.get_output y) ∧
    (∀ (s : RAM64) (w0 x0 w x : List Bool), s.Wf → w0.length = 16 →
      x0.length = 6 → w.length = 16 → x.length = 6 →
      ((s.set_input (some (w0 ++ x0 ++ [true]))).setItem x w).tick.get_output x =
        w) ∧
    (∀ (s : RAM512) (x w : List Bool),
      (s.setItem x w).in_val = w ∧ (s.setItem x w).address = x ∧
        (s.setItem x w).load = s.load) ∧
    (RAM512.init.load = false) ∧
    (∀ (s : RAM512) (x w : List Bool) (n : Nat) (y : List Bool), s.Wf →
      x.length = 9 → w.length = 16 → y.length = 9 → s.load = false →
      ((RAM512.tick)^[n] (s.setItem x w) |>.get_output y) = s.get_output y) ∧
    (∀ (s : RAM512) (w0 x0 w x : List Bool), s.Wf → w0.length = 16 →
      x0.length = 9 → w.length = 16 → x.length = 9 →
      ((s.set_input (some (w0 ++ x0 ++ [true]))).setItem x w).tick.get_output x =
        w) ∧
    (∀ (s : RAM4K) (x w : List Bool),
      (s.setItem x w).in_val = w ∧ (s.setItem x w).address = x ∧
        (s.setItem x w).load = s.load) ∧
    (RAM4K.init.load = false) ∧
    (∀ (s : RAM4K) (x w : List Bool) (n : Nat) (y : List Bool), s.Wf →
      x.length = 12 → w.length = 16 → y.length = 12 → s.load = false →
      ((RAM4K.tick)^[n] (s.setItem x w) |>.get_output y) = s.get_output y) ∧
    (∀ (s : RAM4K) (w0 x0 w x : List Bool), s.Wf → w0.length = 16 →
      x0.length = 12 → w.length = 16 → x.length = 12 →
      ((s.set_input (some (w0 ++ x0 ++ [true]))).setItem x w).tick.get_output x =
        w) ∧
    (∀ (s : RAM16K) (x w : List Bool),
      (s.setItem x w).in_val = w ∧ (s.setItem x w).address = x ∧
        (s.setItem x w).load = s.load) ∧
    (RAM16K.init.load = false) ∧
    (∀ (s : RAM16K) (x w : List Bool) (n : Nat) (y : List Bool), s.Wf →
      x.length = 14 → w.length = 16 → y.length = 14 → s.load = false →
      ((RAM16K.tick)^[n] (s.setItem x w) |>.get_output y) = s.get_output y) ∧
    (∀ (s : RAM16K) (w0 x0 w x : List Bool), s.Wf → w0.length = 16 →
      x0.length = 14 → w.length = 16 → x.length = 14 →
      ((s.set_input (some (w0 ++ x0 ++ [true]))).setItem x w).tick.get_output x =
        w) := by
  refine ⟨?_, ?_, ?_, ?_, ?_, ?_, ?_, ?_, ?_, ?_, ?_, ?_, ?_, ?_, ?_, ?_, ?_, ?_, ?_, ?_⟩
  · exact fun s x w => RAM8_setItem_fields s x w
  · rfl
  · intro s x w n y hWf hx hw hy hl
    rw [RAM8_tickN_hold n (s.setItem x w) (RAM8_setItem_Wf s x w hWf hx hw)
      (((RAM8_setItem_fields s x w).2.2).trans hl) y hy]
    exact RAM8_setItem_out s x w y hWf hx hw
  · intro s w0 x0 w x hWf hw0 hx0 hw hx
    have h1W : (s.set_input (some (w0 ++ x0 ++ [true]))).Wf :=
      RAM8_set_Wf s _ hWf (by simp [RAM8.WfInput, hw0, hx0])
    have h2W := RAM8_setItem_Wf _ x w h1W hx hw
    obtain ⟨hiv, hax, hld⟩ :=
      RAM8_setItem_fields (s.set_input (some (w0 ++ x0 ++ [true]))) x w
    have hl1 : (s.set_input (some (w0 ++ x0 ++ [true]))).load = true :=
      (RAM8_set_fields s w0 x0 true hw0 hx0).2.2
    rw [RAM8_tick_read _ h2W x hx, hiv, hax, hld, hl1]
    simp
  · exact fun s x w => RAM64_setItem_fields s x w
  · rfl
  · intro s x w n y hWf hx hw hy hl
    rw [RAM64_tickN_hold n (s.setItem x w) (RAM64_setItem_Wf s x w hWf hx hw)
      (((RAM64_setItem_fields s x w).2.2).trans hl) y hy]
    exact RAM64_setItem_out s x w y hWf hx hw
  · intro s w0 x0 w x hWf hw0 hx0 hw hx
    have h1W : (s.set_input (some (w0 ++ x0 ++ [true]))).Wf :=
      RAM64_set_Wf s _ hWf (by simp [RAM64.WfInput, hw0, hx0])
    have h2W := RAM64_setItem_Wf _ x w h1W hx hw
    obtain ⟨hiv, hax, hld⟩ :=
      RAM64_setItem_fields (s.set_input (some (w0 ++ x0 ++ [true]))) x w
    have hl1 : (s.set_input (some (w0 ++ x0 ++ [true]))).load = true :=
      (RAM64_set_fields s w0 x0 true hw0 hx0).2.2
    rw [RAM64_tick_read _ h2W x hx, hiv, hax, hld, hl1]
    simp
  · exact fun s x w => RAM512_setItem_fields s x w
  · rfl
  · intro s x w n y hWf hx hw hy hl
    rw [RAM512_tickN_hold n (s.setItem x w) (RAM512_setItem_Wf s x w hWf hx hw)
      (((RAM512_setItem_fields s x w).2.2).trans hl) y hy]
    exact RAM512_setItem_out s x w y hWf hx hw
  · intro s w0 x0 w x hWf hw0 hx0 hw hx
    have h1W : (s.set_input (some (w0 ++ x0 ++ [true]))).Wf :=
      RAM512_set_Wf s _ hWf (by simp [RAM512.WfInput, hw0, hx0])
    have h2W := RAM512_setItem_Wf _ x w h1W hx hw
    obtain ⟨hiv, hax, hld⟩ :=
      RAM512_setItem_fields (s.set_input (some (w0 ++ x0 ++ [true]))) x w
    have hl1 : (s.set_input (some (w0 ++ x0 ++ [true]))).load = true :=
      (RAM512_set_fields s w0 x0 true hw0 hx0).2.2
    rw [RAM512_tick_read _ h2W x hx, hiv, hax, hld, hl1]
    simp
  · exact fun s x w => RAM4K_setItem_fields s x w
  · rfl
  · intro s x w n y hWf hx hw hy hl
    rw [RAM4K_tickN_hold n (s.setItem x w) (RAM4K_setItem_Wf s x w hWf hx hw)
      (((RAM4K_setItem_fields s x w).2.2).trans hl) y hy]
    exact RAM4K_setItem_out s x w y hWf hx hw
  · intro s w0 x0 w x hWf hw0 hx0 hw hx
    have h1W : (s.set_input (some (w0 ++ x0 ++ [true]))).Wf :=
      RAM4K_set_Wf s _ hWf (by simp [RAM4K.WfInput, hw0, hx0])
    have h2W := RAM4K_setItem_Wf _ x w h1W hx hw
    obtain ⟨hiv, hax, hld⟩ :=
      RAM4K_setItem_fields (s.set_input (some (w0 ++ x0 ++ [true]))) x w
    have hl1 : (s.set_input (some (w0 ++ x0 ++ [true]))).load = true :=
      (RAM4K_set_fields s w0 x0 true hw0 hx0).2.2
    rw [RAM4K_tick_read _ h2W x hx, hiv, hax, hld, hl1]
    simp
  · exact fun s x w => RAM16K_setItem_fields s x w
  · rfl
  · intro s x w n y hWf hx hw hy hl
    rw [RAM16K_tickN_hold n (s.setItem x w) (RAM16K_setItem_Wf s x w hWf hx hw)
      (((RAM16K_setItem_fields s x w).2.2).trans hl) y hy]
    exact RAM16K_setItem_out s x w y hWf hx hw
  · intro s w0 x0 w x hWf hw0 hx0 hw hx
    have h1W : (s.set_input (some (w0 ++ x0 ++ [true]))).Wf :=
      RAM16K_set_Wf s _ hWf (by simp [RAM16K.WfInput, hw0, hx0])
    have h2W := RAM16K_setItem_Wf _ x w h1W hx hw
    obtain ⟨hiv, hax, hld⟩ :=
      RAM16K_setItem_fields (s.set_input (some (w0 ++ x0 ++ [true]))) x w
    have hl1 : (s.set_input (some (w0 ++ x0 ++ [true]))).load = true :=
      (RAM16K_set_fields s w0 x0 true hw0 hx0).2.2
    rw [RAM16K_tick_read _ h2W x hx, hiv, hax, hld, hl1]
    simp

theorem C10_setitem_load_frame_witness :
    RAM8.Wf RAM8.init ∧ RAM8.init.load = false ∧
    ((RAM8.tick)^[2] (RAM8.init.setItem [true, false, false]
      (List.replicate 16 true)) |>.get_output [true, false, false]) =
      RAM8.init.get_output [true, false, false] :=
  ⟨RAM8_init_Wf, rfl,
    C10_setitem_load_frame.2.2.1 RAM8.init [true, false, false]
      (List.replicate 16 true) 2 [true, false, false] RAM8_init_Wf (by simp)
      (by simp) (by simp) rfl⟩
